import Mathlib

/-- Go strings are modelled as the sequence of their characters. The source indexes bytes,
and every byte it tests is compared with an ASCII character only, so that on a string of
valid UTF-8 the fields cut from the characters are those cut from the bytes. -/
abbrev GoString := List Char

/-- Go indexing `s[i]`: `none` stands for the run-time panic on an index out of range. -/
def goIndex (s : GoString) (i : Int) : Option Char :=
  if 0 ≤ i then s[i.toNat]? else none

/-- Go slicing `s[lo:hi]`; `none` stands for the run-time panic on bad bounds. -/
def goSlice (s : GoString) (lo hi : Int) : Option GoString :=
  if 0 ≤ lo ∧ lo ≤ hi ∧ hi ≤ s.length then some ((s.drop lo.toNat).take (hi.toNat - lo.toNat)) else none

/-- Go slicing `s[lo:]`. -/
def goSliceFrom (s : GoString) (lo : Int) : Option GoString :=
  if 0 ≤ lo ∧ lo ≤ s.length then some (s.drop lo.toNat) else none

/-- Go statement `array[i] += s` on a slice of strings. -/
def goAppendAt (array : List GoString) (i : Int) (s : GoString) : Option (List GoString) :=
  if 0 ≤ i then
    match array[i.toNat]? with
    | some x => some (array.set i.toNat (x ++ s))
    | none => none
  else none

/-- The test `(c >= 'A' && c <= 'Z') || (c >= 'a' && c <= 'z')` of volumeSplitN. -/
def isDriveLetterChar (c : Char) : Bool :=
  (decide ('A' ≤ c) && decide (c ≤ 'Z')) || (decide ('a' ≤ c) && decide (c ≤ 'z'))

/-- Local variables of volumeSplitN that the loop updates. -/
structure SplitState where
  array : List GoString
  numberOfParts : Nat
  left : Nat
deriving DecidableEq, Repr

/-- The two statements `array = append(array, raw[left:right]); left = right + 1; numberOfParts++`. -/
def closePart (raw : GoString) (right : Nat) (st : SplitState) : Option SplitState :=
  match goSlice raw st.left right with
  | none => none
  | some part => some ⟨st.array ++ [part], st.numberOfParts + 1, right + 1⟩

/-- One iteration of the loop of volumeSplitN, after its break test. -/
def volumeSplitBody (raw : GoString) (right : Nat) (st : SplitState) : Option SplitState :=
  match goIndex raw right with
  | none => none
  | some c =>
    if c ≠ ':' then some st
    else
      match goIndex raw ((right : Int) - 1) with
      | none => none
      | some potentialDriveLetter =>
        if isDriveLetterChar potentialDriveLetter then
          if right > 1 then
            match goIndex raw ((right : Int) - 2) with
            | none => none
            | some beforePotentialDriveLetter =>
              if beforePotentialDriveLetter ≠ ':' ∧ beforePotentialDriveLetter ≠ '\\' then
                closePart raw right st
              else some st
          else some st
        else closePart raw right st

/-- The loop `for right := 1; right < len(raw); right++`, started at `right`; the first
argument bounds the number of iterations and `none` is returned when it is used up. -/
def volumeSplitLoop (raw : GoString) (n : Int) : Nat → Nat → SplitState → Option SplitState
  | 0, _, _ => none
  | fuel + 1, right, st =>
    if right < raw.length then
      if n ≥ 0 ∧ (st.numberOfParts : Int) ≥ n then some st
      else
        match volumeSplitBody raw right st with
        | none => none
        | some st1 => volumeSplitLoop raw n fuel (right + 1) st1
    else some st

/-- The function volumeSplitN. -/
def volumeSplitN (raw : GoString) (n : Int) : Option (List GoString) :=
  if raw.length = 0 then some []
  else
    match goIndex raw 0 with
    | none => none
    | some c0 =>
      if c0 = ':' then some []
      else
        match volumeSplitLoop raw n raw.length 1 ⟨[], 0, 0⟩ with
        | none => none
        | some st =>
          if st.left < raw.length then
            if n ≥ 0 ∧ (st.numberOfParts : Int) ≥ n then
              match goSliceFrom raw ((st.left : Int) - 1) with
              | none => none
              | some rest => goAppendAt st.array (n - 1) rest
            else
              match goSliceFrom raw st.left with
              | none => none
              | some rest => some (st.array ++ [rest])
          else some st.array

/-- Spec-side: the character at index `i` of `raw` is a separator colon. -/
def isSeparatorColon (raw : GoString) (i : Nat) : Bool :=
  decide (1 ≤ i) && (raw[i]? == some ':') &&
    !((raw[i - 1]?).any Char.isAlpha &&
      (i == 1 || raw[i - 2]? == some ':' || raw[i - 2]? == some '\\'))

/-- Spec-side: the indices of the separator colons of `raw`, in increasing order. -/
def separatorColons (raw : GoString) : List Nat :=
  (List.range raw.length).filter (isSeparatorColon raw)

/-- Spec-side: the segments of `raw` from index `start` on, cut at the given increasing
indices, each of which is left out of the segments. -/
def cutAt (raw : GoString) : List Nat → Nat → List GoString
  | [], start => [raw.drop start]
  | p :: ps, start => (raw.drop start).take (p - start) :: cutAt raw ps (p + 1)

/-- Spec-side: a final empty segment is omitted. -/
def omitFinalEmpty (segs : List GoString) : List GoString :=
  if segs.getLast? = some [] then segs.dropLast else segs

/-- Spec-side reference definition of volumeSplitN without a limit: nothing for an empty
string or one starting with a colon, otherwise the segments of `raw` cut at its separator
colons, a final empty segment being omitted. -/
def volumeSplitRef (raw : GoString) : List GoString :=
  if raw = [] ∨ raw.head? = some ':' then [] else omitFinalEmpty (cutAt raw (separatorColons raw) 0)

/-- Loop invariant of volumeSplitN: the closed parts, each followed by its separator colon,
make up the first `left` characters of `raw`. -/
structure SplitInv (raw : GoString) (n : Int) (st : SplitState) : Prop where
  left_le : st.left ≤ raw.length
  parts_eq : st.numberOfParts = st.array.length
  joined : (st.array.map (fun part => part ++ [':'])).flatten = raw.take st.left
  sep : 1 ≤ st.left → isSeparatorColon raw (st.left - 1) = true
  bound : 0 ≤ n → (st.numberOfParts : Int) ≤ n
  nonempty : st.array = [] ↔ st.left = 0

/-- A Go error value built by fmt.Errorf: the format string and its arguments, unrendered
(a string argument, an integer argument, or a string and an error argument). -/
inductive GoError where
  | errorf (format : String) (args : List GoString) : GoError
  | errorfInt (format : String) (arg : Int) : GoError
  | errorfErr (format : String) (arg : GoString) (cause : GoError) : GoError
  /-- A run-time panic leaving the function: not an error value, kept apart from them. -/
  | runtimePanic : GoError
deriving DecidableEq, Repr

deriving instance DecidableEq for Except

/-- Go `strings.Split(s, sep)` for a one-character separator: the substrings between the
occurrences of `sep`; the result is never empty. -/
def stringsSplit (sep : Char) : GoString → List GoString
  | [] => [[]]
  | c :: cs =>
    if c = sep then [] :: stringsSplit sep cs
    else (c :: (stringsSplit sep cs).headD []) :: (stringsSplit sep cs).tail

/-- Go `strings.SplitN(s, sep, n)` for a one-character separator and `n ≥ 0`: at most `n`
substrings, the last one being the unsplit remainder. -/
def stringsSplitN (sep : Char) : Nat → GoString → List GoString
  | 0, _ => []
  | 1, s => [s]
  | _ + 2, [] => [[]]
  | n + 2, c :: cs =>
    if c = sep then [] :: stringsSplitN sep (n + 1) cs
    else (c :: (stringsSplitN sep (n + 2) cs).headD []) :: (stringsSplitN sep (n + 2) cs).tail

/-- Go `strings.Count(s, sep)` for a one-character separator. -/
def stringsCount (sep : Char) (s : GoString) : Nat := s.count sep

/-- Go `strings.Contains(s, sep)` for a one-character separator. -/
def stringsContains (sep : Char) (s : GoString) : Bool := decide (sep ∈ s)

/-- Go `strings.HasPrefix(s, prefix)`. -/
def stringsHasPrefix (s pre : GoString) : Bool := pre.isPrefixOf s

/-- Go `strings.LastIndex(s, sep)` for a one-character separator; -1 when `sep` is absent. -/
def stringsLastIndex (sep : Char) : GoString → Int
  | [] => -1
  | c :: cs =>
    if stringsLastIndex sep cs ≥ 0 then stringsLastIndex sep cs + 1
    else if c = sep then 0 else -1

/-- Go `path.Split(p)`: `i := strings.LastIndex(p, "/"); return p[:i+1], p[i+1:]`. -/
def pathSplit (p : GoString) : GoString × GoString :=
  let i := stringsLastIndex '/' p
  (p.take (i + 1).toNat, p.drop (i + 1).toNat)

/-- Go `path.IsAbs(p)`: `len(p) > 0 && p[0] == '/'`. -/
def pathIsAbs (p : GoString) : Bool := p.head? == some '/'

/-- The type container.DeviceMapping. -/
structure DeviceMapping where
  PathOnHost : GoString
  PathInContainer : GoString
  CgroupPermissions : GoString
deriving DecidableEq, Repr

/-- The loop of ValidDeviceMode over the characters of `mode`; `legal` is the map
legalDeviceMode, a missing key reading as false. -/
def validDeviceModeLoop : GoString → (Char → Bool) → Bool
  | [], _ => true
  | c :: cs, legal =>
    if !legal c then false
    else validDeviceModeLoop cs (fun x => if x = c then false else legal x)

/-- The function ValidDeviceMode. -/
def ValidDeviceMode (mode : GoString) : Bool :=
  if mode = [] then false
  else validDeviceModeLoop mode (fun c => c = 'r' || c = 'w' || c = 'm')

/-- Local variables of ParseDevice. -/
structure DeviceVars where
  src : GoString
  dst : GoString
  permissions : GoString
deriving DecidableEq, Repr

/-- Body of `case 1` in ParseDevice. -/
def parseDeviceCase1 (arr : List GoString) (v : DeviceVars) : DeviceVars :=
  { v with src := arr.getD 0 [] }

/-- Body of `case 2` in ParseDevice, falling through to `case 1`. -/
def parseDeviceCase2 (arr : List GoString) (v : DeviceVars) : DeviceVars :=
  parseDeviceCase1 arr
    (if ValidDeviceMode (arr.getD 1 []) then { v with permissions := arr.getD 1 [] }
     else { v with dst := arr.getD 1 [] })

/-- Body of `case 3` in ParseDevice, falling through to `case 2`. -/
def parseDeviceCase3 (arr : List GoString) (v : DeviceVars) : DeviceVars :=
  parseDeviceCase2 arr { v with permissions := arr.getD 2 [] }

/-- The function ParseDevice. The indices read in each case are below `len(arr)`. -/
def ParseDevice (device : GoString) : Except GoError DeviceMapping :=
  let v0 : DeviceVars := ⟨[], [], "rwm".toList⟩
  let arr := stringsSplit ':' device
  let switched : Except GoError DeviceVars :=
    if arr.length = 3 then .ok (parseDeviceCase3 arr v0)
    else if arr.length = 2 then .ok (parseDeviceCase2 arr v0)
    else if arr.length = 1 then .ok (parseDeviceCase1 arr v0)
    else .error (.errorf "invalid device specification: %s" [device])
  match switched with
  | .error e => .error e
  | .ok v =>
    let dst := if v.dst = [] then v.src else v.dst
    .ok { PathOnHost := v.src, PathInContainer := dst, CgroupPermissions := v.permissions }

/-- The function ParseLink. -/
def ParseLink (val : GoString) : Except GoError (GoString × GoString) :=
  if val = [] then .error (.errorf "empty string specified for links" [])
  else
    let arr := stringsSplit ':' val
    if arr.length > 2 then .error (.errorf "bad format for links: %s" [val])
    else if arr.length = 1 then .ok (val, val)
    else if stringsHasPrefix (arr.getD 0 []) "/".toList then
      .ok ((arr.getD 0 []).drop 1, (pathSplit (arr.getD 1 [])).2)
    else .ok (arr.getD 0 [], arr.getD 1 [])

/-- The function ValidateLink; the string returned beside the error is `val` in both cases. -/
def ValidateLink (val : GoString) : Except GoError GoString :=
  match ParseLink val with
  | .error e => .error e
  | .ok _ => .ok val

/-- Go `fmt.Sprintf` with a format made of `%s` verbs separated by colons. -/
def sprintfColon (parts : List GoString) : GoString := List.intercalate [':'] parts

/-- The function validatePath; `validator` is the mode validator and `clean` stands for the
library function path.Clean. The string returned beside an error is dropped. -/
def validatePath (clean : GoString → GoString) (val : GoString)
    (validator : GoString → Bool) : Except GoError GoString :=
  if stringsCount ':' val > 2 then .error (.errorf "bad format for path: %s" [val])
  else
    let split := stringsSplitN ':' 3 val
    if split.getD 0 [] = [] then .error (.errorf "bad format for path: %s" [val])
    else
      let switched : Except GoError (GoString × GoString) :=
        if split.length = 1 then
          .ok (split.getD 0 [], clean (split.getD 0 []))
        else if split.length = 2 then
          if validator (split.getD 1 []) then
            .ok (split.getD 0 [], sprintfColon [clean (split.getD 0 []), split.getD 1 []])
          else
            .ok (split.getD 1 [], sprintfColon [split.getD 0 [], clean (split.getD 1 [])])
        else if split.length = 3 then
          if !validator (split.getD 2 []) then
            .error (.errorf "bad mode specified: %s" [split.getD 2 []])
          else
            .ok (split.getD 1 [],
              sprintfColon [split.getD 0 [], split.getD 1 [], split.getD 2 []])
        else .ok ([], val)
      match switched with
      | .error e => .error e
      | .ok (containerPath, val1) =>
        if !pathIsAbs containerPath then
          .error (.errorf "%s is not an absolute path" [containerPath])
        else .ok val1

/-- The function ValidateDevice. -/
def ValidateDevice (clean : GoString → GoString) (val : GoString) : Except GoError GoString :=
  validatePath clean val ValidDeviceMode

/-- Spec-side: the part of `s` after its last slash (all of `s` when it has none). -/
def afterLastSlash (s : GoString) : GoString :=
  (s.reverse.takeWhile (fun c => c != '/')).reverse

/-- Spec-side reference definition of ParseLink; `none` stands for failure. -/
def ParseLinkRef (val : GoString) : Option (GoString × GoString) :=
  if val = [] ∨ val.count ':' > 1 then none
  else if ':' ∉ val then some (val, val)
  else
    let name := val.takeWhile (fun c => c != ':')
    let second := (val.dropWhile (fun c => c != ':')).drop 1
    if name.head? = some '/' then some (name.drop 1, afterLastSlash second)
    else some (name, second)

/-- Go maps with string keys, as association lists holding each key at most once. Go leaves
the order of a map unspecified; only lookups of the modelled maps are meaningful. -/
abbrev GoMap (V : Type) := List (GoString × V)

/-- Go map assignment `m[k] = v`. -/
def goMapSet {V : Type} (m : GoMap V) (k : GoString) (v : V) : GoMap V :=
  (k, v) :: m.filter (fun e => e.1 != k)

/-- Go map lookup `m[k]`, `none` when the key is absent. -/
def goMapGet {V : Type} (m : GoMap V) (k : GoString) : Option V :=
  (m.find? (fun e => e.1 == k)).map (fun e => e.2)

/-- Go sets (maps from strings to the empty struct), as lists of distinct keys: insertion
of a key. -/
def goSetAdd (m : List GoString) (k : GoString) : List GoString :=
  if k ∈ m then m else m ++ [k]

/-- Modelled from the spec: the list-option collection `opts.ListOpts`, declared in package
`opts` outside this file: an ordered, duplicate-tolerant sequence of option values with an
"all values" view and a "deduplicated mapping" view. -/
structure ListOpts where
  values : List GoString
deriving DecidableEq, Repr

/-- Modelled from the spec: `ListOpts.GetAll`, the "all values" view of the collection; it is
the stored sequence itself, so a write into it is a write into the options. -/
def ListOpts.GetAll (o : ListOpts) : List GoString := o.values

/-- Modelled from the spec: `ListOpts.GetAllOrEmpty`, the values, an empty slice instead of
nil when there are none (nil and empty slices are both the empty list here). -/
def ListOpts.GetAllOrEmpty (o : ListOpts) : List GoString := o.values

/-- Modelled from the spec: `ListOpts.Len`, the number of values. -/
def ListOpts.Len (o : ListOpts) : Nat := o.values.length

/-- Modelled from the spec: `ListOpts.Get`, whether `key` is among the values. -/
def ListOpts.Get (o : ListOpts) (key : GoString) : Bool := decide (key ∈ o.values)

/-- Modelled from the spec: `ListOpts.GetMap`, the "deduplicated mapping" view: a fresh set
holding each value once. -/
def ListOpts.GetMap (o : ListOpts) : List GoString := o.values.dedup

/-- Modelled from the spec: `ListOpts.Delete`, of the list-option type that is not part of
this source file. The spec only says that Parse removes a bind entry from the collection; the
method takes one occurrence of `key`, the first, out of the stored sequence, and a second
occurrence of the same value stays. -/
def ListOpts.Delete (o : ListOpts) (key : GoString) : ListOpts :=
  ⟨o.values.erase key⟩

/-- Entry of `WeightdeviceOpt.GetList()`; the type is declared outside this file and Parse
only copies the list. -/
structure WeightDevice where
  Path : GoString
  Weight : Nat
deriving DecidableEq, Repr

/-- Entry of `ThrottledeviceOpt.GetList()`; declared outside this file, only copied. -/
structure ThrottleDevice where
  Path : GoString
  Rate : Nat
deriving DecidableEq, Repr

/-- Entry of `UlimitOpt.GetList()`; declared outside this file, only copied. -/
structure Ulimit where
  Name : GoString
  Hard : Int
  Soft : Int
deriving DecidableEq, Repr

/-- The type nat.PortBinding of the port collaborator. -/
structure PortBinding where
  HostIP : GoString
  HostPort : GoString
deriving DecidableEq, Repr

/-- The struct ContainerOptions. Durations and integers are mathematical integers. -/
structure ContainerOptions where
  flAttach : ListOpts
  flVolumes : ListOpts
  flTmpfs : ListOpts
  flBlkioWeightDevice : List WeightDevice
  flDeviceReadBps : List ThrottleDevice
  flDeviceWriteBps : List ThrottleDevice
  flLinks : ListOpts
  flAliases : ListOpts
  flLinkLocalIPs : ListOpts
  flDeviceReadIOps : List ThrottleDevice
  flDeviceWriteIOps : List ThrottleDevice
  flEnv : ListOpts
  flLabels : ListOpts
  flDevices : ListOpts
  flUlimits : List Ulimit
  flSysctls : GoMap GoString
  flPublish : ListOpts
  flExpose : ListOpts
  flDNS : ListOpts
  flDNSSearch : ListOpts
  flDNSOptions : ListOpts
  flExtraHosts : ListOpts
  flVolumesFrom : ListOpts
  flEnvFile : ListOpts
  flCapAdd : ListOpts
  flCapDrop : ListOpts
  flGroupAdd : ListOpts
  flSecurityOpt : ListOpts
  flStorageOpt : ListOpts
  flLabelsFile : ListOpts
  flLoggingOpts : ListOpts
  flPrivileged : Bool
  flPidMode : GoString
  flUTSMode : GoString
  flUsernsMode : GoString
  flPublishAll : Bool
  flStdin : Bool
  flTty : Bool
  flOomKillDisable : Bool
  flOomScoreAdj : Int
  flContainerIDFile : GoString
  flEntrypoint : GoString
  flHostname : GoString
  flMemoryString : GoString
  flMemoryReservation : GoString
  flMemorySwap : GoString
  flKernelMemory : GoString
  flUser : GoString
  flWorkingDir : GoString
  flCPUShares : Int
  flCPUPercent : Int
  flCPUPeriod : Int
  flCPUQuota : Int
  flCpusetCpus : GoString
  flCpusetMems : GoString
  flBlkioWeight : Nat
  flIOMaxBandwidth : GoString
  flIOMaxIOps : Nat
  flSwappiness : Int
  flNetMode : GoString
  flMacAddress : GoString
  flIPv4Address : GoString
  flIPv6Address : GoString
  flIpcMode : GoString
  flPidsLimit : Int
  flRestartPolicy : GoString
  flReadonlyRootfs : Bool
  flLoggingDriver : GoString
  flCgroupParent : GoString
  flVolumeDriver : GoString
  flStopSignal : GoString
  flIsolation : GoString
  flShmSize : GoString
  flNoHealthcheck : Bool
  flHealthCmd : GoString
  flHealthInterval : Int
  flHealthTimeout : Int
  flHealthRetries : Int
  flRuntime : GoString
  Image : GoString
  Args : List GoString
deriving DecidableEq, Repr

/-- The functions Parse calls that are declared outside this file (other packages, the Go
library, the Go runtime), taken as parameters. -/
structure Collaborators where
  /-- The validator ValidateMACAddress. -/
  ValidateMACAddress : GoString → Except GoError GoString
  /-- The byte-size grammar units.RAMInBytes. -/
  RAMInBytes : GoString → Except GoError Int
  /-- The mount-options grammar mount.ParseTmpfsOptions, of which only the error is used. -/
  ParseTmpfsOptions : GoString → Except GoError Unit
  /-- The port collaborator nat.ParsePortSpecs: exposed ports and port bindings. -/
  ParsePortSpecs : List GoString → Except GoError (List GoString × GoMap (List PortBinding))
  /-- The port collaborator nat.SplitProtoPort. -/
  SplitProtoPort : GoString → GoString × GoString
  /-- The port collaborator nat.ParsePortRange. -/
  ParsePortRange : GoString → Except GoError (Nat × Nat)
  /-- The port collaborator nat.NewPort. -/
  NewPort : GoString → GoString → Except GoError GoString
  /-- The line reader ParseEnvFile. -/
  ParseEnvFile : GoString → Except GoError (List GoString)
  /-- The method container.IpcMode.Valid. -/
  IpcModeValid : GoString → Bool
  /-- The method container.PidMode.Valid. -/
  PidModeValid : GoString → Bool
  /-- The method container.UTSMode.Valid. -/
  UTSModeValid : GoString → Bool
  /-- The method container.UsernsMode.Valid. -/
  UsernsModeValid : GoString → Bool
  /-- The method container.NetworkMode.IsUserDefined. -/
  IsUserDefined : GoString → Bool
  /-- The library function ioutil.ReadFile. -/
  ReadFile : GoString → Except GoError GoString
  /-- The library function json.Compact. -/
  jsonCompact : GoString → Except GoError GoString
  /-- The order in which a `range` over a Go map with the given keys visits them: each key
  once, in an order that Go leaves unspecified. -/
  mapRange : (keys : List GoString) → { visited : List GoString // visited.Perm keys }

/-- The flag set handed to Parse, of which only `Changed` is used. -/
structure FlagSet where
  Changed : String → Bool

/-- The type container.RestartPolicy. -/
structure RestartPolicy where
  Name : GoString
  MaximumRetryCount : Int
deriving DecidableEq, Repr

/-- The type container.HealthConfig. -/
structure HealthConfig where
  Test : List GoString
  Interval : Int
  Timeout : Int
  Retries : Int
deriving DecidableEq, Repr

/-- The type container.LogConfig; its field `Type` is written `Type_`. -/
structure LogConfig where
  Type_ : GoString
  Config : GoMap GoString
deriving DecidableEq, Repr

/-- The type container.Resources, with the fields Parse sets. The pointers MemorySwappiness
and OomKillDisable point at the fields of the options and are given by their values. -/
structure Resources where
  CgroupParent : GoString
  Memory : Int
  MemoryReservation : Int
  MemorySwap : Int
  MemorySwappiness : Int
  KernelMemory : Int
  OomKillDisable : Bool
  CPUPercent : Int
  CPUShares : Int
  CPUPeriod : Int
  CpusetCpus : GoString
  CpusetMems : GoString
  CPUQuota : Int
  PidsLimit : Int
  BlkioWeight : Nat
  BlkioWeightDevice : List WeightDevice
  BlkioDeviceReadBps : List ThrottleDevice
  BlkioDeviceWriteBps : List ThrottleDevice
  BlkioDeviceReadIOps : List ThrottleDevice
  BlkioDeviceWriteIOps : List ThrottleDevice
  IOMaximumIOps : Nat
  IOMaximumBandwidth : Nat
  Ulimits : List Ulimit
  Devices : List DeviceMapping
deriving DecidableEq, Repr

/-- The type container.Config, with the fields Parse sets. -/
structure Config where
  Hostname : GoString
  ExposedPorts : List GoString
  User : GoString
  Tty : Bool
  NetworkDisabled : Bool
  OpenStdin : Bool
  AttachStdin : Bool
  AttachStdout : Bool
  AttachStderr : Bool
  Env : List GoString
  Cmd : List GoString
  Image : GoString
  Volumes : List GoString
  MacAddress : GoString
  Entrypoint : List GoString
  WorkingDir : GoString
  Labels : GoMap GoString
  Healthcheck : Option HealthConfig
  StopSignal : GoString
  StdinOnce : Bool
deriving DecidableEq, Repr

/-- The type container.HostConfig, with the fields Parse sets. -/
structure HostConfig where
  Binds : List GoString
  ContainerIDFile : GoString
  OomScoreAdj : Int
  Privileged : Bool
  PortBindings : GoMap (List PortBinding)
  Links : List GoString
  PublishAllPorts : Bool
  DNS : List GoString
  DNSSearch : List GoString
  DNSOptions : List GoString
  ExtraHosts : List GoString
  VolumesFrom : List GoString
  NetworkMode : GoString
  IpcMode : GoString
  PidMode : GoString
  UTSMode : GoString
  UsernsMode : GoString
  CapAdd : List GoString
  CapDrop : List GoString
  GroupAdd : List GoString
  RestartPolicy : RestartPolicy
  SecurityOpt : List GoString
  StorageOpt : GoMap GoString
  ReadonlyRootfs : Bool
  LogConfig : LogConfig
  VolumeDriver : GoString
  Isolation : GoString
  ShmSize : Int
  Resources : Resources
  Tmpfs : GoMap GoString
  Sysctls : GoMap GoString
  Runtime : GoString
deriving DecidableEq, Repr

/-- The type network.EndpointIPAMConfig. -/
structure EndpointIPAMConfig where
  IPv4Address : GoString
  IPv6Address : GoString
  LinkLocalIPs : List GoString
deriving DecidableEq, Repr

/-- The type network.EndpointSettings, with the fields Parse sets. -/
structure EndpointSettings where
  IPAMConfig : Option EndpointIPAMConfig
  Links : List GoString
  Aliases : List GoString
deriving DecidableEq, Repr

/-- The type network.NetworkingConfig. -/
structure NetworkingConfig where
  EndpointsConfig : GoMap EndpointSettings
deriving DecidableEq, Repr

/-- What a successful call of Parse leaves: the three configurations it returns and the
options, which it updates in place. -/
structure ParseResult where
  config : Config
  hostConfig : HostConfig
  networkingConfig : NetworkingConfig
  copts : ContainerOptions
deriving DecidableEq, Repr

/-- Value of a decimal digit, `none` for any other character. -/
def digitValue (c : Char) : Option Nat :=
  if '0' ≤ c ∧ c ≤ '9' then some (c.toNat - '0'.toNat) else none

/-- The digit loop of the library function strconv.ParseUint in base 10, without its
overflow test (the caller compares the exact value with its cutoff). -/
def parseUintDigits : GoString → Nat → Option Nat
  | [], acc => some acc
  | c :: cs, acc =>
    match digitValue c with
    | none => none
    | some d => parseUintDigits cs (acc * 10 + d)

/-- The library function strconv.Atoi for a 64-bit `int`: an optional sign, then decimal
digits, the value lying in the range of the type. -/
def strconvAtoi (s : GoString) : Except GoError Int :=
  if s = [] then .error (.errorf "strconv.ParseInt: parsing %q: invalid syntax" [s])
  else
    let neg : Bool := s.head? == some '-'
    let s1 := if s.head? = some '+' ∨ s.head? = some '-' then s.drop 1 else s
    if s1 = [] then .error (.errorf "strconv.ParseInt: parsing %q: invalid syntax" [s])
    else
      match parseUintDigits s1 0 with
      | none => .error (.errorf "strconv.ParseInt: parsing %q: invalid syntax" [s])
      | some un =>
        if neg = false ∧ un ≥ 2 ^ 63 then
          .error (.errorf "strconv.ParseInt: parsing %q: value out of range" [s])
        else if neg = true ∧ un > 2 ^ 63 then
          .error (.errorf "strconv.ParseInt: parsing %q: value out of range" [s])
        else .ok (if neg then -(un : Int) else (un : Int))

/-- The library function strconv.FormatUint in base 10. -/
def strconvFormatUint (i : Nat) : GoString := Nat.toDigits 10 i

/-- The function readKVStrings: the loop over `files`, then the append of `override`. -/
def readKVStringsFiles (c : Collaborators) :
    List GoString → List GoString → Except GoError (List GoString)
  | [], envVariables => .ok envVariables
  | ef :: files, envVariables =>
    match c.ParseEnvFile ef with
    | .error err => .error err
    | .ok parsedVars => readKVStringsFiles c files (envVariables ++ parsedVars)

/-- The function readKVStrings. -/
def readKVStrings (c : Collaborators) (files : List GoString) (override : List GoString) :
    Except GoError (List GoString) :=
  match readKVStringsFiles c files [] with
  | .error err => .error err
  | .ok envVariables => .ok (envVariables ++ override)

/-- The loop body of ConvertKVStringsToMap. -/
def convertKVEntry (result : GoMap GoString) (value : GoString) : GoMap GoString :=
  let kv := stringsSplitN '=' 2 value
  if kv.length = 1 then goMapSet result (kv.getD 0 []) []
  else goMapSet result (kv.getD 0 []) (kv.getD 1 [])

/-- The function ConvertKVStringsToMap. -/
def ConvertKVStringsToMap (values : List GoString) : GoMap GoString :=
  values.foldl convertKVEntry []

/-- The function parseLoggingOpts. -/
def parseLoggingOpts (loggingDriver : GoString) (loggingOpts : List GoString) :
    Except GoError (GoMap GoString) :=
  let loggingOptsMap := ConvertKVStringsToMap loggingOpts
  if loggingDriver = "none".toList ∧ loggingOpts.length > 0 then
    .error (.errorf "invalid logging opts for driver %s" [loggingDriver])
  else .ok loggingOptsMap

/-- The loop body of parseSecurityOpts for the entry `opt`: the value the entry has after
the iteration. -/
def parseSecurityOpt (c : Collaborators) (opt : GoString) : Except GoError GoString :=
  let con0 := stringsSplitN '=' 2 opt
  let split : Except GoError (List GoString) :=
    if con0.length = 1 ∧ con0.getD 0 [] ≠ "no-new-privileges".toList then
      if stringsContains ':' opt then .ok (stringsSplitN ':' 2 opt)
      else .error (.errorf "Invalid --security-opt: %q" [opt])
    else .ok con0
  match split with
  | .error err => .error err
  | .ok con =>
    if con.getD 0 [] = "seccomp".toList ∧ con.getD 1 [] ≠ "unconfined".toList then
      match c.ReadFile (con.getD 1 []) with
      | .error err =>
        .error (.errorfErr "opening seccomp profile (%s) failed: %v" (con.getD 1 []) err)
      | .ok f =>
        match c.jsonCompact f with
        | .error err =>
          .error (.errorfErr "compacting json for seccomp profile (%s) failed: %v"
            (con.getD 1 []) err)
        | .ok b => .ok ("seccomp=".toList ++ b)
    else .ok opt

/-- The function parseSecurityOpts: the slice it returns is its argument, updated in place. -/
def parseSecurityOpts (c : Collaborators) : List GoString → Except GoError (List GoString)
  | [] => .ok []
  | opt :: rest =>
    match parseSecurityOpt c opt with
    | .error err => .error err
    | .ok opt1 =>
      match parseSecurityOpts c rest with
      | .error err => .error err
      | .ok rest1 => .ok (opt1 :: rest1)

/-- The loop of parseStorageOpts. -/
def parseStorageOptsLoop : List GoString → GoMap GoString → Except GoError (GoMap GoString)
  | [], m => .ok m
  | option :: rest, m =>
    if stringsContains '=' option then
      let opt := stringsSplitN '=' 2 option
      parseStorageOptsLoop rest (goMapSet m (opt.getD 0 []) (opt.getD 1 []))
    else .error (.errorf "Invalid storage option." [])

/-- The function parseStorageOpts. -/
def parseStorageOpts (storageOpts : List GoString) : Except GoError (GoMap GoString) :=
  parseStorageOptsLoop storageOpts []

/-- The function ParseRestartPolicy; the policy returned beside an error is dropped. -/
def ParseRestartPolicy (policy : GoString) : Except GoError RestartPolicy :=
  if policy = [] then .ok ⟨[], 0⟩
  else
    let parts := stringsSplit ':' policy
    let name := parts.getD 0 []
    if name = "always".toList ∨ name = "unless-stopped".toList then
      if parts.length > 1 then
        .error (.errorf "maximum restart count not valid with restart policy of \"%s\"" [name])
      else .ok ⟨name, 0⟩
    else if name = "no".toList then .ok ⟨name, 0⟩
    else if name = "on-failure".toList then
      if parts.length > 2 then
        .error (.errorf
          "restart count format is not valid, usage: 'on-failure:N' or 'on-failure'" [])
      else if parts.length = 2 then
        match strconvAtoi (parts.getD 1 []) with
        | .error err => .error err
        | .ok count => .ok ⟨name, count⟩
      else .ok ⟨name, 0⟩
    else .error (.errorf "invalid restart policy %s" [name])

/-- The mac-address block of Parse. -/
def parseMacAddress (c : Collaborators) (copts : ContainerOptions) : Except GoError Unit :=
  if copts.flMacAddress ≠ [] then
    match c.ValidateMACAddress copts.flMacAddress with
    | .error _ => .error (.errorf "%s is not a valid mac address" [copts.flMacAddress])
    | .ok _ => .ok ()
  else .ok ()

/-- The blocks of Parse that read a size with units.RAMInBytes when the option is set
(memory, memory reservation, kernel memory, shm size); the variable is zero otherwise. -/
def parseSize (c : Collaborators) (s : GoString) : Except GoError Int :=
  if s ≠ [] then c.RAMInBytes s else .ok 0

/-- The memory-swap block of Parse. -/
def parseMemorySwap (c : Collaborators) (s : GoString) : Except GoError Int :=
  if s ≠ [] then
    if s = "-1".toList then .ok (-1) else c.RAMInBytes s
  else .ok 0

/-- The swappiness block of Parse. -/
def parseSwappiness (swappiness : Int) : Except GoError Unit :=
  if swappiness ≠ -1 ∧ (swappiness < 0 ∨ swappiness > 100) then
    .error (.errorfInt "invalid value: %d. Valid memory swappiness range is 0-100" swappiness)
  else .ok ()

/-- The io-maxbandwidth block of Parse. -/
def parseIOMaxBandwidth (c : Collaborators) (s : GoString) : Except GoError Int :=
  if s ≠ [] then
    match c.RAMInBytes s with
    | .error err => .error err
    | .ok maxIOBandwidth =>
      if maxIOBandwidth < 0 then
        .error (.errorf "invalid value: %s. Maximum IO Bandwidth must be positive" [s])
      else .ok maxIOBandwidth
  else .ok 0

/-- The loop `for bind := range copts.flVolumes.GetMap()` of Parse over the keys still to
visit; the state is the slice `binds` and the list option flVolumes. -/
def parseBindsLoop :
    List GoString → List GoString × ListOpts → Except GoError (List GoString × ListOpts)
  | [], st => .ok st
  | bind :: rest, (binds, flVolumes) =>
    match volumeSplitN bind 2 with
    | none => .error .runtimePanic
    | some arr =>
      if arr.length > 1 then parseBindsLoop rest (binds ++ [bind], flVolumes.Delete bind)
      else parseBindsLoop rest (binds, flVolumes)

/-- The tmpfs loop of Parse. -/
def parseTmpfsLoop (c : Collaborators) :
    List GoString → GoMap GoString → Except GoError (GoMap GoString)
  | [], tmpfs => .ok tmpfs
  | t :: rest, tmpfs =>
    let arr := stringsSplitN ':' 2 t
    if arr.length > 1 then
      match c.ParseTmpfsOptions (arr.getD 1 []) with
      | .error err => .error err
      | .ok _ => parseTmpfsLoop c rest (goMapSet tmpfs (arr.getD 0 []) (arr.getD 1 []))
    else parseTmpfsLoop c rest (goMapSet tmpfs (arr.getD 0 []) [])

/-- The inner loop `for i := start; i <= end; i++` of the expose block of Parse, over the
port numbers still to visit. -/
def parseExposeRange (c : Collaborators) (proto : GoString) :
    List Nat → List GoString → Except GoError (List GoString)
  | [], ports => .ok ports
  | i :: rest, ports =>
    match c.NewPort proto (strconvFormatUint i) with
    | .error err => .error err
    | .ok p => parseExposeRange c proto rest (goSetAdd ports p)

/-- The expose loop of Parse. -/
def parseExposeLoop (c : Collaborators) :
    List GoString → List GoString → Except GoError (List GoString)
  | [], ports => .ok ports
  | e :: rest, ports =>
    if stringsContains ':' e then
      .error (.errorf "invalid port format for --expose: %s" [e])
    else
      match c.ParsePortRange (c.SplitProtoPort e).2 with
      | .error err =>
        .error (.errorfErr "invalid range format for --expose: %s, error: %s" e err)
      | .ok (start, stop) =>
        match parseExposeRange c (c.SplitProtoPort e).1
            (List.range' start (stop + 1 - start)) ports with
        | .error err => .error err
        | .ok ports1 => parseExposeLoop c rest ports1

/-- The device loop of Parse. -/
def parseDevicesLoop :
    List GoString → List DeviceMapping → Except GoError (List DeviceMapping)
  | [], deviceMappings => .ok deviceMappings
  | device :: rest, deviceMappings =>
    match ParseDevice device with
    | .error err => .error err
    | .ok deviceMapping => parseDevicesLoop rest (deviceMappings ++ [deviceMapping])

/-- The namespace-mode checks of Parse. -/
def parseMode (valid : Bool) (message : String) : Except GoError Unit :=
  if !valid then .error (.errorf message []) else .ok ()

/-- The healthcheck block of Parse. -/
def parseHealthcheck (copts : ContainerOptions) : Except GoError (Option HealthConfig) :=
  let haveHealthSettings : Bool :=
    decide (copts.flHealthCmd ≠ []) || decide (copts.flHealthInterval ≠ 0) ||
      decide (copts.flHealthTimeout ≠ 0) || decide (copts.flHealthRetries ≠ 0)
  if copts.flNoHealthcheck then
    if haveHealthSettings then
      .error (.errorf "--no-healthcheck conflicts with --health-* options" [])
    else .ok (some { Test := ["NONE".toList], Interval := 0, Timeout := 0, Retries := 0 })
  else if haveHealthSettings then
    let probe : List GoString :=
      if copts.flHealthCmd ≠ [] then ["CMD-SHELL".toList, copts.flHealthCmd] else []
    if copts.flHealthInterval < 0 then
      .error (.errorf "--health-interval cannot be negative" [])
    else if copts.flHealthTimeout < 0 then
      .error (.errorf "--health-timeout cannot be negative" [])
    else
      .ok (some { Test := probe, Interval := copts.flHealthInterval,
                  Timeout := copts.flHealthTimeout, Retries := copts.flHealthRetries })
  else .ok none

/-- The networking block of Parse: the map EndpointsConfig after its three updates. An entry
is a pointer in the source; what is stored here is the value it points at in the end. -/
def parseEndpoints (c : Collaborators) (copts : ContainerOptions) (hostConfig : HostConfig) :
    GoMap EndpointSettings :=
  let m0 : GoMap EndpointSettings := []
  let m1 :=
    if copts.flIPv4Address ≠ [] ∨ copts.flIPv6Address ≠ [] ∨ copts.flLinkLocalIPs.Len > 0 then
      goMapSet m0 hostConfig.NetworkMode
        { IPAMConfig := some
            { IPv4Address := copts.flIPv4Address,
              IPv6Address := copts.flIPv6Address,
              LinkLocalIPs :=
                if copts.flLinkLocalIPs.Len > 0 then copts.flLinkLocalIPs.GetAll else [] },
          Links := [], Aliases := [] }
    else m0
  let m2 :=
    if c.IsUserDefined hostConfig.NetworkMode = true ∧ hostConfig.Links.length > 0 then
      let epConfig : EndpointSettings :=
        (goMapGet m1 hostConfig.NetworkMode).getD { IPAMConfig := none, Links := [], Aliases := [] }
      goMapSet m1 hostConfig.NetworkMode { epConfig with Links := hostConfig.Links }
    else m1
  if copts.flAliases.Len > 0 then
    let epConfig : EndpointSettings :=
      (goMapGet m2 hostConfig.NetworkMode).getD { IPAMConfig := none, Links := [], Aliases := [] }
    goMapSet m2 hostConfig.NetworkMode { epConfig with Aliases := copts.flAliases.GetAll }
  else m2

/-- The local variables of Parse that its fallible steps compute. -/
structure ParseValues where
  flMemory : Int
  MemoryReservation : Int
  memorySwap : Int
  KernelMemory : Int
  shmSize : Int
  maxIOBandwidth : Int
  binds : List GoString
  flVolumes : ListOpts
  tmpfs : GoMap GoString
  portBindings : GoMap (List PortBinding)
  ports : List GoString
  deviceMappings : List DeviceMapping
  envVariables : List GoString
  labels : List GoString
  restartPolicy : RestartPolicy
  loggingOpts : GoMap GoString
  securityOpts : List GoString
  storageOpts : GoMap GoString
  healthConfig : Option HealthConfig
deriving DecidableEq, Repr

/-- The last part of Parse, which cannot fail: the attach flags, `resources`, `config`,
`hostConfig` and `networkingConfig` built from the options and the local variables. The two
assignments made to `config` after its construction (StopSignal when the flag stop-signal
was changed, StdinOnce when stdin is open and attached) are folded into its fields. The
options are returned as the call leaves them: Parse has deleted the bind entries from
flVolumes, and parseSecurityOpts has written into the slice of flSecurityOpt. -/
def parseAssemble (c : Collaborators) (flags : FlagSet) (copts : ContainerOptions)
    (v : ParseValues) : ParseResult :=
  let attachStdin0 := copts.flAttach.Get "stdin".toList
  let attachStdout0 := copts.flAttach.Get "stdout".toList
  let attachStderr0 := copts.flAttach.Get "stderr".toList
  let attachStdin := if copts.flStdin then true else attachStdin0
  let attachStdout := if copts.flAttach.Len = 0 then true else attachStdout0
  let attachStderr := if copts.flAttach.Len = 0 then true else attachStderr0
  let runCmd : List GoString := if copts.Args.length > 0 then copts.Args else []
  let entrypoint : List GoString := if copts.flEntrypoint ≠ [] then [copts.flEntrypoint] else []
  let ipcMode := copts.flIpcMode
  let pidMode := copts.flPidMode
  let utsMode := copts.flUTSMode
  let usernsMode := copts.flUsernsMode
  let resources : Resources :=
    { CgroupParent := copts.flCgroupParent,
      Memory := v.flMemory,
      MemoryReservation := v.MemoryReservation,
      MemorySwap := v.memorySwap,
      MemorySwappiness := copts.flSwappiness,
      KernelMemory := v.KernelMemory,
      OomKillDisable := copts.flOomKillDisable,
      CPUPercent := copts.flCPUPercent,
      CPUShares := copts.flCPUShares,
      CPUPeriod := copts.flCPUPeriod,
      CpusetCpus := copts.flCpusetCpus,
      CpusetMems := copts.flCpusetMems,
      CPUQuota := copts.flCPUQuota,
      PidsLimit := copts.flPidsLimit,
      BlkioWeight := copts.flBlkioWeight,
      BlkioWeightDevice := copts.flBlkioWeightDevice,
      BlkioDeviceReadBps := copts.flDeviceReadBps,
      BlkioDeviceWriteBps := copts.flDeviceWriteBps,
      BlkioDeviceReadIOps := copts.flDeviceReadIOps,
      BlkioDeviceWriteIOps := copts.flDeviceWriteIOps,
      IOMaximumIOps := copts.flIOMaxIOps,
      IOMaximumBandwidth := (v.maxIOBandwidth % 2 ^ 64).toNat,
      Ulimits := copts.flUlimits,
      Devices := v.deviceMappings }
  let config : Config :=
    { Hostname := copts.flHostname,
      ExposedPorts := v.ports,
      User := copts.flUser,
      Tty := copts.flTty,
      NetworkDisabled := false,
      OpenStdin := copts.flStdin,
      AttachStdin := attachStdin,
      AttachStdout := attachStdout,
      AttachStderr := attachStderr,
      Env := v.envVariables,
      Cmd := runCmd,
      Image := copts.Image,
      Volumes := v.flVolumes.GetMap,
      MacAddress := copts.flMacAddress,
      Entrypoint := entrypoint,
      WorkingDir := copts.flWorkingDir,
      Labels := ConvertKVStringsToMap v.labels,
      Healthcheck := v.healthConfig,
      StopSignal := if flags.Changed "stop-signal" then copts.flStopSignal else [],
      StdinOnce := if copts.flStdin && attachStdin then true else false }
  let hostConfig : HostConfig :=
    { Binds := v.binds,
      ContainerIDFile := copts.flContainerIDFile,
      OomScoreAdj := copts.flOomScoreAdj,
      Privileged := copts.flPrivileged,
      PortBindings := v.portBindings,
      Links := copts.flLinks.GetAll,
      PublishAllPorts := copts.flPublishAll,
      DNS := copts.flDNS.GetAllOrEmpty,
      DNSSearch := copts.flDNSSearch.GetAllOrEmpty,
      DNSOptions := copts.flDNSOptions.GetAllOrEmpty,
      ExtraHosts := copts.flExtraHosts.GetAll,
      VolumesFrom := copts.flVolumesFrom.GetAll,
      NetworkMode := copts.flNetMode,
      IpcMode := ipcMode,
      PidMode := pidMode,
      UTSMode := utsMode,
      UsernsMode := usernsMode,
      CapAdd := copts.flCapAdd.GetAll,
      CapDrop := copts.flCapDrop.GetAll,
      GroupAdd := copts.flGroupAdd.GetAll,
      RestartPolicy := v.restartPolicy,
      SecurityOpt := v.securityOpts,
      StorageOpt := v.storageOpts,
      ReadonlyRootfs := copts.flReadonlyRootfs,
      LogConfig := { Type_ := copts.flLoggingDriver, Config := v.loggingOpts },
      VolumeDriver := copts.flVolumeDriver,
      Isolation := copts.flIsolation,
      ShmSize := v.shmSize,
      Resources := resources,
      Tmpfs := v.tmpfs,
      Sysctls := copts.flSysctls,
      Runtime := copts.flRuntime }
  let networkingConfig : NetworkingConfig :=
    { EndpointsConfig := parseEndpoints c copts hostConfig }
  { config := config,
    hostConfig := hostConfig,
    networkingConfig := networkingConfig,
    copts := { copts with flVolumes := v.flVolumes, flSecurityOpt := ⟨v.securityOpts⟩ } }

/-- The function Parse: its fallible steps in the order of the source, each returning at
once the error it meets, then the assembly of the result. -/
def Parse (c : Collaborators) (flags : FlagSet) (copts : ContainerOptions) :
    Except GoError ParseResult := do
  parseMacAddress c copts
  let flMemory ← parseSize c copts.flMemoryString
  let MemoryReservation ← parseSize c copts.flMemoryReservation
  let memorySwap ← parseMemorySwap c copts.flMemorySwap
  let KernelMemory ← parseSize c copts.flKernelMemory
  parseSwappiness copts.flSwappiness
  let shmSize ← parseSize c copts.flShmSize
  let maxIOBandwidth ← parseIOMaxBandwidth c copts.flIOMaxBandwidth
  let bindsAndVolumes ←
    parseBindsLoop (c.mapRange copts.flVolumes.GetMap).val ([], copts.flVolumes)
  let tmpfs ← parseTmpfsLoop c copts.flTmpfs.GetAll []
  let portSpecs ← c.ParsePortSpecs copts.flPublish.GetAll
  let ports ← parseExposeLoop c copts.flExpose.GetAll portSpecs.1
  let deviceMappings ← parseDevicesLoop copts.flDevices.GetAll []
  let envVariables ← readKVStrings c copts.flEnvFile.GetAll copts.flEnv.GetAll
  let labels ← readKVStrings c copts.flLabelsFile.GetAll copts.flLabels.GetAll
  parseMode (c.IpcModeValid copts.flIpcMode) "--ipc: invalid IPC mode"
  parseMode (c.PidModeValid copts.flPidMode) "--pid: invalid PID mode"
  parseMode (c.UTSModeValid copts.flUTSMode) "--uts: invalid UTS mode"
  parseMode (c.UsernsModeValid copts.flUsernsMode) "--userns: invalid USER mode"
  let restartPolicy ← ParseRestartPolicy copts.flRestartPolicy
  let loggingOpts ← parseLoggingOpts copts.flLoggingDriver copts.flLoggingOpts.GetAll
  let securityOpts ← parseSecurityOpts c copts.flSecurityOpt.GetAll
  let storageOpts ← parseStorageOpts copts.flStorageOpt.GetAll
  let healthConfig ← parseHealthcheck copts
  pure (parseAssemble c flags copts
    { flMemory := flMemory,
      MemoryReservation := MemoryReservation,
      memorySwap := memorySwap,
      KernelMemory := KernelMemory,
      shmSize := shmSize,
      maxIOBandwidth := maxIOBandwidth,
      binds := bindsAndVolumes.1,
      flVolumes := bindsAndVolumes.2,
      tmpfs := tmpfs,
      portBindings := portSpecs.2,
      ports := ports,
      deviceMappings := deviceMappings,
      envVariables := envVariables,
      labels := labels,
      restartPolicy := restartPolicy,
      loggingOpts := loggingOpts,
      securityOpts := securityOpts,
      storageOpts := storageOpts,
      healthConfig := healthConfig })

/-- The fallible steps of Parse all succeed on `copts` and compute the values `v`. -/
structure ParseSteps (c : Collaborators) (copts : ContainerOptions) (v : ParseValues) :
    Prop where
  macAddress : parseMacAddress c copts = .ok ()
  memory : parseSize c copts.flMemoryString = .ok v.flMemory
  memoryReservation : parseSize c copts.flMemoryReservation = .ok v.MemoryReservation
  memorySwap : parseMemorySwap c copts.flMemorySwap = .ok v.memorySwap
  kernelMemory : parseSize c copts.flKernelMemory = .ok v.KernelMemory
  swappiness : parseSwappiness copts.flSwappiness = .ok ()
  shmSize : parseSize c copts.flShmSize = .ok v.shmSize
  maxIOBandwidth : parseIOMaxBandwidth c copts.flIOMaxBandwidth = .ok v.maxIOBandwidth
  binds : parseBindsLoop (c.mapRange copts.flVolumes.GetMap).val ([], copts.flVolumes) =
    .ok (v.binds, v.flVolumes)
  tmpfs : parseTmpfsLoop c copts.flTmpfs.GetAll [] = .ok v.tmpfs
  ports : ∃ ports0, c.ParsePortSpecs copts.flPublish.GetAll = .ok (ports0, v.portBindings) ∧
    parseExposeLoop c copts.flExpose.GetAll ports0 = .ok v.ports
  devices : parseDevicesLoop copts.flDevices.GetAll [] = .ok v.deviceMappings
  env : readKVStrings c copts.flEnvFile.GetAll copts.flEnv.GetAll = .ok v.envVariables
  labels : readKVStrings c copts.flLabelsFile.GetAll copts.flLabels.GetAll = .ok v.labels
  ipcMode : c.IpcModeValid copts.flIpcMode = true
  pidMode : c.PidModeValid copts.flPidMode = true
  utsMode : c.UTSModeValid copts.flUTSMode = true
  usernsMode : c.UsernsModeValid copts.flUsernsMode = true
  restartPolicy : ParseRestartPolicy copts.flRestartPolicy = .ok v.restartPolicy
  loggingOpts :
    parseLoggingOpts copts.flLoggingDriver copts.flLoggingOpts.GetAll = .ok v.loggingOpts
  securityOpts : parseSecurityOpts c copts.flSecurityOpt.GetAll = .ok v.securityOpts
  storageOpts : parseStorageOpts copts.flStorageOpt.GetAll = .ok v.storageOpts
  healthcheck : parseHealthcheck copts = .ok v.healthConfig

/-- Whether Parse moves the volume entry `bind` to the bind list: the test
`len(volumeSplitN(bind, 2)) > 1`. -/
def isBindEntry (bind : GoString) : Bool :=
  match volumeSplitN bind 2 with
  | some arr => decide (arr.length > 1)
  | none => false

/-- Collaborators used to run Parse on examples: they accept every input, and a map is
ranged over in the order of its keys. -/
def exampleCollaborators : Collaborators :=
  { ValidateMACAddress := fun s => .ok s
    RAMInBytes := fun _ => .ok 0
    ParseTmpfsOptions := fun _ => .ok ()
    ParsePortSpecs := fun _ => .ok ([], [])
    SplitProtoPort := fun s => ("tcp".toList, s)
    ParsePortRange := fun _ => .ok (0, 0)
    NewPort := fun _ p => .ok p
    ParseEnvFile := fun _ => .ok []
    IpcModeValid := fun _ => true
    PidModeValid := fun _ => true
    UTSModeValid := fun _ => true
    UsernsModeValid := fun _ => true
    IsUserDefined := fun _ => false
    ReadFile := fun s => .ok s
    jsonCompact := fun s => .ok s
    mapRange := fun keys => ⟨keys, List.Perm.refl keys⟩ }

/-- A flag set in which no flag was changed. -/
def exampleFlags : FlagSet := ⟨fun _ => false⟩

/-- The options as AddFlags leaves them when no flag is given, with the volume list
`volumes`. -/
def exampleOptions (volumes : List GoString) : ContainerOptions :=
  { flAttach := ⟨[]⟩, flVolumes := ⟨volumes⟩, flTmpfs := ⟨[]⟩, flBlkioWeightDevice := [],
    flDeviceReadBps := [], flDeviceWriteBps := [], flLinks := ⟨[]⟩, flAliases := ⟨[]⟩,
    flLinkLocalIPs := ⟨[]⟩, flDeviceReadIOps := [], flDeviceWriteIOps := [], flEnv := ⟨[]⟩,
    flLabels := ⟨[]⟩, flDevices := ⟨[]⟩, flUlimits := [], flSysctls := [], flPublish := ⟨[]⟩,
    flExpose := ⟨[]⟩, flDNS := ⟨[]⟩, flDNSSearch := ⟨[]⟩, flDNSOptions := ⟨[]⟩,
    flExtraHosts := ⟨[]⟩, flVolumesFrom := ⟨[]⟩, flEnvFile := ⟨[]⟩, flCapAdd := ⟨[]⟩,
    flCapDrop := ⟨[]⟩, flGroupAdd := ⟨[]⟩, flSecurityOpt := ⟨[]⟩, flStorageOpt := ⟨[]⟩,
    flLabelsFile := ⟨[]⟩, flLoggingOpts := ⟨[]⟩, flPrivileged := false, flPidMode := [],
    flUTSMode := [], flUsernsMode := [], flPublishAll := false, flStdin := false,
    flTty := false, flOomKillDisable := false, flOomScoreAdj := 0, flContainerIDFile := [],
    flEntrypoint := [], flHostname := [], flMemoryString := [], flMemoryReservation := [],
    flMemorySwap := [], flKernelMemory := [], flUser := [], flWorkingDir := [],
    flCPUShares := 0, flCPUPercent := 0, flCPUPeriod := 0, flCPUQuota := 0,
    flCpusetCpus := [], flCpusetMems := [], flBlkioWeight := 0, flIOMaxBandwidth := [],
    flIOMaxIOps := 0, flSwappiness := -1, flNetMode := "default".toList, flMacAddress := [],
    flIPv4Address := [], flIPv6Address := [], flIpcMode := [], flPidsLimit := 0,
    flRestartPolicy := "no".toList, flReadonlyRootfs := false, flLoggingDriver := [],
    flCgroupParent := [], flVolumeDriver := [], flStopSignal := "SIGTERM".toList,
    flIsolation := [], flShmSize := [], flNoHealthcheck := false, flHealthCmd := [],
    flHealthInterval := 0, flHealthTimeout := 0, flHealthRetries := 0, flRuntime := [],
    Image := [], Args := [] }

/-- Spec-side: the key of a `key=value` entry, the text before its first `=` (the whole
entry when it has none). -/
def kvKey (entry : GoString) : GoString := entry.takeWhile (fun c => c != '=')

/-- Spec-side: the value of a `key=value` entry, the text after its first `=` (empty when
it has none). -/
def kvValue (entry : GoString) : GoString := (entry.dropWhile (fun c => c != '=')).drop 1

/-- Spec-side: the value a list of `key=value` entries gives to `key`: that of the last
entry carrying the key, `none` when no entry carries it. -/
def kvLast (entries : List GoString) (key : GoString) : Option GoString :=
  (entries.reverse.find? (fun e => kvKey e == key)).map kvValue

/-- Spec-side: the entry `key=value` rendered from a pair. -/
def kvRender (pair : GoString × GoString) : GoString := pair.1 ++ '=' :: pair.2

/-- Collaborators as in `exampleCollaborators`, every file read holding the two lines
`a=0` and `c=3`. -/
def exampleFileCollaborators : Collaborators :=
  { exampleCollaborators with
    ParseEnvFile := fun _ => .ok ["a=0".toList, "c=3".toList] }

/-- Example options with one label file and the inline labels `a=1`, `b`, `a=2`. -/
def exampleLabelOptions : ContainerOptions :=
  { exampleOptions [] with
    flLabels := ⟨["a=1".toList, "b".toList, "a=2".toList]⟩,
    flLabelsFile := ⟨["labels.txt".toList]⟩ }

/-- The local variables of Parse on the example options without volumes, with the labels
`labels` and the health configuration `healthConfig`. -/
def exampleValues (labels : List GoString) (healthConfig : Option HealthConfig) :
    ParseValues :=
  { flMemory := 0, MemoryReservation := 0, memorySwap := 0, KernelMemory := 0, shmSize := 0,
    maxIOBandwidth := 0, binds := [], flVolumes := ⟨[]⟩, tmpfs := [], portBindings := [],
    ports := [], deviceMappings := [], envVariables := [], labels := labels,
    restartPolicy := ⟨"no".toList, 0⟩, loggingOpts := [], securityOpts := [],
    storageOpts := [], healthConfig := healthConfig }

/-- Spec-side: the key/value pair a security option resolves to: the entry split at its
first `=`, or, for an entry without `=` other than the literal `no-new-privileges`, split at
its first `:`; `none` when the entry yields no pair. -/
def securityOptResolve (opt : GoString) : Option (GoString × GoString) :=
  if '=' ∈ opt then some (kvKey opt, kvValue opt)
  else if opt = "no-new-privileges".toList then none
  else if ':' ∈ opt then
    some (opt.takeWhile (fun c => c != ':'), (opt.dropWhile (fun c => c != ':')).drop 1)
  else none

/-- Example options with no-healthcheck set together with a health command. -/
def exampleHealthConflictOptions : ContainerOptions :=
  { exampleOptions [] with flNoHealthcheck := true, flHealthCmd := "true".toList }

/-- Collaborators as in `exampleCollaborators`, whose only readable file is `p.json`, holding
the JSON text `{}`. -/
def exampleSeccompCollaborators : Collaborators :=
  { exampleCollaborators with
    ReadFile := fun name =>
      if name = "p.json".toList then .ok "{}".toList
      else .error (.errorf "open %s: no such file or directory" [name]) }

theorem isDriveLetterChar_eq_isAlpha (c : Char) : isDriveLetterChar c = c.isAlpha := by
  simp only [isDriveLetterChar, Char.isAlpha, Char.isUpper, Char.isLower, Char.le_def]
  rfl

theorem goIndex_natCast (s : GoString) (i : Nat) : goIndex s (i : Int) = s[i]? := by
  simp [goIndex]

theorem goIndex_sub_one (s : GoString) (i : Nat) (h : 1 ≤ i) :
    goIndex s ((i : Int) - 1) = s[i - 1]? := by
  have : ((i : Int) - 1) = ((i - 1 : Nat) : Int) := by omega
  rw [this, goIndex_natCast]

theorem goIndex_sub_two (s : GoString) (i : Nat) (h : 2 ≤ i) :
    goIndex s ((i : Int) - 2) = s[i - 2]? := by
  have : ((i : Int) - 2) = ((i - 2 : Nat) : Int) := by omega
  rw [this, goIndex_natCast]

theorem closePart_eq (raw : GoString) (right : Nat) (st : SplitState)
    (h1 : st.left ≤ right) (h2 : right ≤ raw.length) :
    closePart raw right st =
      some ⟨st.array ++ [(raw.drop st.left).take (right - st.left)], st.numberOfParts + 1, right + 1⟩ := by
  simp [closePart, goSlice, h1, h2]

theorem getElem?_some_of_lt (s : GoString) (i : Nat) (h : i < s.length) :
    ∃ c, s[i]? = some c :=
  ⟨s[i], List.getElem?_eq_getElem h⟩

theorem volumeSplitBody_eq (raw : GoString) (right : Nat) (st : SplitState)
    (h1 : 1 ≤ right) (h2 : right < raw.length) :
    volumeSplitBody raw right st =
      if isSeparatorColon raw right then closePart raw right st else some st := by
  unfold volumeSplitBody
  rw [goIndex_natCast, goIndex_sub_one _ _ h1]
  obtain ⟨c0, e0⟩ := getElem?_some_of_lt raw right h2
  obtain ⟨c1, e1⟩ := getElem?_some_of_lt raw (right - 1) (by omega)
  simp only [e0, e1]
  by_cases hc : c0 = ':'
  · by_cases hr : right > 1
    · rw [goIndex_sub_two _ _ (by omega)]
      obtain ⟨c2, e2⟩ := getElem?_some_of_lt raw (right - 2) (by omega)
      simp only [e2]
      have hne : right ≠ 1 := by omega
      simp [isSeparatorColon, h1, e0, e1, e2, hc, hr, hne, isDriveLetterChar_eq_isAlpha]
      by_cases hl : c1.isAlpha = true <;> simp [hl]
    · have he : right = 1 := by omega
      subst he
      simp at e1
      simp [isSeparatorColon, e0, e1, hc, isDriveLetterChar_eq_isAlpha]
      by_cases hl : c1.isAlpha = true <;> simp [hl]
  · simp [isSeparatorColon, e0, hc]

theorem volumeSplitLoop_nolimit (raw : GoString) (n : Int) :
    ∀ (fuel right : Nat) (st : SplitState), 1 ≤ right → st.left ≤ right →
      right ≤ raw.length → raw.length - right < fuel →
      (n < 0 ∨ ((st.numberOfParts +
        ((List.range' right (raw.length - right)).filter (isSeparatorColon raw)).length : Nat)
          : Int) < n) →
      ∃ st', volumeSplitLoop raw n fuel right st = some st' ∧
        st'.array ++ [raw.drop st'.left] =
          st.array ++ cutAt raw
            ((List.range' right (raw.length - right)).filter (isSeparatorColon raw)) st.left ∧
        st'.numberOfParts = st.numberOfParts +
          ((List.range' right (raw.length - right)).filter (isSeparatorColon raw)).length := by
  intro fuel
  induction fuel with
  | zero => intro right st _ _ _ h; omega
  | succ fuel ih =>
    intro right st h1 hl hr hf hlim
    unfold volumeSplitLoop
    by_cases hlt : right < raw.length
    · have hrange : List.range' right (raw.length - right) =
          right :: List.range' (right + 1) (raw.length - (right + 1)) := by
        have : raw.length - right = (raw.length - (right + 1)) + 1 := by omega
        rw [this, List.range'_succ]
      rw [hrange] at hlim ⊢
      have hnb : ¬ (n ≥ 0 ∧ (st.numberOfParts : Int) ≥ n) := by
        rcases hlim with h | h
        · omega
        · push_cast at h
          omega
      simp only [hlt, if_true, hnb, if_false]
      rw [volumeSplitBody_eq raw right st h1 hlt]
      by_cases hs : isSeparatorColon raw right = true
      · simp only [hs, if_true, List.filter_cons_of_pos] at hlim ⊢
        rw [closePart_eq raw right st hl (by omega)]
        obtain ⟨st', h1', h2', h3'⟩ := ih (right + 1)
          ⟨st.array ++ [(raw.drop st.left).take (right - st.left)], st.numberOfParts + 1, right + 1⟩
          (by omega) (by simp) (by omega) (by omega)
          (by
            rcases hlim with h | h
            · exact Or.inl h
            · right
              simp only [List.length_cons] at h
              push_cast at h ⊢
              omega)
        refine ⟨st', h1', ?_, ?_⟩
        · rw [h2']
          simp [cutAt]
        · rw [h3']
          simp only [List.length_cons]
          omega
      · simp only [hs, if_false, Bool.false_eq_true]
        rw [List.filter_cons_of_neg (by simpa using hs)] at hlim ⊢
        exact ih (right + 1) st (by omega) (by omega) (by omega) (by omega) hlim
    · have : raw.length - right = 0 := by omega
      simp [hlt, this, cutAt]

theorem separatorColons_eq (raw : GoString) (h : 0 < raw.length) :
    separatorColons raw =
      (List.range' 1 (raw.length - 1)).filter (isSeparatorColon raw) := by
  unfold separatorColons
  have hlen : raw.length = (raw.length - 1) + 1 := by omega
  rw [List.range_eq_range']
  conv_lhs => rw [hlen, List.range'_succ]
  rw [List.filter_cons_of_neg (by simp [isSeparatorColon])]

theorem goIndex_zero_head (raw : GoString) : goIndex raw 0 = raw.head? := by
  cases raw <;> simp [goIndex]

theorem volumeSplitN_eq_ref_of_lt (raw : GoString) (n : Int)
    (hn : n < 0 ∨ ((separatorColons raw).length : Int) < n) :
    volumeSplitN raw n = some (volumeSplitRef raw) := by
  by_cases hnil : raw = []
  · simp [volumeSplitN, volumeSplitRef, hnil]
  have hpos : 0 < raw.length := List.length_pos.mpr hnil
  obtain ⟨c0, h0⟩ : ∃ c0, raw.head? = some c0 := by
    cases raw with
    | nil => exact absurd rfl hnil
    | cons c t => exact ⟨c, rfl⟩
  have hlen0 : ¬ raw.length = 0 := by omega
  by_cases hc : c0 = ':'
  · simp [volumeSplitN, volumeSplitRef, goIndex_zero_head, h0, hc]
  · rw [separatorColons_eq _ hpos] at hn
    obtain ⟨st', hloop, hinv, hparts⟩ := volumeSplitLoop_nolimit raw n raw.length 1 ⟨[], 0, 0⟩
      (le_refl 1) (by simp) (by omega) (by omega) (by simpa using hn)
    have hnb : ¬ (n ≥ 0 ∧ (st'.numberOfParts : Int) ≥ n) := by
      rcases hn with h | h
      · omega
      · rw [hparts]
        simp only [Nat.zero_add]
        omega
    rw [← separatorColons_eq _ hpos] at hinv
    simp only [List.nil_append] at hinv
    have href : volumeSplitRef raw = omitFinalEmpty (st'.array ++ [raw.drop st'.left]) := by
      simp [volumeSplitRef, hnil, h0, hc, hinv]
    rw [href]
    unfold volumeSplitN
    rw [goIndex_zero_head, h0]
    simp only [hlen0, hloop, hc, hnb, if_false]
    by_cases hl : st'.left < raw.length
    · have hd : raw.drop st'.left ≠ [] := by
        simp only [ne_eq, List.drop_eq_nil_iff, not_le]; exact hl
      have hle : (st'.left : Int) ≤ raw.length := by omega
      simp [goSliceFrom, hl, hle, omitFinalEmpty, hd]
    · have hd : raw.drop st'.left = [] := by
        simp only [List.drop_eq_nil_iff]; omega
      simp [hl, omitFinalEmpty, hd]

/-- C1: with a negative limit, volumeSplitN returns exactly the reference splitting of `raw`:
nothing for an empty string or one starting with a colon, otherwise the segments between the
separator colons, a final empty segment being omitted. -/
theorem volumeSplitN_eq_ref (raw : GoString) (n : Int) (hn : n < 0) :
    volumeSplitN raw n = some (volumeSplitRef raw) :=
  volumeSplitN_eq_ref_of_lt raw n (Or.inl hn)

theorem volumeSplitN_eq_ref_witness :
    (-1 : Int) < 0 ∧
      volumeSplitN "/a::C:\\x:".toList (-1) = some (volumeSplitRef "/a::C:\\x:".toList) :=
  ⟨by decide, volumeSplitN_eq_ref _ _ (by decide)⟩

theorem isSeparatorColon_getElem (raw : GoString) (i : Nat)
    (h : isSeparatorColon raw i = true) : raw[i]? = some ':' := by
  simp only [isSeparatorColon, Bool.and_eq_true, beq_iff_eq] at h
  exact h.1.2

theorem take_append_slice (raw : GoString) (left right : Nat) (h : left ≤ right)
    (hc : raw[right]? = some ':') :
    raw.take left ++ ((raw.drop left).take (right - left) ++ [':']) = raw.take (right + 1) := by
  rw [List.take_succ, hc, ← List.append_assoc]
  congr 1
  have : right = left + (right - left) := by omega
  conv_rhs => rw [this, List.take_add]

theorem closePart_inv (raw : GoString) (n : Int) (right : Nat) (st : SplitState)
    (hinv : SplitInv raw n st) (h1 : st.left ≤ right) (h2 : right < raw.length)
    (hs : isSeparatorColon raw right = true) (hb : ¬ (n ≥ 0 ∧ (st.numberOfParts : Int) ≥ n)) :
    ∃ st', closePart raw right st = some st' ∧ SplitInv raw n st' ∧ st'.left = right + 1 := by
  refine ⟨_, closePart_eq raw right st h1 (le_of_lt h2), ?_, rfl⟩
  constructor
  · show right + 1 ≤ raw.length
    omega
  · simp [hinv.parts_eq]
  · simp only [List.map_append, List.flatten_append, hinv.joined, List.map_cons, List.map_nil,
      List.flatten_cons, List.flatten_nil, List.append_nil]
    exact take_append_slice raw st.left right h1 (isSeparatorColon_getElem raw right hs)
  · intro _
    simpa using hs
  · intro h0
    have := hinv.bound h0
    show ((st.numberOfParts + 1 : Nat) : Int) ≤ n
    omega
  · simp

theorem volumeSplitLoop_inv (raw : GoString) (n : Int) :
    ∀ (fuel right : Nat) (st : SplitState), 1 ≤ right → st.left ≤ right →
      right ≤ raw.length → raw.length - right < fuel → SplitInv raw n st →
      ∃ st', volumeSplitLoop raw n fuel right st = some st' ∧ SplitInv raw n st' := by
  intro fuel
  induction fuel with
  | zero => intro right st _ _ _ h; omega
  | succ fuel ih =>
    intro right st h1 hl hr hf hinv
    unfold volumeSplitLoop
    by_cases hlt : right < raw.length
    · by_cases hb : n ≥ 0 ∧ (st.numberOfParts : Int) ≥ n
      · exact ⟨st, by simp [hlt, hb], hinv⟩
      · simp only [hlt, if_true, hb, if_false]
        rw [volumeSplitBody_eq raw right st h1 hlt]
        by_cases hs : isSeparatorColon raw right = true
        · obtain ⟨st1, e1, inv1, hl1⟩ := closePart_inv raw n right st hinv hl hlt hs hb
          simp only [hs, if_true, e1]
          exact ih (right + 1) st1 (by omega) (by omega) (by omega) (by omega) inv1
        · simp only [hs, if_false, Bool.false_eq_true]
          exact ih (right + 1) st (by omega) (by omega) (by omega) (by omega) hinv
    · exact ⟨st, by simp [hlt], hinv⟩

theorem splitInv_init (raw : GoString) (n : Int) : SplitInv raw n ⟨[], 0, 0⟩ := by
  constructor <;> simp

theorem goAppendAt_concat (init : List GoString) (last rest : GoString) (i : Int)
    (hi : i = init.length) :
    goAppendAt (init ++ [last]) i rest = some (init ++ [last ++ rest]) := by
  subst hi
  simp [goAppendAt]

theorem exists_concat_of_ne_nil (l : List GoString) (h : l ≠ []) :
    ∃ init last, l = init ++ [last] :=
  ⟨l.dropLast, l.getLast h, (List.dropLast_append_getLast h).symm⟩

theorem volumeSplitN_final (raw : GoString) (n : Int) (hne : raw ≠ [])
    (hc : raw.head? ≠ some ':') (hn : n ≠ 0) :
    ∃ st fields, SplitInv raw n st ∧ volumeSplitN raw n = some fields ∧
      ((st.left < raw.length ∧ (0 ≤ n ∧ n ≤ (st.numberOfParts : Int)) ∧
          ∃ init last, st.array = init ++ [last] ∧
            fields = init ++ [last ++ raw.drop (st.left - 1)]) ∨
       (st.left < raw.length ∧ ¬ (0 ≤ n ∧ n ≤ (st.numberOfParts : Int)) ∧
          fields = st.array ++ [raw.drop st.left]) ∨
       (st.left = raw.length ∧ fields = st.array)) := by
  have hpos : 0 < raw.length := List.length_pos.mpr hne
  have hlen0 : ¬ raw.length = 0 := by omega
  obtain ⟨c0, h0⟩ : ∃ c0, raw.head? = some c0 := by
    cases raw with
    | nil => exact absurd rfl hne
    | cons c t => exact ⟨c, rfl⟩
  have hc0 : ¬ c0 = ':' := by
    intro h; apply hc; rw [h0, h]
  obtain ⟨st, hloop, hinv⟩ := volumeSplitLoop_inv raw n raw.length 1 ⟨[], 0, 0⟩
    (le_refl 1) (by simp) (by omega) (by omega) (splitInv_init raw n)
  have hunf : volumeSplitN raw n =
      if st.left < raw.length then
        if n ≥ 0 ∧ (st.numberOfParts : Int) ≥ n then
          match goSliceFrom raw ((st.left : Int) - 1) with
          | none => none
          | some rest => goAppendAt st.array (n - 1) rest
        else
          match goSliceFrom raw st.left with
          | none => none
          | some rest => some (st.array ++ [rest])
      else some st.array := by
    unfold volumeSplitN
    rw [goIndex_zero_head, h0]
    simp only [hlen0, hloop, hc0, if_false]
  have hll := hinv.left_le
  by_cases hl : st.left < raw.length
  · by_cases hb : n ≥ 0 ∧ (st.numberOfParts : Int) ≥ n
    · have hbd := hinv.bound hb.1
      have hpe := hinv.parts_eq
      have hne' : st.array ≠ [] := by
        intro h
        rw [h] at hpe
        simp at hpe
        omega
      have hleft : st.left ≠ 0 := fun h => hne' (hinv.nonempty.mpr h)
      obtain ⟨init, last, hil⟩ := exists_concat_of_ne_nil st.array hne'
      have hslice : goSliceFrom raw ((st.left : Int) - 1) = some (raw.drop (st.left - 1)) := by
        have e : ((st.left : Int) - 1) = ((st.left - 1 : Nat) : Int) := by omega
        have e2 : (((st.left - 1 : Nat) : Int)) ≤ (raw.length : Int) := by omega
        rw [e]
        simp [goSliceFrom, e2]
      have hidx : n - 1 = (init.length : Int) := by
        rw [hil] at hpe
        simp at hpe
        omega
      refine ⟨st, init ++ [last ++ raw.drop (st.left - 1)], hinv, ?_, Or.inl ⟨hl, ⟨hb.1, hb.2⟩, init, last, hil, rfl⟩⟩
      rw [hunf]
      simp only [hl, if_true, hb, and_self, hslice]
      rw [hil]
      exact goAppendAt_concat init last _ _ hidx
    · have hle : (st.left : Int) ≤ raw.length := by omega
      refine ⟨st, st.array ++ [raw.drop st.left], hinv, ?_, Or.inr (Or.inl ⟨hl, fun h => hb ⟨h.1, h.2⟩, rfl⟩)⟩
      rw [hunf]
      simp [hl, hb, goSliceFrom, hle]
  · refine ⟨st, st.array, hinv, ?_, Or.inr (Or.inr ⟨by omega, rfl⟩)⟩
    rw [hunf]
    simp [hl]

theorem intercalate_concat (sep : GoString) (xs : List GoString) (y : GoString) :
    List.intercalate sep (xs ++ [y]) = (xs.map (fun part => part ++ sep)).flatten ++ y := by
  induction xs with
  | nil => simp [List.intercalate]
  | cons a xs ih =>
    cases xs with
    | nil => simp [List.intercalate]
    | cons b xs =>
      simp only [List.intercalate, List.cons_append, List.intersperse_cons_cons,
        List.flatten_cons, List.map_cons, List.append_assoc] at ih ⊢
      rw [ih]

theorem volumeSplitN_some_le (raw : GoString) (n : Int) (hn : 1 ≤ n) :
    ∃ fields, volumeSplitN raw n = some fields ∧ (fields.length : Int) ≤ n := by
  by_cases hne : raw = []
  · exact ⟨[], by simp [volumeSplitN, hne], by simp; omega⟩
  by_cases hc : raw.head? = some ':'
  · refine ⟨[], ?_, by simp; omega⟩
    have hlen0 : ¬ raw.length = 0 := by
      intro h; exact hne (List.length_eq_zero.mp h)
    simp [volumeSplitN, goIndex_zero_head, hc, hlen0]
  obtain ⟨st, fields, hinv, hres, hcases⟩ := volumeSplitN_final raw n hne hc (by omega)
  refine ⟨fields, hres, ?_⟩
  have hbd := hinv.bound (by omega)
  have hpe := hinv.parts_eq
  rcases hcases with ⟨_, _, init, last, hil, hf⟩ | ⟨_, hnb, hf⟩ | ⟨_, hf⟩
  · rw [hil] at hpe
    simp at hpe
    rw [hf]
    simp
    omega
  · rw [hf]
    simp
    have : ¬ n ≤ (st.numberOfParts : Int) := fun h => hnb ⟨by omega, h⟩
    omega
  · rw [hf]
    omega

/-- C2: with a limit `n ≥ 1`, volumeSplitN returns (without a run-time panic) at most `n`
fields. -/
theorem volumeSplitN_length_le (raw : GoString) (n : Int) (hn : 1 ≤ n) :
    ∃ fields, volumeSplitN raw n = some fields ∧ (fields.length : Int) ≤ n :=
  volumeSplitN_some_le raw n hn

theorem volumeSplitN_length_le_witness :
    (1 : Int) ≤ 2 ∧
      ∃ fields, volumeSplitN "/a:/b:/c".toList 2 = some fields ∧ (fields.length : Int) ≤ 2 :=
  ⟨by decide, volumeSplitN_length_le _ 2 (by decide)⟩

/-- C3: with a limit `n ≥ 1` and a non-empty `raw` that does not start with a colon, the
fields returned by volumeSplitN, joined with colons, give back `raw`, or give back `raw`
without its final colon, and this only when `raw` ends in a separator colon. -/
theorem volumeSplitN_join (raw : GoString) (n : Int) (hn : 1 ≤ n) (hne : raw ≠ [])
    (hc : raw.head? ≠ some ':') :
    ∃ fields, volumeSplitN raw n = some fields ∧
      (List.intercalate [':'] fields = raw ∨
        (isSeparatorColon raw (raw.length - 1) = true ∧
          List.intercalate [':'] fields ++ [':'] = raw)) := by
  obtain ⟨st, fields, hinv, hres, hcases⟩ := volumeSplitN_final raw n hne hc (by omega)
  refine ⟨fields, hres, ?_⟩
  have hj := hinv.joined
  rcases hcases with ⟨hl, _, init, last, hil, hf⟩ | ⟨_, _, hf⟩ | ⟨hl, hf⟩
  · left
    have hleft : 1 ≤ st.left := by
      rcases Nat.eq_zero_or_pos st.left with h | h
      · have := hinv.nonempty.mpr h
        rw [hil] at this
        simp at this
      · exact h
    have hcol := isSeparatorColon_getElem raw _ (hinv.sep hleft)
    have hdrop : raw.drop (st.left - 1) = ':' :: raw.drop st.left := by
      have h1 : st.left - 1 < raw.length := by omega
      rw [List.drop_eq_getElem_cons h1]
      have : raw[st.left - 1] = ':' := by
        rw [List.getElem?_eq_getElem h1] at hcol
        exact Option.some.inj hcol
      rw [this]
      congr 2
      omega
    rw [hf, intercalate_concat, hdrop]
    rw [hil] at hj
    simp only [List.map_append, List.flatten_append, List.map_cons, List.map_nil,
      List.flatten_cons, List.flatten_nil, List.append_nil] at hj
    calc (init.map (fun part => part ++ [':'])).flatten ++ (last ++ ':' :: raw.drop st.left)
        = ((init.map (fun part => part ++ [':'])).flatten ++ (last ++ [':'])) ++ raw.drop st.left := by
          simp
      _ = raw.take st.left ++ raw.drop st.left := by rw [hj]
      _ = raw := List.take_append_drop _ _
  · left
    rw [hf, intercalate_concat, hj]
    exact List.take_append_drop _ _
  · right
    have hleft : 1 ≤ st.left := by
      have : 0 < raw.length := List.length_pos.mpr hne
      omega
    have hne' : st.array ≠ [] := by
      intro h
      have := hinv.nonempty.mp h
      omega
    obtain ⟨init, last, hil⟩ := exists_concat_of_ne_nil st.array hne'
    refine ⟨by rw [← hl]; exact hinv.sep hleft, ?_⟩
    rw [hf, hil, intercalate_concat]
    rw [hil] at hj
    simp only [List.map_append, List.flatten_append, List.map_cons, List.map_nil,
      List.flatten_cons, List.flatten_nil, List.append_nil] at hj
    rw [List.append_assoc, hj, hl, List.take_length]

theorem volumeSplitN_join_witness :
    ((1 : Int) ≤ 2 ∧ "/a:/b:/c".toList ≠ [] ∧ "/a:/b:/c".toList.head? ≠ some ':') ∧
    ∃ fields, volumeSplitN "/a:/b:/c".toList 2 = some fields ∧
      (List.intercalate [':'] fields = "/a:/b:/c".toList ∨
        (isSeparatorColon "/a:/b:/c".toList ("/a:/b:/c".toList.length - 1) = true ∧
          List.intercalate [':'] fields ++ [':'] = "/a:/b:/c".toList)) :=
  ⟨by decide, volumeSplitN_join _ 2 (by decide) (by decide) (by decide)⟩

theorem isSeparatorColon_append_left (a b : GoString) (i : Nat) (h : i < a.length) :
    isSeparatorColon (a ++ b) i = isSeparatorColon a i := by
  have h1 : i - 1 < a.length := by omega
  have h2 : i - 2 < a.length := by omega
  simp only [isSeparatorColon, List.getElem?_append_left h, List.getElem?_append_left h1,
    List.getElem?_append_left h2]

theorem getElem?_append_colon_shift (a b : GoString) (j : Nat) :
    (a ++ ':' :: b)[a.length + 1 + j]? = b[j]? := by
  rw [List.getElem?_append_right (by omega)]
  have : a.length + 1 + j - a.length = j + 1 := by omega
  rw [this, List.getElem?_cons_succ]

theorem isSeparatorColon_shift (a b : GoString) (j : Nat) (hj : 1 ≤ j) :
    isSeparatorColon (a ++ ':' :: b) (a.length + 1 + j) = isSeparatorColon b j := by
  have e0 := getElem?_append_colon_shift a b j
  have e1 : (a ++ ':' :: b)[a.length + 1 + j - 1]? = b[j - 1]? := by
    have : a.length + 1 + j - 1 = a.length + 1 + (j - 1) := by omega
    rw [this, getElem?_append_colon_shift]
  have hi : 1 ≤ a.length + 1 + j := by omega
  have hne : ¬ (a.length + 1 + j = 1) := by omega
  by_cases hj1 : j = 1
  · subst hj1
    have e2 : (a ++ ':' :: b)[a.length + 1 + 1 - 2]? = some ':' := by
      have : a.length + 1 + 1 - 2 = a.length := by omega
      rw [this, List.getElem?_append_right (le_refl _)]
      simp
    simp only [isSeparatorColon, e0, e1, e2, hi, hne]
    simp
  · have e2 : (a ++ ':' :: b)[a.length + 1 + j - 2]? = b[j - 2]? := by
      have : a.length + 1 + j - 2 = a.length + 1 + (j - 2) := by omega
      rw [this, getElem?_append_colon_shift]
    have hb1 : (a.length + 1 + j == 1) = false := beq_eq_false_iff_ne.mpr hne
    have hb2 : (j == 1) = false := beq_eq_false_iff_ne.mpr hj1
    simp only [isSeparatorColon, e0, e1, e2, hi, hj, hb1, hb2]

theorem separatorColons_append (a b : GoString) (hns : separatorColons a = [])
    (hs : isSeparatorColon (a ++ [':']) a.length = true) (hb0 : b.head? ≠ some ':') :
    separatorColons (a ++ ':' :: b) =
      a.length :: (separatorColons b).map (fun j => a.length + 1 + j) := by
  have hlen : (a ++ ':' :: b).length = (a.length + 1) + b.length := by
    simp; omega
  unfold separatorColons at hns ⊢
  rw [hlen, List.range_add, List.range_succ, List.filter_append, List.filter_append]
  have h1 : List.filter (isSeparatorColon (a ++ ':' :: b)) (List.range a.length) = [] := by
    rw [← hns]
    apply List.filter_congr
    intro i hi
    exact isSeparatorColon_append_left a _ i (List.mem_range.mp hi)
  have h2 : isSeparatorColon (a ++ ':' :: b) a.length = true := by
    have : a ++ ':' :: b = (a ++ [':']) ++ b := by simp
    rw [this, isSeparatorColon_append_left _ _ _ (by simp)]
    exact hs
  have h3 : List.filter (isSeparatorColon (a ++ ':' :: b))
      (List.map (fun x => a.length + 1 + x) (List.range b.length)) =
      List.map (fun j => a.length + 1 + j)
        (List.filter (isSeparatorColon b) (List.range b.length)) := by
    rw [List.filter_map]
    congr 1
    apply List.filter_congr
    intro j _
    rcases Nat.eq_zero_or_pos j with hj | hj
    · subst hj
      have e0 := getElem?_append_colon_shift a b 0
      have hb : b[0]? ≠ some ':' := by
        cases b with
        | nil => simp
        | cons c t => simpa using hb0
      simp [isSeparatorColon, e0, hb]
    · exact isSeparatorColon_shift a b j hj
  rw [h1, h3]
  simp [h2]

theorem cutAt_shift (a b : GoString) (ps : List Nat) :
    ∀ s : Nat, cutAt (a ++ ':' :: b) (ps.map (fun j => a.length + 1 + j)) (a.length + 1 + s) =
      cutAt b ps s := by
  have hdrop : ∀ s : Nat, (a ++ ':' :: b).drop (a.length + 1 + s) = b.drop s := by
    intro s
    have : a ++ ':' :: b = (a ++ [':']) ++ b := by simp
    rw [this]
    have hl : a.length + 1 = (a ++ [':']).length := by simp
    rw [hl, List.drop_append]
  induction ps with
  | nil => intro s; simp only [List.map_nil, cutAt, hdrop]
  | cons p ps ih =>
    intro s
    simp only [List.map_cons, cutAt, hdrop]
    have e1 : a.length + 1 + p - (a.length + 1 + s) = p - s := by omega
    have e2 : a.length + 1 + p + 1 = a.length + 1 + (p + 1) := by omega
    rw [e1, e2, ih]

theorem cutAt_ne_nil (raw : GoString) (ps : List Nat) (s : Nat) : cutAt raw ps s ≠ [] := by
  cases ps <;> simp [cutAt]

theorem omitFinalEmpty_cons (a : GoString) (l : List GoString) (h : l ≠ []) :
    omitFinalEmpty (a :: l) = a :: omitFinalEmpty l := by
  cases l with
  | nil => exact absurd rfl h
  | cons b t =>
    simp only [omitFinalEmpty, List.getLast?_cons_cons]
    split
    · rw [List.dropLast_cons_of_ne_nil (by simp)]
    · rfl

theorem volumeSplitRef_cons (a b : GoString) (ha : a ≠ []) (ha0 : a.head? ≠ some ':')
    (hns : separatorColons a = []) (hs : isSeparatorColon (a ++ [':']) a.length = true)
    (hb : b ≠ []) (hb0 : b.head? ≠ some ':') :
    volumeSplitRef (a ++ ':' :: b) = a :: volumeSplitRef b := by
  have hne : a ++ ':' :: b ≠ [] := by simp
  have hh : (a ++ ':' :: b).head? ≠ some ':' := by
    cases a with
    | nil => exact absurd rfl ha
    | cons c t => simpa using ha0
  simp only [volumeSplitRef, hne, hh, hb, hb0, or_self, if_false]
  rw [separatorColons_append a b hns hs hb0]
  simp only [cutAt]
  have := cutAt_shift a b (separatorColons b) 0
  simp only [Nat.add_zero] at this
  rw [this, omitFinalEmpty_cons _ _ (cutAt_ne_nil _ _ _)]
  simp

theorem separatorColons_eq_nil_of_not_mem (s : GoString) (h : ':' ∉ s) :
    separatorColons s = [] := by
  unfold separatorColons
  rw [List.filter_eq_nil_iff]
  intro i _ hi
  exact h (List.getElem?_mem (isSeparatorColon_getElem s i hi))

theorem separatorColons_drive_eq_nil (X : Char) (t : GoString) (hX : X.isAlpha = true)
    (h : ':' ∉ t) : separatorColons (X :: ':' :: t) = [] := by
  unfold separatorColons
  rw [List.filter_eq_nil_iff]
  intro i _ hi
  match i with
  | 0 => simp [isSeparatorColon] at hi
  | 1 => simp [isSeparatorColon, hX] at hi
  | i + 2 =>
    have := isSeparatorColon_getElem _ _ hi
    simp only [List.getElem?_cons_succ] at this
    exact h (List.getElem?_mem this)

theorem isSeparatorColon_end_two (pre : GoString) (c2 c1 : Char) :
    isSeparatorColon ((pre ++ [c2, c1]) ++ [':']) (pre ++ [c2, c1]).length =
      !(c1.isAlpha && (c2 == ':' || c2 == '\\')) := by
  have hlen : (pre ++ [c2, c1]).length = pre.length + 2 := by simp
  have e0 : ((pre ++ [c2, c1]) ++ [':'])[pre.length + 2]? = some ':' := by
    rw [List.getElem?_append_right (by simp)]
    simp
  have e1 : ((pre ++ [c2, c1]) ++ [':'])[pre.length + 2 - 1]? = some c1 := by
    rw [List.append_assoc, List.getElem?_append_right (by omega)]
    have : pre.length + 2 - 1 - pre.length = 1 := by omega
    rw [this]
    simp
  have e2 : ((pre ++ [c2, c1]) ++ [':'])[pre.length + 2 - 2]? = some c2 := by
    rw [List.append_assoc, List.getElem?_append_right (by omega)]
    have : pre.length + 2 - 2 - pre.length = 0 := by omega
    rw [this]
    simp
  have hb1 : (pre.length + 2 == 1) = false := beq_eq_false_iff_ne.mpr (by omega)
  have hi : 1 ≤ pre.length + 2 := by omega
  rw [hlen]
  simp only [isSeparatorColon, e0, e1, e2, hb1, hi]
  simp

theorem exists_two_last (a : GoString) (h : 2 ≤ a.length) :
    ∃ pre c2 c1, a = pre ++ [c2, c1] := by
  rcases List.eq_nil_or_concat a with h0 | ⟨l1, c1, h1⟩
  · subst h0; simp at h
  · rcases List.eq_nil_or_concat l1 with h0 | ⟨l2, c2, h2⟩
    · subst h0; subst h1; simp at h
    · exact ⟨l2, c2, c1, by rw [h1, h2]; simp⟩

theorem isSeparatorColon_end (a : GoString) (h : 2 ≤ a.length)
    (hsuf : ∀ c2 c1, c1.isAlpha = true → (c2 = ':' ∨ c2 = '\\') → ¬ [c2, c1] <:+ a) :
    isSeparatorColon (a ++ [':']) a.length = true := by
  obtain ⟨pre, c2, c1, rfl⟩ := exists_two_last a h
  rw [isSeparatorColon_end_two]
  have := hsuf c2 c1
  by_cases hc : c1.isAlpha = true
  · have hn : ¬ (c2 = ':' ∨ c2 = '\\') := fun h2 => this hc h2 (List.suffix_append _ _)
    simp only [not_or] at hn
    simp [hn.1, hn.2]
  · simp [hc]

theorem volumeSplitRef_of_not_mem (m : GoString) (hm : ':' ∉ m) (hm0 : m ≠ []) :
    volumeSplitRef m = [m] := by
  have hh : m.head? ≠ some ':' := by
    cases m with
    | nil => exact absurd rfl hm0
    | cons c t =>
      intro h
      apply hm
      simp at h
      simp [h]
  simp [volumeSplitRef, hm0, hh, separatorColons_eq_nil_of_not_mem m hm, cutAt, omitFinalEmpty]

theorem drive_field_end (X : Char) (p : GoString) (hp : ':' ∉ p)
    (hp2 : ∀ c, c.isAlpha = true → ¬ ['\\', c] <:+ '\\' :: p) :
    isSeparatorColon ((X :: ':' :: '\\' :: p) ++ [':']) (X :: ':' :: '\\' :: p).length = true := by
  apply isSeparatorColon_end _ (by simp)
  intro c2 c1 hc1 hc2 hsuf
  rw [List.suffix_cons_iff] at hsuf
  rcases hsuf with h | hsuf
  · simp at h
  rw [List.suffix_cons_iff] at hsuf
  rcases hsuf with h | hsuf
  · simp only [List.cons.injEq] at h
    have : c1 = '\\' := h.2.1
    rw [this] at hc1
    exact absurd hc1 (by decide)
  have hmem : c2 ∈ '\\' :: p := hsuf.subset (by simp)
  rcases hc2 with h | h
  · subst h
    simp at hmem
    exact hp hmem
  · subst h
    exact hp2 c1 hc1 hsuf

/-- C4 (amended): for ASCII letters X, Y and strings p, q, m without a colon, m non-empty,
where neither `\p` nor `\q` ends in a backslash followed by an ASCII letter,
volumeSplitN applied to `X:\p:Y:\q:m` with limit 3 returns the three fields
`X:\p`, `Y:\q` and `m`. -/
theorem volumeSplitN_drive_fields (X Y : Char) (p q m : GoString)
    (hX : X.isAlpha = true) (hY : Y.isAlpha = true)
    (hp : ':' ∉ p) (hq : ':' ∉ q) (hm : ':' ∉ m) (hm0 : m ≠ [])
    (hp2 : ∀ c, c.isAlpha = true → ¬ ['\\', c] <:+ '\\' :: p)
    (hq2 : ∀ c, c.isAlpha = true → ¬ ['\\', c] <:+ '\\' :: q) :
    volumeSplitN ((X :: ':' :: '\\' :: p) ++ ':' :: ((Y :: ':' :: '\\' :: q) ++ ':' :: m)) 3 =
      some [X :: ':' :: '\\' :: p, Y :: ':' :: '\\' :: q, m] := by
  have hXc : X ≠ ':' := by
    intro h; rw [h] at hX; exact absurd hX (by decide)
  have hYc : Y ≠ ':' := by
    intro h; rw [h] at hY; exact absurd hY (by decide)
  have hmh : m.head? ≠ some ':' := by
    cases m with
    | nil => exact absurd rfl hm0
    | cons c t =>
      intro h
      apply hm
      simp at h
      simp [h]
  have hp' : ':' ∉ '\\' :: p := by simp [hp]
  have hq' : ':' ∉ '\\' :: q := by simp [hq]
  have s1 := separatorColons_drive_eq_nil X ('\\' :: p) hX hp'
  have s2 := separatorColons_drive_eq_nil Y ('\\' :: q) hY hq'
  have e1 := drive_field_end X p hp hp2
  have e2 := drive_field_end Y q hq hq2
  have r2 : volumeSplitRef ((Y :: ':' :: '\\' :: q) ++ ':' :: m) =
      [Y :: ':' :: '\\' :: q, m] := by
    rw [volumeSplitRef_cons _ _ (by simp) (by simpa using hYc) s2 e2 hm0 hmh,
      volumeSplitRef_of_not_mem m hm hm0]
  have r1 : volumeSplitRef
      ((X :: ':' :: '\\' :: p) ++ ':' :: ((Y :: ':' :: '\\' :: q) ++ ':' :: m)) =
      [X :: ':' :: '\\' :: p, Y :: ':' :: '\\' :: q, m] := by
    rw [volumeSplitRef_cons _ _ (by simp) (by simpa using hXc) s1 e1 (by simp)
      (by simpa using hYc), r2]
  have hcount : (separatorColons
      ((X :: ':' :: '\\' :: p) ++ ':' :: ((Y :: ':' :: '\\' :: q) ++ ':' :: m))).length = 2 := by
    rw [separatorColons_append _ _ s1 e1 (by simpa using hYc),
      separatorColons_append _ _ s2 e2 hmh, separatorColons_eq_nil_of_not_mem m hm]
    simp
  rw [volumeSplitN_eq_ref_of_lt _ 3 (Or.inr (by rw [hcount]; decide)), r1]

theorem volumeSplitN_drive_fields_witness :
    volumeSplitN "C:\\foo:D:\\bar:rw".toList 3 =
      some ["C:\\foo".toList, "D:\\bar".toList, "rw".toList] :=
  volumeSplitN_drive_fields 'C' 'D' "foo".toList "bar".toList "rw".toList
    (by decide) (by decide) (by decide) (by decide) (by decide) (by decide)
    (by intro c _ h; simp [List.suffix_cons_iff] at h)
    (by intro c _ h; simp [List.suffix_cons_iff] at h)

theorem volumeSplitN_drive_fields_counterexample :
    ('C'.isAlpha = true ∧ 'D'.isAlpha = true ∧ ':' ∉ "a".toList ∧ ':' ∉ "bar".toList ∧
      ':' ∉ "rw".toList ∧ "rw".toList ≠ []) ∧
    volumeSplitN (('C' :: ':' :: '\\' :: "a".toList) ++ ':' ::
        (('D' :: ':' :: '\\' :: "bar".toList) ++ ':' :: "rw".toList)) 3 =
      some ["C:\\a:D:\\bar".toList, "rw".toList] ∧
    volumeSplitN (('C' :: ':' :: '\\' :: "a".toList) ++ ':' ::
        (('D' :: ':' :: '\\' :: "bar".toList) ++ ':' :: "rw".toList)) 3 ≠
      some ['C' :: ':' :: '\\' :: "a".toList, 'D' :: ':' :: '\\' :: "bar".toList, "rw".toList] := by
  decide

theorem stringsSplit_ne_nil (sep : Char) (s : GoString) : stringsSplit sep s ≠ [] := by
  cases s with
  | nil => simp [stringsSplit]
  | cons c cs =>
    simp only [stringsSplit]
    split <;> simp

theorem stringsSplit_of_not_mem (sep : Char) (s : GoString) (h : sep ∉ s) :
    stringsSplit sep s = [s] := by
  induction s with
  | nil => rfl
  | cons c cs ih =>
    have hc : ¬ c = sep := fun e => h (by simp [e])
    have hcs : sep ∉ cs := fun e => h (by simp [e])
    simp [stringsSplit, hc, ih hcs]

theorem stringsSplit_append (sep : Char) (a b : GoString) (h : sep ∉ a) :
    stringsSplit sep (a ++ sep :: b) = a :: stringsSplit sep b := by
  induction a with
  | nil => simp [stringsSplit]
  | cons c cs ih =>
    have hc : ¬ c = sep := fun e => h (by simp [e])
    have hcs : sep ∉ cs := fun e => h (by simp [e])
    simp [stringsSplit, hc, ih hcs]

theorem stringsSplitN_of_not_mem (sep : Char) (n : Nat) (s : GoString) (h : sep ∉ s) :
    stringsSplitN sep (n + 1) s = [s] := by
  induction s with
  | nil => cases n <;> simp [stringsSplitN]
  | cons c cs ih =>
    have hc : ¬ c = sep := fun e => h (by simp [e])
    have hcs : sep ∉ cs := fun e => h (by simp [e])
    cases n with
    | zero => simp [stringsSplitN]
    | succ n => simp [stringsSplitN, hc, ih hcs]

theorem stringsSplitN_append (sep : Char) (n : Nat) (a b : GoString) (h : sep ∉ a) :
    stringsSplitN sep (n + 2) (a ++ sep :: b) = a :: stringsSplitN sep (n + 1) b := by
  induction a with
  | nil => simp [stringsSplitN]
  | cons c cs ih =>
    have hc : ¬ c = sep := fun e => h (by simp [e])
    have hcs : sep ∉ cs := fun e => h (by simp [e])
    simp [stringsSplitN, hc, ih hcs]

theorem exists_first_sep (sep : Char) (s : GoString) :
    sep ∉ s ∨ ∃ a b, s = a ++ sep :: b ∧ sep ∉ a := by
  induction s with
  | nil => left; simp
  | cons c cs ih =>
    by_cases hc : c = sep
    · right
      exact ⟨[], cs, by simp [hc], by simp⟩
    · rcases ih with h | ⟨a, b, hab, ha⟩
      · left
        simp only [List.mem_cons, not_or]
        exact ⟨fun e => hc e.symm, h⟩
      · right
        refine ⟨c :: a, b, by simp [hab], ?_⟩
        simp only [List.mem_cons, not_or]
        exact ⟨fun e => hc e.symm, ha⟩

theorem count_append_sep (sep : Char) (a b : GoString) (h : sep ∉ a) :
    (a ++ sep :: b).count sep = b.count sep + 1 := by
  rw [List.count_append, List.count_eq_zero.mpr h]
  simp

theorem validDeviceModeLoop_iff (mode : GoString) :
    ∀ legal : Char → Bool, validDeviceModeLoop mode legal = true ↔
      (∀ c ∈ mode, legal c = true) ∧ mode.Nodup := by
  induction mode with
  | nil => intro legal; simp [validDeviceModeLoop]
  | cons c cs ih =>
    intro legal
    simp only [validDeviceModeLoop]
    by_cases hc : legal c = true
    · simp only [hc, Bool.not_true, Bool.false_eq_true, if_false, ih, List.mem_cons,
        forall_eq_or_imp, true_and, List.nodup_cons]
      constructor
      · rintro ⟨h1, h2⟩
        have hnot : c ∉ cs := by
          intro hm
          have := h1 c hm
          simp at this
        refine ⟨fun x hx => ?_, hnot, h2⟩
        have := h1 x hx
        by_cases hxc : x = c
        · simp [hxc] at this
        · simpa [hxc] using this
      · rintro ⟨h1, hnot, h2⟩
        refine ⟨fun x hx => ?_, h2⟩
        have hxc : ¬ x = c := fun e => hnot (e ▸ hx)
        simp [hxc, h1 x hx]
    · simp [hc]

/-- C8: ValidDeviceMode accepts exactly the non-empty strings made of the characters
`r`, `w`, `m` in which no character occurs twice; an accepted mode has at most 3 characters. -/
theorem ValidDeviceMode_iff (mode : GoString) :
    (ValidDeviceMode mode = true ↔
      mode ≠ [] ∧ (∀ c ∈ mode, c = 'r' ∨ c = 'w' ∨ c = 'm') ∧ mode.Nodup) ∧
    (ValidDeviceMode mode = true → mode.length ≤ 3) := by
  have hiff : ValidDeviceMode mode = true ↔
      mode ≠ [] ∧ (∀ c ∈ mode, c = 'r' ∨ c = 'w' ∨ c = 'm') ∧ mode.Nodup := by
    unfold ValidDeviceMode
    by_cases h : mode = []
    · simp [h]
    · simp [h, validDeviceModeLoop_iff, or_assoc]
  refine ⟨hiff, fun hv => ?_⟩
  obtain ⟨_, hall, hnd⟩ := hiff.mp hv
  have hsub : mode ⊆ ['r', 'w', 'm'] := by
    intro c hc
    rcases hall c hc with h | h | h <;> simp [h]
  exact (List.subperm_of_subset hnd hsub).length_le

theorem colon_shapes (val : GoString) :
    (':' ∉ val) ∨
    (∃ a b, val = a ++ ':' :: b ∧ ':' ∉ a ∧ ':' ∉ b) ∨
    (∃ a b c, val = a ++ ':' :: (b ++ ':' :: c) ∧ ':' ∉ a ∧ ':' ∉ b ∧ ':' ∉ c) ∨
    (∃ a b c d, val = a ++ ':' :: (b ++ ':' :: (c ++ ':' :: d)) ∧
      ':' ∉ a ∧ ':' ∉ b ∧ ':' ∉ c) := by
  rcases exists_first_sep ':' val with h | ⟨a, r1, h1, ha⟩
  · exact Or.inl h
  rcases exists_first_sep ':' r1 with h | ⟨b, r2, h2, hb⟩
  · exact Or.inr (Or.inl ⟨a, r1, h1, ha, h⟩)
  rcases exists_first_sep ':' r2 with h | ⟨c, r3, h3, hc⟩
  · exact Or.inr (Or.inr (Or.inl ⟨a, b, r2, by rw [h1, h2], ha, hb, h⟩))
  · exact Or.inr (Or.inr (Or.inr ⟨a, b, c, r3, by rw [h1, h2, h3], ha, hb, hc⟩))

theorem validatePath_one (clean : GoString → GoString) (validator : GoString → Bool)
    (val : GoString) (h : ':' ∉ val) :
    (validatePath clean val validator).isOk = (decide (val ≠ []) && pathIsAbs val) := by
  have hcount : stringsCount ':' val = 0 := List.count_eq_zero.mpr h
  have hsplit := stringsSplitN_of_not_mem ':' 2 val h
  unfold validatePath
  simp only [hcount, hsplit]
  by_cases hv : val = []
  · simp [hv, Except.isOk, Except.toBool]
  · by_cases habs : pathIsAbs val = true
    · simp [hv, habs, Except.isOk, Except.toBool]
    · simp [hv, habs, Except.isOk, Except.toBool]

theorem validatePath_two (clean : GoString → GoString) (validator : GoString → Bool)
    (a b : GoString) (ha : ':' ∉ a) (hb : ':' ∉ b) :
    (validatePath clean (a ++ ':' :: b) validator).isOk =
      (decide (a ≠ []) && (if validator b then pathIsAbs a else pathIsAbs b)) := by
  have hcount : stringsCount ':' (a ++ ':' :: b) = 1 := by
    unfold stringsCount
    rw [count_append_sep _ _ _ ha, List.count_eq_zero.mpr hb]
  have hsplit : stringsSplitN ':' 3 (a ++ ':' :: b) = [a, b] := by
    rw [stringsSplitN_append _ _ _ _ ha, stringsSplitN_of_not_mem _ _ _ hb]
  unfold validatePath
  simp only [hcount, hsplit]
  by_cases hv : a = []
  · simp [hv, Except.isOk, Except.toBool]
  · by_cases hm : validator b = true
    · by_cases habs : pathIsAbs a = true <;> simp [hv, hm, habs, Except.isOk, Except.toBool]
    · by_cases habs : pathIsAbs b = true <;> simp [hv, hm, habs, Except.isOk, Except.toBool]

theorem validatePath_three (clean : GoString → GoString) (validator : GoString → Bool)
    (a b c : GoString) (ha : ':' ∉ a) (hb : ':' ∉ b) (hc : ':' ∉ c) :
    (validatePath clean (a ++ ':' :: (b ++ ':' :: c)) validator).isOk =
      (decide (a ≠ []) && validator c && pathIsAbs b) := by
  have hcount : stringsCount ':' (a ++ ':' :: (b ++ ':' :: c)) = 2 := by
    unfold stringsCount
    rw [count_append_sep _ _ _ ha, count_append_sep _ _ _ hb, List.count_eq_zero.mpr hc]
  have hsplit : stringsSplitN ':' 3 (a ++ ':' :: (b ++ ':' :: c)) = [a, b, c] := by
    rw [stringsSplitN_append _ _ _ _ ha, stringsSplitN_append _ _ _ _ hb]
    simp [stringsSplitN]
  unfold validatePath
  simp only [hcount, hsplit]
  by_cases hv : a = []
  · simp [hv, Except.isOk, Except.toBool]
  · by_cases hm : validator c = true
    · by_cases habs : pathIsAbs b = true <;> simp [hv, hm, habs, Except.isOk, Except.toBool]
    · simp [hv, hm, Except.isOk, Except.toBool]

theorem validatePath_many (clean : GoString → GoString) (validator : GoString → Bool)
    (a b c d : GoString) (ha : ':' ∉ a) (hb : ':' ∉ b) (hc : ':' ∉ c) :
    (validatePath clean (a ++ ':' :: (b ++ ':' :: (c ++ ':' :: d))) validator).isOk = false := by
  have hcount : stringsCount ':' (a ++ ':' :: (b ++ ':' :: (c ++ ':' :: d))) > 2 := by
    unfold stringsCount
    rw [count_append_sep _ _ _ ha, count_append_sep _ _ _ hb, count_append_sep _ _ _ hc]
    omega
  unfold validatePath
  simp [hcount, Except.isOk, Except.toBool]

/-- C7: ValidateDevice accepts `val` exactly when `val` has at most two colons, its first
colon-separated field is non-empty, and: with one field, that field is absolute (starts with
a slash); with two fields, the second is a valid device mode and the first is absolute, or
the second is not a valid device mode and is absolute; with three fields, the third is a
valid device mode and the second is absolute. -/
theorem ValidateDevice_ok_iff (clean : GoString → GoString) (val : GoString) :
    (ValidateDevice clean val).isOk = true ↔
      stringsCount ':' val ≤ 2 ∧ (stringsSplit ':' val).getD 0 [] ≠ [] ∧
      ((stringsSplit ':' val).length = 1 →
        ((stringsSplit ':' val).getD 0 []).head? = some '/') ∧
      ((stringsSplit ':' val).length = 2 →
        (ValidDeviceMode ((stringsSplit ':' val).getD 1 []) = true ∧
          ((stringsSplit ':' val).getD 0 []).head? = some '/') ∨
        (ValidDeviceMode ((stringsSplit ':' val).getD 1 []) = false ∧
          ((stringsSplit ':' val).getD 1 []).head? = some '/')) ∧
      ((stringsSplit ':' val).length = 3 →
        ValidDeviceMode ((stringsSplit ':' val).getD 2 []) = true ∧
          ((stringsSplit ':' val).getD 1 []).head? = some '/') := by
  unfold ValidateDevice
  rcases colon_shapes val with h | ⟨a, b, rfl, ha, hb⟩ | ⟨a, b, c, rfl, ha, hb, hc⟩ |
    ⟨a, b, c, d, rfl, ha, hb, hc⟩
  · rw [validatePath_one _ _ _ h, stringsSplit_of_not_mem _ _ h]
    have hcount : stringsCount ':' val = 0 := List.count_eq_zero.mpr h
    simp [hcount, pathIsAbs]
  · rw [validatePath_two _ _ _ _ ha hb, stringsSplit_append _ _ _ ha,
      stringsSplit_of_not_mem _ _ hb]
    have hcount : stringsCount ':' (a ++ ':' :: b) = 1 := by
      unfold stringsCount
      rw [count_append_sep _ _ _ ha, List.count_eq_zero.mpr hb]
    by_cases hm : ValidDeviceMode b = true <;> simp [hcount, pathIsAbs, hm]
  · rw [validatePath_three _ _ _ _ _ ha hb hc, stringsSplit_append _ _ _ ha,
      stringsSplit_append _ _ _ hb, stringsSplit_of_not_mem _ _ hc]
    have hcount : stringsCount ':' (a ++ ':' :: (b ++ ':' :: c)) = 2 := by
      unfold stringsCount
      rw [count_append_sep _ _ _ ha, count_append_sep _ _ _ hb, List.count_eq_zero.mpr hc]
    simp [hcount, pathIsAbs, and_assoc]
  · rw [validatePath_many _ _ _ _ _ _ ha hb hc]
    have hcount : ¬ stringsCount ':' (a ++ ':' :: (b ++ ':' :: (c ++ ':' :: d))) ≤ 2 := by
      unfold stringsCount
      rw [count_append_sep _ _ _ ha, count_append_sep _ _ _ hb, count_append_sep _ _ _ hc]
      omega
    simp [hcount]

theorem ParseDevice_one (s : GoString) (h : ':' ∉ s) :
    ParseDevice s = .ok ⟨s, s, "rwm".toList⟩ := by
  unfold ParseDevice
  simp only [stringsSplit_of_not_mem _ _ h]
  by_cases hs : s = [] <;> simp [parseDeviceCase1, hs]

theorem ParseDevice_two (a b : GoString) (ha : ':' ∉ a) (hb : ':' ∉ b) :
    ParseDevice (a ++ ':' :: b) =
      .ok (if ValidDeviceMode b then ⟨a, a, b⟩
           else ⟨a, if b = [] then a else b, "rwm".toList⟩) := by
  unfold ParseDevice
  simp only [stringsSplit_append _ _ _ ha, stringsSplit_of_not_mem _ _ hb]
  by_cases hm : ValidDeviceMode b = true
  · by_cases hs : a = [] <;> simp [parseDeviceCase2, parseDeviceCase1, hm, hs]
  · have hm' : ValidDeviceMode b = false := by simpa using hm
    by_cases hs : b = []
    · subst hs
      simp [parseDeviceCase2, parseDeviceCase1, hm']
    · simp [parseDeviceCase2, parseDeviceCase1, hm', hs]

theorem ParseDevice_three (a b c : GoString) (ha : ':' ∉ a) (hb : ':' ∉ b) (hc : ':' ∉ c) :
    ParseDevice (a ++ ':' :: (b ++ ':' :: c)) =
      .ok (if ValidDeviceMode b then ⟨a, a, b⟩
           else ⟨a, if b = [] then a else b, c⟩) := by
  unfold ParseDevice
  simp only [stringsSplit_append _ _ _ ha, stringsSplit_append _ _ _ hb,
    stringsSplit_of_not_mem _ _ hc]
  by_cases hm : ValidDeviceMode b = true
  · by_cases hs : a = [] <;>
      simp [parseDeviceCase3, parseDeviceCase2, parseDeviceCase1, hm, hs]
  · have hm' : ValidDeviceMode b = false := by simpa using hm
    by_cases hs : b = []
    · subst hs
      simp [parseDeviceCase3, parseDeviceCase2, parseDeviceCase1, hm']
    · simp [parseDeviceCase3, parseDeviceCase2, parseDeviceCase1, hm', hs]

theorem not_validDeviceMode_of_abs (b : GoString) (h : pathIsAbs b = true) :
    ValidDeviceMode b = false ∧ b ≠ [] := by
  cases b with
  | nil => simp [pathIsAbs] at h
  | cons c t =>
    have hc : c = '/' := by simpa [pathIsAbs] using h
    subst hc
    refine ⟨?_, by simp⟩
    simp [ValidDeviceMode, validDeviceModeLoop]

/-- C6: for every device string `s` accepted by ValidateDevice, ParseDevice succeeds, and it
returns `(s, s, "rwm")` for a one-field `s`, `(src, src, mode)` for `src:mode` with a valid
mode, `(src, dst, "rwm")` for `src:dst` whose second field is not a valid mode, and
`(src, dst, mode)` for `src:dst:mode`. -/
theorem ParseDevice_of_valid (clean : GoString → GoString) (s : GoString)
    (hv : (ValidateDevice clean s).isOk = true) :
    (∃ d, ParseDevice s = .ok d) ∧
    (':' ∉ s → ParseDevice s = .ok ⟨s, s, "rwm".toList⟩) ∧
    (∀ src mode, s = src ++ ':' :: mode → ':' ∉ src → ':' ∉ mode →
      ValidDeviceMode mode = true → ParseDevice s = .ok ⟨src, src, mode⟩) ∧
    (∀ src dst, s = src ++ ':' :: dst → ':' ∉ src → ':' ∉ dst →
      ValidDeviceMode dst = false → ParseDevice s = .ok ⟨src, dst, "rwm".toList⟩) ∧
    (∀ src dst mode, s = src ++ ':' :: (dst ++ ':' :: mode) → ':' ∉ src → ':' ∉ dst →
      ':' ∉ mode → ParseDevice s = .ok ⟨src, dst, mode⟩) := by
  unfold ValidateDevice at hv
  refine ⟨?_, fun h => ParseDevice_one s h, ?_, ?_, ?_⟩
  · rcases colon_shapes s with h | ⟨a, b, rfl, ha, hb⟩ | ⟨a, b, c, rfl, ha, hb, hc⟩ |
      ⟨a, b, c, d, rfl, ha, hb, hc⟩
    · exact ⟨_, ParseDevice_one s h⟩
    · exact ⟨_, ParseDevice_two a b ha hb⟩
    · exact ⟨_, ParseDevice_three a b c ha hb hc⟩
    · rw [validatePath_many _ _ _ _ _ _ ha hb hc] at hv
      exact absurd hv (by simp)
  · rintro src mode rfl hs hm hmode
    rw [ParseDevice_two _ _ hs hm]
    simp [hmode]
  · rintro src dst rfl hs hd hmode
    rw [validatePath_two _ _ _ _ hs hd] at hv
    simp only [hmode, Bool.false_eq_true, if_false, Bool.and_eq_true] at hv
    have hne := (not_validDeviceMode_of_abs dst hv.2).2
    rw [ParseDevice_two _ _ hs hd]
    simp [hmode, hne]
  · rintro src dst mode rfl hs hd hm
    rw [validatePath_three _ _ _ _ _ hs hd hm] at hv
    simp only [Bool.and_eq_true] at hv
    obtain ⟨hnm, hne⟩ := not_validDeviceMode_of_abs dst hv.2
    rw [ParseDevice_three _ _ _ hs hd hm]
    simp [hnm, hne]

theorem ParseDevice_of_valid_witness :
    (ValidateDevice id "/dev/snd:/dev/x:rw".toList).isOk = true ∧
    ParseDevice "/dev/snd:/dev/x:rw".toList =
      .ok ⟨"/dev/snd".toList, "/dev/x".toList, "rw".toList⟩ :=
  ⟨by decide,
    (ParseDevice_of_valid id "/dev/snd:/dev/x:rw".toList (by decide)).2.2.2.2
      "/dev/snd".toList "/dev/x".toList "rw".toList (by decide) (by decide) (by decide)
      (by decide)⟩

/-- C9 (amended): for strings a, b, c without a colon, where b is not a valid device mode,
ParseDevice applied to `a:b:c` returns PathOnHost = a, CgroupPermissions = c, and
PathInContainer = b, or a when b is empty. -/
theorem ParseDevice_three_fields (a b c : GoString) (ha : ':' ∉ a) (hb : ':' ∉ b)
    (hc : ':' ∉ c) (hmode : ValidDeviceMode b = false) :
    ParseDevice (a ++ ':' :: (b ++ ':' :: c)) =
      .ok ⟨a, if b = [] then a else b, c⟩ := by
  rw [ParseDevice_three _ _ _ ha hb hc]
  simp [hmode]

theorem ParseDevice_three_fields_witness :
    ParseDevice ("/dev/snd".toList ++ ':' :: ("/dev/x".toList ++ ':' :: "rw".toList)) =
      .ok ⟨"/dev/snd".toList, if "/dev/x".toList = [] then "/dev/snd".toList else "/dev/x".toList,
        "rw".toList⟩ :=
  ParseDevice_three_fields "/dev/snd".toList "/dev/x".toList "rw".toList
    (by decide) (by decide) (by decide) (by decide)

theorem ParseDevice_three_fields_counterexample :
    (':' ∉ "/dev/snd".toList ∧ ':' ∉ "rw".toList ∧ ':' ∉ "m".toList ∧ ':' ∉ "".toList) ∧
    ParseDevice ("/dev/snd".toList ++ ':' :: ("rw".toList ++ ':' :: "m".toList)) =
      .ok ⟨"/dev/snd".toList, "/dev/snd".toList, "rw".toList⟩ ∧
    ParseDevice ("/dev/snd".toList ++ ':' :: ("rw".toList ++ ':' :: "m".toList)) ≠
      .ok ⟨"/dev/snd".toList, "rw".toList, "m".toList⟩ ∧
    ParseDevice ("/dev/snd".toList ++ ':' :: ("".toList ++ ':' :: "m".toList)) =
      .ok ⟨"/dev/snd".toList, "/dev/snd".toList, "m".toList⟩ ∧
    ParseDevice ("/dev/snd".toList ++ ':' :: ("".toList ++ ':' :: "m".toList)) ≠
      .ok ⟨"/dev/snd".toList, "".toList, "m".toList⟩ := by
  decide

theorem stringsLastIndex_of_not_mem (sep : Char) (s : GoString) (h : sep ∉ s) :
    stringsLastIndex sep s = -1 := by
  induction s with
  | nil => rfl
  | cons c cs ih =>
    have hc : ¬ c = sep := fun e => h (by simp [e])
    have hcs : sep ∉ cs := fun e => h (by simp [e])
    simp [stringsLastIndex, ih hcs, hc]

theorem stringsLastIndex_append (sep : Char) (u v : GoString) (h : sep ∉ v) :
    stringsLastIndex sep (u ++ sep :: v) = u.length := by
  induction u with
  | nil => simp [stringsLastIndex, stringsLastIndex_of_not_mem sep v h]
  | cons c cs ih =>
    simp only [List.cons_append, stringsLastIndex, ih]
    simp
    omega

theorem exists_last_sep (sep : Char) (s : GoString) :
    sep ∉ s ∨ ∃ u v, s = u ++ sep :: v ∧ sep ∉ v := by
  rcases exists_first_sep sep s.reverse with h | ⟨a, b, hab, ha⟩
  · left
    simpa using h
  · right
    refine ⟨b.reverse, a.reverse, ?_, by simpa using ha⟩
    have := congrArg List.reverse hab
    simpa using this

theorem pathSplit_snd (p : GoString) : (pathSplit p).2 = afterLastSlash p := by
  rcases exists_last_sep '/' p with h | ⟨u, v, rfl, hv⟩
  · have ht : List.takeWhile (fun c => c != '/') p.reverse = p.reverse := by
      rw [List.takeWhile_eq_self_iff]
      intro x hx
      have hx' : x ∈ p := by simpa using hx
      have : x ≠ '/' := fun e => h (e ▸ hx')
      simpa using this
    simp [pathSplit, afterLastSlash, stringsLastIndex_of_not_mem _ _ h, ht]
  · have ht : List.takeWhile (fun c => c != '/') (u ++ '/' :: v).reverse = v.reverse := by
      have : (u ++ '/' :: v).reverse = v.reverse ++ '/' :: u.reverse := by simp
      rw [this, List.takeWhile_append_of_pos, List.takeWhile_cons_of_neg (by simp)]
      · simp
      · intro x hx
        have hx' : x ∈ v := by simpa using hx
        have : x ≠ '/' := fun e => hv (e ▸ hx')
        simpa using this
    have hd : List.drop (u.length + 1) (u ++ '/' :: v) = v := by
      have : u ++ '/' :: v = (u ++ ['/']) ++ v := by simp
      rw [this]
      have hl : u.length + 1 = (u ++ ['/']).length := by simp
      rw [hl, List.drop_left]
    simp only [pathSplit, afterLastSlash, stringsLastIndex_append _ _ _ hv, ht,
      List.reverse_reverse]
    have : ((u.length : Int) + 1).toNat = u.length + 1 := by omega
    rw [this, hd]

theorem takeWhile_ne_append (sep : Char) (a b : GoString) (h : sep ∉ a) :
    List.takeWhile (fun c => c != sep) (a ++ sep :: b) = a ∧
    List.dropWhile (fun c => c != sep) (a ++ sep :: b) = sep :: b := by
  have hall : ∀ x ∈ a, (x != sep) = true := by
    intro x hx
    have : x ≠ sep := fun e => h (e ▸ hx)
    simpa using this
  rw [List.takeWhile_append_of_pos hall, List.dropWhile_append_of_pos hall,
    List.takeWhile_cons_of_neg (by simp), List.dropWhile_cons_of_neg (by simp)]
  simp

/-- C10: ParseLink agrees with its reference definition: it fails exactly for the empty
string and for strings with more than one colon; without a colon it returns `(val, val)`;
with one colon it returns the two fields, or, when the first field starts with a slash, the
first field without that slash and the part of the second field after its last slash.
The four examples of the specification are instances. -/
theorem ParseLink_eq_ref :
    (∀ val : GoString, (ParseLink val).toOption = ParseLinkRef val) ∧
    (∀ val : GoString, (ParseLink val).isOk = false ↔ (val = [] ∨ val.count ':' > 1)) ∧
    ParseLink "".toList = .error (.errorf "empty string specified for links" []) ∧
    ParseLink "a".toList = .ok ("a".toList, "a".toList) ∧
    ParseLink "a:b".toList = .ok ("a".toList, "b".toList) ∧
    ParseLink "a:b:c".toList = .error (.errorf "bad format for links: %s" ["a:b:c".toList]) ∧
    ParseLink "/c1/foo:/c1/bar".toList = .ok ("c1/foo".toList, "bar".toList) := by
  have key : ∀ val : GoString, (ParseLink val).toOption = ParseLinkRef val ∧
      ((ParseLink val).isOk = false ↔ (val = [] ∨ val.count ':' > 1)) := by
    intro val
    by_cases hnil : val = []
    · subst hnil
      simp [ParseLink, ParseLinkRef, Except.toOption, Except.isOk, Except.toBool]
    rcases exists_first_sep ':' val with h | ⟨a, r, rfl, ha⟩
    · have hcount : val.count ':' = 0 := List.count_eq_zero.mpr h
      simp [ParseLink, ParseLinkRef, stringsSplit_of_not_mem _ _ h, hnil, hcount, h,
        Except.toOption, Except.isOk, Except.toBool]
    rcases exists_first_sep ':' r with h | ⟨b, r2, rfl, hb⟩
    · have hcount : (a ++ ':' :: r).count ':' = 1 := by
        rw [count_append_sep _ _ _ ha, List.count_eq_zero.mpr h]
      have hmem : ':' ∈ a ++ ':' :: r := by simp
      obtain ⟨ht, hd⟩ := takeWhile_ne_append ':' a r ha
      have hpre : stringsHasPrefix a ['/'] = true ↔ a.head? = some '/' := by
        cases a with
        | nil => simp [stringsHasPrefix]
        | cons c t =>
          simp only [stringsHasPrefix, List.isPrefixOf_cons₂, List.isPrefixOf,
            Bool.and_true, beq_iff_eq, List.head?_cons, Option.some.injEq]
          exact eq_comm
      by_cases hp : a.head? = some '/'
      · have hp' := hpre.mpr hp
        simp [ParseLink, ParseLinkRef, stringsSplit_append _ _ _ ha,
          stringsSplit_of_not_mem _ _ h, hcount, ht, hd, hp, hp', pathSplit_snd,
          Except.toOption, Except.isOk, Except.toBool]
      · have hp' : ¬ stringsHasPrefix a ['/'] = true := fun e => hp (hpre.mp e)
        simp [ParseLink, ParseLinkRef, stringsSplit_append _ _ _ ha,
          stringsSplit_of_not_mem _ _ h, hcount, ht, hd, hp, hp',
          Except.toOption, Except.isOk, Except.toBool]
    · have hcount : (a ++ ':' :: (b ++ ':' :: r2)).count ':' > 1 := by
        rw [count_append_sep _ _ _ ha, count_append_sep _ _ _ hb]
        omega
      have hlen : (stringsSplit ':' (a ++ ':' :: (b ++ ':' :: r2))).length > 2 := by
        rw [stringsSplit_append _ _ _ ha, stringsSplit_append _ _ _ hb]
        have := List.length_pos.mpr (stringsSplit_ne_nil ':' r2)
        simp only [List.length_cons]
        omega
      generalize a ++ ':' :: (b ++ ':' :: r2) = val at hnil hcount hlen ⊢
      simp [ParseLink, ParseLinkRef, hnil, hlen, hcount, Except.toOption, Except.isOk,
        Except.toBool]
  exact ⟨fun val => (key val).1, fun val => (key val).2, by decide, by decide, by decide,
    by decide, by decide⟩

theorem except_bind_ok {α β : Type} (x : Except GoError α) (f : α → Except GoError β) (r : β) :
    (x >>= f) = .ok r ↔ ∃ a, x = .ok a ∧ f a = .ok r := by
  cases x <;> simp [bind, Except.bind]

theorem parseMode_ok (valid : Bool) (message : String) (u : Unit) :
    parseMode valid message = .ok u ↔ valid = true := by
  cases valid <;> simp [parseMode]

theorem Parse_ok_iff (c : Collaborators) (flags : FlagSet) (copts : ContainerOptions)
    (r : ParseResult) :
    Parse c flags copts = .ok r ↔
      ∃ v, ParseSteps c copts v ∧ r = parseAssemble c flags copts v := by
  constructor
  · intro hok
    unfold Parse at hok
    simp only [except_bind_ok, parseMode_ok] at hok
    obtain ⟨_, h1, flMemory, h2, memRes, h3, memorySwap, h4, kernelMemory, h5, _, h6,
      shmSize, h7, maxIO, h8, ⟨binds, flVolumes⟩, h9, tmpfs, h10, ⟨ports0, portBindings⟩, h11,
      ports, h12, devs, h13, env, h14, labels, h15, _, h16, _, h17, _, h18, _, h19,
      rp, h20, lo, h21, so, h22, sto, h23, hc, h24, hr⟩ := hok
    refine ⟨⟨flMemory, memRes, memorySwap, kernelMemory, shmSize, maxIO, binds, flVolumes,
      tmpfs, portBindings, ports, devs, env, labels, rp, lo, so, sto, hc⟩,
      ⟨h1, h2, h3, h4, h5, h6, h7, h8, h9, h10, ⟨ports0, h11, h12⟩, h13, h14, h15,
      h16, h17, h18, h19, h20, h21, h22, h23, h24⟩, ?_⟩
    simp only [pure, Except.pure, Except.ok.injEq] at hr
    exact hr.symm
  · rintro ⟨v, hs, rfl⟩
    unfold Parse
    obtain ⟨ports0, hp1, hp2⟩ := hs.ports
    simp only [hs.macAddress, hs.memory, hs.memoryReservation, hs.memorySwap, hs.kernelMemory,
      hs.swappiness, hs.shmSize, hs.maxIOBandwidth, hs.binds, hs.tmpfs, hp1, hp2, hs.devices,
      hs.env, hs.labels, hs.ipcMode, hs.pidMode, hs.utsMode, hs.usernsMode, hs.restartPolicy,
      hs.loggingOpts, hs.securityOpts, hs.storageOpts, hs.healthcheck, parseMode,
      bind, Except.bind]
    rfl

theorem isBindEntry_of_some (bind : GoString) (arr : List GoString)
    (h : volumeSplitN bind 2 = some arr) : isBindEntry bind = decide (arr.length > 1) := by
  simp [isBindEntry, h]

theorem count_goString (a : GoString) (l : List GoString) :
    l.count a = @List.count GoString instBEqOfDecidableEq a l := by
  unfold List.count
  apply List.countP_congr
  intro x _
  simp

theorem count_diff_list (a : GoString) (l₂ : List GoString) :
    ∀ l₁ : List GoString, (l₁.diff l₂).count a = l₁.count a - l₂.count a := by
  induction l₂ with
  | nil => intro l₁; simp
  | cons b t ih =>
    intro l₁
    rw [List.diff_cons, ih, List.count_erase, List.count_cons]
    by_cases hb : b = a
    · subst hb
      simp
      omega
    · have hb2 : (b == a) = false := by simpa using hb
      simp [hb2]

theorem parseBindsLoop_eq (keys : List GoString) :
    ∀ (binds : List GoString) (flVolumes : ListOpts),
      parseBindsLoop keys (binds, flVolumes) =
        .ok (binds ++ keys.filter isBindEntry,
          ⟨flVolumes.values.diff (keys.filter isBindEntry)⟩) := by
  induction keys with
  | nil => intro binds flVolumes; simp [parseBindsLoop]
  | cons bind rest ih =>
    intro binds flVolumes
    obtain ⟨arr, harr, _⟩ := volumeSplitN_some_le bind 2 (by decide)
    have hb := isBindEntry_of_some bind arr harr
    simp only [parseBindsLoop, harr]
    by_cases hlen : arr.length > 1
    · have hbt : isBindEntry bind = true := by simp [hb, hlen]
      simp only [hlen, if_true, ih, ListOpts.Delete, List.filter_cons_of_pos hbt,
        List.append_assoc, List.singleton_append, List.diff_cons]
    · have hbf : isBindEntry bind = false := by simp [hb, hlen]
      simp only [hlen, if_false, ih]
      rw [List.filter_cons_of_neg (by simp [hbf])]

theorem count_bind_keys (c : Collaborators) (o : ListOpts) (e : GoString) :
    ((c.mapRange o.GetMap).val.filter isBindEntry).count e =
      if e ∈ o.values ∧ isBindEntry e = true then 1 else 0 := by
  have hperm := (c.mapRange o.GetMap).property
  by_cases hb : isBindEntry e = true
  · rw [List.count_filter hb, count_goString, hperm.count_eq e]
    unfold ListOpts.GetMap
    rw [List.count_dedup]
    simp [hb]
  · have hnot : e ∉ (c.mapRange o.GetMap).val.filter isBindEntry := by
      intro h
      exact hb (List.mem_filter.mp h).2
    rw [List.count_eq_zero_of_not_mem hnot]
    simp [hb]

theorem mem_remaining_volumes (c : Collaborators) (o : ListOpts) (e : GoString) :
    e ∈ o.values.diff ((c.mapRange o.GetMap).val.filter isBindEntry) ↔
      e ∈ o.values ∧ (isBindEntry e = false ∨ 2 ≤ o.values.count e) := by
  rw [← List.count_pos_iff, count_diff_list, count_bind_keys]
  by_cases hm : e ∈ o.values
  · have hpos : 0 < o.values.count e := List.count_pos_iff.mpr hm
    cases hb : isBindEntry e with
    | true =>
      simp only [hm, and_self, if_true, true_and]
      constructor
      · intro h; right; omega
      · rintro (h | h)
        · exact absurd h (by decide)
        · omega
    | false =>
      simp only [hm, true_and]
      constructor
      · intro _; left; trivial
      · intro _; simpa using hpos
  · have h0 : o.values.count e = 0 := List.count_eq_zero_of_not_mem hm
    simp [hm, h0]

theorem Parse_binds_volumes (c : Collaborators) (flags : FlagSet) (copts : ContainerOptions)
    (r : ParseResult) (hok : Parse c flags copts = .ok r) (e : GoString) :
    (e ∈ r.hostConfig.Binds ↔ e ∈ copts.flVolumes.values ∧ isBindEntry e = true) ∧
    (e ∈ r.config.Volumes ↔ e ∈ copts.flVolumes.values ∧
      (isBindEntry e = false ∨ 2 ≤ copts.flVolumes.values.count e)) := by
  obtain ⟨v, hs, rfl⟩ := (Parse_ok_iff c flags copts r).mp hok
  have hb := hs.binds
  rw [parseBindsLoop_eq] at hb
  simp only [Except.ok.injEq, Prod.mk.injEq, List.nil_append] at hb
  obtain ⟨hb1, hb2⟩ := hb
  have hkeys : ∀ x, x ∈ (c.mapRange copts.flVolumes.GetMap).val ↔ x ∈ copts.flVolumes.values := by
    intro x
    rw [(c.mapRange copts.flVolumes.GetMap).property.mem_iff]
    simp [ListOpts.GetMap]
  have hB : (parseAssemble c flags copts v).hostConfig.Binds = v.binds := rfl
  have hV : (parseAssemble c flags copts v).config.Volumes = v.flVolumes.GetMap := rfl
  rw [hB, hV, ← hb1, ← hb2]
  constructor
  · simp [hkeys]
  · unfold ListOpts.GetMap
    rw [List.mem_dedup]
    exact mem_remaining_volumes c copts.flVolumes e

theorem head?_ne_colon_of_not_mem (s : GoString) (h : ':' ∉ s) : s.head? ≠ some ':' := by
  cases s with
  | nil => simp
  | cons c t =>
    intro hc
    apply h
    simp at hc
    simp [hc]

theorem volumeSplitN_host_container (H C : GoString) (hH : H.head? = some '/')
    (hC : C.head? = some '/') (hHc : ':' ∉ H) (hCc : ':' ∉ C)
    (hsuf : ∀ x, x.isAlpha = true → ¬ ['\\', x] <:+ H) :
    volumeSplitN (H ++ ':' :: C) 2 = some [H, C] := by
  have hHne : H ≠ [] := by
    intro h; rw [h] at hH; simp at hH
  have hCne : C ≠ [] := by
    intro h; rw [h] at hC; simp at hC
  have s1 := separatorColons_eq_nil_of_not_mem H hHc
  have e1 : isSeparatorColon (H ++ [':']) H.length = true := by
    by_cases hlen : 2 ≤ H.length
    · apply isSeparatorColon_end H hlen
      intro c2 c1 hc1 hc2 hs
      have hmem : c2 ∈ H := hs.subset (by simp)
      rcases hc2 with h | h
      · subst h; exact hHc hmem
      · subst h; exact hsuf c1 hc1 hs
    · cases H with
      | nil => exact absurd rfl hHne
      | cons c t =>
        cases t with
        | nil =>
          simp at hH
          subst hH
          decide
        | cons d t => simp at hlen
  have href : volumeSplitRef (H ++ ':' :: C) = [H, C] := by
    rw [volumeSplitRef_cons H C hHne (head?_ne_colon_of_not_mem H hHc) s1 e1 hCne
      (head?_ne_colon_of_not_mem C hCc), volumeSplitRef_of_not_mem C hCc hCne]
  have hcount : (separatorColons (H ++ ':' :: C)).length = 1 := by
    rw [separatorColons_append H C s1 e1 (head?_ne_colon_of_not_mem C hCc),
      separatorColons_eq_nil_of_not_mem C hCc]
    simp
  rw [volumeSplitN_eq_ref_of_lt _ 2 (Or.inr (by rw [hcount]; decide)), href]

theorem volumeSplitN_of_not_mem (e : GoString) (he : e ≠ []) (hc : ':' ∉ e) :
    volumeSplitN e 2 = some [e] := by
  have hcount : (separatorColons e).length = 0 := by
    rw [separatorColons_eq_nil_of_not_mem e hc]; rfl
  rw [volumeSplitN_eq_ref_of_lt _ 2 (Or.inr (by rw [hcount]; decide)),
    volumeSplitRef_of_not_mem e hc he]

/-- C5 (amended): in every successful Parse, a volume entry `H:C` that the volume list holds
exactly once, with H and C starting with a slash and without a colon and with H not ending in
a backslash followed by an ASCII letter, is in HostConfig.Binds and is not a key of
Config.Volumes; and a non-empty volume entry without a colon is a key of Config.Volumes and
is not in HostConfig.Binds. -/
theorem Parse_volume_reclassification (c : Collaborators) (flags : FlagSet)
    (copts : ContainerOptions) (r : ParseResult) (hok : Parse c flags copts = .ok r) :
    (∀ H C : GoString, H.head? = some '/' → C.head? = some '/' → ':' ∉ H → ':' ∉ C →
      (∀ x, x.isAlpha = true → ¬ ['\\', x] <:+ H) →
      copts.flVolumes.values.count (H ++ ':' :: C) = 1 →
      H ++ ':' :: C ∈ r.hostConfig.Binds ∧ H ++ ':' :: C ∉ r.config.Volumes) ∧
    (∀ e : GoString, e ∈ copts.flVolumes.values → e ≠ [] → ':' ∉ e →
      e ∈ r.config.Volumes ∧ e ∉ r.hostConfig.Binds) := by
  constructor
  · intro H C hH hC hHc hCc hsuf hone
    obtain ⟨hB, hV⟩ := Parse_binds_volumes c flags copts r hok (H ++ ':' :: C)
    have hmem : H ++ ':' :: C ∈ copts.flVolumes.values :=
      List.count_pos_iff.mp (by omega)
    have hbind : isBindEntry (H ++ ':' :: C) = true := by
      rw [isBindEntry_of_some _ _ (volumeSplitN_host_container H C hH hC hHc hCc hsuf)]
      simp
    refine ⟨hB.mpr ⟨hmem, hbind⟩, fun h => ?_⟩
    rcases (hV.mp h).2 with h2 | h2
    · rw [hbind] at h2
      exact absurd h2 (by decide)
    · omega
  · intro e hmem he hc
    obtain ⟨hB, hV⟩ := Parse_binds_volumes c flags copts r hok e
    have hbind : isBindEntry e = false := by
      rw [isBindEntry_of_some _ _ (volumeSplitN_of_not_mem e he hc)]
      simp
    refine ⟨hV.mpr ⟨hmem, Or.inl hbind⟩, fun h => ?_⟩
    have := (hB.mp h).2
    rw [hbind] at this
    exact absurd this (by decide)

theorem Parse_volume_reclassification_witness :
    ∃ r, Parse exampleCollaborators exampleFlags
        (exampleOptions ["/tmp/q:/foo".toList, "/foo".toList]) = .ok r ∧
      (exampleOptions ["/tmp/q:/foo".toList, "/foo".toList]).flVolumes.values.count
        ("/tmp/q".toList ++ ':' :: "/foo".toList) = 1 ∧
      ("/tmp/q".toList ++ ':' :: "/foo".toList ∈ r.hostConfig.Binds ∧
        "/tmp/q".toList ++ ':' :: "/foo".toList ∉ r.config.Volumes) ∧
      ("/foo".toList ∈ r.config.Volumes ∧ "/foo".toList ∉ r.hostConfig.Binds) :=
  ⟨parseAssemble exampleCollaborators exampleFlags
      (exampleOptions ["/tmp/q:/foo".toList, "/foo".toList])
      { flMemory := 0, MemoryReservation := 0, memorySwap := 0, KernelMemory := 0, shmSize := 0,
        maxIOBandwidth := 0, binds := ["/tmp/q:/foo".toList], flVolumes := ⟨["/foo".toList]⟩,
        tmpfs := [], portBindings := [], ports := [], deviceMappings := [], envVariables := [],
        labels := [], restartPolicy := ⟨"no".toList, 0⟩, loggingOpts := [], securityOpts := [],
        storageOpts := [], healthConfig := none },
    by decide, by decide,
    (Parse_volume_reclassification exampleCollaborators exampleFlags
      (exampleOptions ["/tmp/q:/foo".toList, "/foo".toList]) _ (by decide)).1
        "/tmp/q".toList "/foo".toList (by decide) (by decide) (by decide) (by decide)
        (by intro x _ h; simp [List.suffix_cons_iff] at h) (by decide),
    (Parse_volume_reclassification exampleCollaborators exampleFlags
      (exampleOptions ["/tmp/q:/foo".toList, "/foo".toList]) _ (by decide)).2
        "/foo".toList (by decide) (by decide) (by decide)⟩

theorem Parse_volume_reclassification_counterexample :
    ("/\\c".toList.head? = some '/' ∧ "/foo".toList.head? = some '/' ∧
      ':' ∉ "/\\c".toList ∧ ':' ∉ "/foo".toList) ∧
    "/\\c".toList ++ ':' :: "/foo".toList ∈
      (exampleOptions ["/\\c:/foo".toList]).flVolumes.values ∧
    (Parse exampleCollaborators exampleFlags (exampleOptions ["/\\c:/foo".toList])).map
        (fun r => (r.hostConfig.Binds, r.config.Volumes)) =
      .ok ([], ["/\\c".toList ++ ':' :: "/foo".toList]) ∧
    (Parse exampleCollaborators exampleFlags
        (exampleOptions ["/tmp/q:/foo".toList, "/tmp/q:/foo".toList])).map
        (fun r => (r.hostConfig.Binds, r.config.Volumes)) =
      .ok (["/tmp/q".toList ++ ':' :: "/foo".toList],
        ["/tmp/q".toList ++ ':' :: "/foo".toList]) := by
  decide

theorem afterLastSlash_eq_nil (s : GoString) :
    afterLastSlash s = [] ↔ s = [] ∨ s.getLast? = some '/' := by
  rcases List.eq_nil_or_concat s with h | ⟨l, c, h⟩
  · subst h; simp [afterLastSlash]
  · subst h
    by_cases hc : c = '/'
    · subst hc; simp [afterLastSlash]
    · simp [afterLastSlash, hc]

theorem stringsHasPrefix_slash (a : GoString) :
    stringsHasPrefix a ['/'] = true ↔ a.head? = some '/' := by
  cases a with
  | nil => simp [stringsHasPrefix]
  | cons c t =>
    simp only [stringsHasPrefix, List.isPrefixOf_cons₂, List.isPrefixOf,
      Bool.and_true, beq_iff_eq, List.head?_cons, Option.some.injEq]
    exact eq_comm

theorem ParseLink_nocolon (val : GoString) (h : ':' ∉ val) (hne : val ≠ []) :
    ParseLink val = .ok (val, val) := by
  simp [ParseLink, stringsSplit_of_not_mem _ _ h, hne]

theorem ParseLink_one (a b : GoString) (ha : ':' ∉ a) (hb : ':' ∉ b) :
    ParseLink (a ++ ':' :: b) =
      .ok (if a.head? = some '/' then (a.drop 1, afterLastSlash b) else (a, b)) := by
  have hpre := stringsHasPrefix_slash a
  by_cases hp : a.head? = some '/'
  · have hp' := hpre.mpr hp
    simp [ParseLink, stringsSplit_append _ _ _ ha, stringsSplit_of_not_mem _ _ hb, hp, hp',
      pathSplit_snd]
  · have hp' : ¬ stringsHasPrefix a ['/'] = true := fun e => hp (hpre.mp e)
    simp [ParseLink, stringsSplit_append _ _ _ ha, stringsSplit_of_not_mem _ _ hb, hp, hp']

theorem ParseLink_many (a b r : GoString) (ha : ':' ∉ a) (hb : ':' ∉ b) :
    ParseLink (a ++ ':' :: (b ++ ':' :: r)) =
      .error (.errorf "bad format for links: %s" [a ++ ':' :: (b ++ ':' :: r)]) := by
  have hlen : (stringsSplit ':' (a ++ ':' :: (b ++ ':' :: r))).length > 2 := by
    rw [stringsSplit_append _ _ _ ha, stringsSplit_append _ _ _ hb]
    have := List.length_pos.mpr (stringsSplit_ne_nil ':' r)
    simp only [List.length_cons]
    omega
  have hnil : a ++ ':' :: (b ++ ':' :: r) ≠ [] := by simp
  generalize a ++ ':' :: (b ++ ':' :: r) = val at hnil hlen ⊢
  simp [ParseLink, hnil, hlen]

/-- C11 (amended): for every string on which ParseLink succeeds, neither the returned name
nor the returned alias is empty when the string has no colon; for `first:second` the name is
empty exactly when `first` is empty or is `/`, and the alias is empty exactly when `second`
is empty, or `first` starts with a slash and `second` ends with one. -/
theorem ParseLink_fields_empty (val name linkAlias : GoString)
    (hok : ParseLink val = .ok (name, linkAlias)) :
    (':' ∉ val → name ≠ [] ∧ linkAlias ≠ []) ∧
    (∀ first second, val = first ++ ':' :: second → ':' ∉ first →
      (name = [] ↔ first = [] ∨ first = ['/']) ∧
      (linkAlias = [] ↔
        second = [] ∨ (first.head? = some '/' ∧ second.getLast? = some '/'))) := by
  constructor
  · intro h
    by_cases hne : val = []
    · subst hne
      simp [ParseLink] at hok
    · rw [ParseLink_nocolon val h hne] at hok
      simp only [Except.ok.injEq, Prod.mk.injEq] at hok
      rw [← hok.1, ← hok.2]
      exact ⟨hne, hne⟩
  · rintro first second rfl hf
    rcases exists_first_sep ':' second with hs | ⟨b, r, rfl, hb⟩
    · rw [ParseLink_one first second hf hs] at hok
      by_cases hp : first.head? = some '/'
      · simp only [hp, if_true, Except.ok.injEq, Prod.mk.injEq] at hok
        rw [← hok.1, ← hok.2, afterLastSlash_eq_nil]
        constructor
        · cases first with
          | nil => simp at hp
          | cons c t =>
            simp at hp
            subst hp
            simp
        · simp [hp]
      · simp only [hp, if_false, Except.ok.injEq, Prod.mk.injEq] at hok
        rw [← hok.1, ← hok.2]
        constructor
        · constructor
          · intro h; exact Or.inl h
          · rintro (h | h)
            · exact h
            · rw [h] at hp; simp at hp
        · simp [hp]
    · rw [ParseLink_many first b r hf hb] at hok
      simp at hok

theorem ParseLink_fields_empty_witness :
    ParseLink "/c1/foo:/c1/bar".toList = .ok ("c1/foo".toList, "bar".toList) ∧
    (("c1/foo".toList = [] ↔ "/c1/foo".toList = [] ∨ "/c1/foo".toList = ['/']) ∧
      ("bar".toList = [] ↔ "/c1/bar".toList = [] ∨
        ("/c1/foo".toList.head? = some '/' ∧ "/c1/bar".toList.getLast? = some '/'))) :=
  ⟨by decide,
    (ParseLink_fields_empty "/c1/foo:/c1/bar".toList "c1/foo".toList "bar".toList
      (by decide)).2 "/c1/foo".toList "/c1/bar".toList (by decide) (by decide)⟩

theorem ParseLink_fields_empty_counterexample :
    ParseLink "a:".toList = .ok ("a".toList, []) ∧
    ParseLink ":b".toList = .ok ([], "b".toList) ∧
    ParseLink "/:/c1/".toList = .ok ([], []) := by
  decide

theorem parseUintDigits_append (a b : GoString) :
    ∀ acc v, parseUintDigits a acc = some v →
      parseUintDigits (a ++ b) acc = parseUintDigits b v := by
  induction a with
  | nil => intro acc v h; simp [parseUintDigits] at h; simp [h]
  | cons c cs ih =>
    intro acc v h
    simp only [parseUintDigits, List.cons_append] at h ⊢
    cases hd : digitValue c with
    | none => simp [hd] at h
    | some d =>
      simp only [hd] at h ⊢
      exact ih _ _ h

theorem digitValue_digitChar (k : Nat) (hk : k < 10) :
    digitValue (Nat.digitChar k) = some k := by
  interval_cases k <;> decide

theorem toDigitsCore_spec (fuel : Nat) :
    ∀ (n : Nat) (ds : List Char), n < fuel →
      ∃ pre, Nat.toDigitsCore 10 fuel n ds = pre ++ ds ∧ pre ≠ [] ∧
        (∀ c ∈ pre, ∃ k, digitValue c = some k) ∧
        (∀ acc, parseUintDigits pre acc = some (acc * 10 ^ pre.length + n)) := by
  induction fuel with
  | zero => intro n ds h; omega
  | succ fuel ih =>
    intro n ds hn
    have hmod : n % 10 < 10 := Nat.mod_lt _ (by decide)
    have hdv := digitValue_digitChar (n % 10) hmod
    simp only [Nat.toDigitsCore]
    by_cases h0 : n / 10 = 0
    · refine ⟨[Nat.digitChar (n % 10)], by simp [h0], by simp, ?_, ?_⟩
      · intro c hc
        simp only [List.mem_singleton] at hc
        exact ⟨n % 10, hc ▸ hdv⟩
      · intro acc
        simp only [parseUintDigits, hdv, List.length_singleton, pow_one]
        congr 1
        omega
    · have hlt : n / 10 < fuel := by omega
      obtain ⟨pre, h1, h2, h3, h4⟩ := ih (n / 10) (Nat.digitChar (n % 10) :: ds) hlt
      refine ⟨pre ++ [Nat.digitChar (n % 10)], by simp [h0, h1], by simp, ?_, ?_⟩
      · intro c hc
        rcases List.mem_append.mp hc with h | h
        · exact h3 c h
        · simp only [List.mem_singleton] at h
          exact ⟨n % 10, h ▸ hdv⟩
      · intro acc
        rw [parseUintDigits_append _ _ _ _ (h4 acc)]
        simp only [parseUintDigits, hdv, List.length_append, List.length_singleton]
        congr 1
        rw [pow_succ]
        have := Nat.div_add_mod n 10
        nlinarith [Nat.div_add_mod n 10]

theorem toDigits_spec (n : Nat) :
    Nat.toDigits 10 n ≠ [] ∧ (∀ c ∈ Nat.toDigits 10 n, ∃ k, digitValue c = some k) ∧
      parseUintDigits (Nat.toDigits 10 n) 0 = some n := by
  obtain ⟨pre, h1, h2, h3, h4⟩ := toDigitsCore_spec (n + 1) n [] (by omega)
  simp only [List.append_nil] at h1
  unfold Nat.toDigits
  rw [h1]
  refine ⟨h2, h3, ?_⟩
  rw [h4 0]
  simp

theorem strconvAtoi_toDigits (n : Nat) (hn : n < 2 ^ 63) :
    strconvAtoi (Nat.toDigits 10 n) = .ok (n : Int) := by
  obtain ⟨hne, hdig, hparse⟩ := toDigits_spec n
  have hhead : ∀ c, (Nat.toDigits 10 n).head? = some c → c ≠ '+' ∧ c ≠ '-' := by
    intro c hc
    obtain ⟨k, hk⟩ := hdig c (List.mem_of_mem_head? hc)
    constructor <;> (intro h; subst h; simp [digitValue] at hk)
  cases hd : (Nat.toDigits 10 n).head? with
  | none =>
    rw [List.head?_eq_none_iff] at hd
    exact absurd hd hne
  | some c =>
    obtain ⟨hp, hm⟩ := hhead c hd
    have hlt : n < 9223372036854775808 := by
      have : (2 : Nat) ^ 63 = 9223372036854775808 := by norm_num
      omega
    simp [strconvAtoi, hne, hd, hp, hm, hparse, hlt]

theorem colon_not_mem_toDigits (n : Nat) : ':' ∉ Nat.toDigits 10 n := by
  intro h
  obtain ⟨k, hk⟩ := (toDigits_spec n).2.1 ':' h
  simp [digitValue] at hk

theorem ParseRestartPolicy_on_failure_count (value : GoString) (hv : ':' ∉ value) :
    ParseRestartPolicy ("on-failure".toList ++ ':' :: value) =
      match strconvAtoi value with
      | .error err => .error err
      | .ok count => .ok ⟨"on-failure".toList, count⟩ := by
  have hsplit : stringsSplit ':' ("on-failure".toList ++ ':' :: value) =
      ["on-failure".toList, value] := by
    rw [stringsSplit_append _ _ _ (by decide), stringsSplit_of_not_mem _ _ hv]
  have hne : "on-failure".toList ++ ':' :: value ≠ [] := by simp
  unfold ParseRestartPolicy
  simp only [hne, if_false, hsplit, List.getD_cons_zero, List.getD_cons_succ, List.length_cons,
    List.length_nil]
  have h1 : ¬ ("on-failure".toList = "always".toList ∨
      "on-failure".toList = "unless-stopped".toList) := by decide
  have h2 : ¬ ("on-failure".toList = "no".toList) := by decide
  simp only [h1, h2, if_false, if_true]
  rfl

/-- C12: for every natural number N below 2^63, ParseRestartPolicy applied to `on-failure:`
followed by the decimal digits of N returns the policy `on-failure` with retry count N; and
applied to `on-failure` it returns that policy with retry count 0. -/
theorem ParseRestartPolicy_on_failure :
    (∀ N : Nat, N < 2 ^ 63 →
      ParseRestartPolicy ("on-failure:".toList ++ Nat.toDigits 10 N) =
        .ok ⟨"on-failure".toList, (N : Int)⟩) ∧
    ParseRestartPolicy "on-failure".toList = .ok ⟨"on-failure".toList, 0⟩ ∧
    ParseRestartPolicy "on-failure:5".toList = .ok ⟨"on-failure".toList, 5⟩ := by
  refine ⟨fun N hN => ?_, by decide, by decide⟩
  have e : "on-failure:".toList ++ Nat.toDigits 10 N =
      "on-failure".toList ++ ':' :: Nat.toDigits 10 N := by
    simp [String.toList]
  rw [e, ParseRestartPolicy_on_failure_count _ (colon_not_mem_toDigits N),
    strconvAtoi_toDigits N hN]

theorem ParseRestartPolicy_on_failure_witness :
    (1203 : Nat) < 2 ^ 63 ∧
    ParseRestartPolicy ("on-failure:".toList ++ Nat.toDigits 10 1203) =
      .ok ⟨"on-failure".toList, ((1203 : Nat) : Int)⟩ :=
  ⟨by norm_num, ParseRestartPolicy_on_failure.1 1203 (by norm_num)⟩

/-- C13 (the code at the failing input): ParseRestartPolicy accepts `no:5`, and returns the
policy `no` with retry count 0, whereas it rejects `always:5` and `unless-stopped:5`. -/
theorem ParseRestartPolicy_no_with_count :
    ParseRestartPolicy "no:5".toList = .ok ⟨"no".toList, 0⟩ ∧
    ParseRestartPolicy "always:5".toList =
      .error (.errorf "maximum restart count not valid with restart policy of \"%s\""
        ["always".toList]) ∧
    ParseRestartPolicy "unless-stopped:5".toList =
      .error (.errorf "maximum restart count not valid with restart policy of \"%s\""
        ["unless-stopped".toList]) := by
  decide

/-- C14: when ParseRestartPolicy succeeds, either the input is empty and the policy is the
zero value, or the name returned is one of `no`, `always`, `on-failure`, `unless-stopped`;
and the retry count is 0 unless the name is `on-failure`. -/
theorem ParseRestartPolicy_invariant (policy : GoString) (p : RestartPolicy)
    (hok : ParseRestartPolicy policy = .ok p) :
    ((policy = [] ∧ p = ⟨[], 0⟩) ∨
      p.Name ∈ ["no".toList, "always".toList, "on-failure".toList, "unless-stopped".toList]) ∧
    (p.Name ≠ "on-failure".toList → p.MaximumRetryCount = 0) := by
  unfold ParseRestartPolicy at hok
  by_cases hnil : policy = []
  · simp only [hnil, if_true, Except.ok.injEq] at hok
    subst hok
    exact ⟨Or.inl ⟨hnil, rfl⟩, fun _ => rfl⟩
  simp only [hnil, if_false] at hok
  generalize (stringsSplit ':' policy).getD 0 [] = name at hok
  generalize (stringsSplit ':' policy) = parts at hok
  by_cases h1 : name = "always".toList ∨ name = "unless-stopped".toList
  · simp only [h1, if_true] at hok
    split at hok
    · simp at hok
    · simp only [Except.ok.injEq] at hok
      subst hok
      refine ⟨Or.inr ?_, fun _ => rfl⟩
      rcases h1 with h | h <;> simp [h]
  simp only [h1, if_false] at hok
  by_cases h2 : name = "no".toList
  · simp only [h2, if_true, Except.ok.injEq] at hok
    subst hok
    exact ⟨Or.inr (by simp), fun _ => rfl⟩
  simp only [h2, if_false] at hok
  by_cases h3 : name = "on-failure".toList
  · simp only [h3, if_true] at hok
    split at hok
    · simp at hok
    · split at hok
      · split at hok
        · simp at hok
        · simp only [Except.ok.injEq] at hok
          subst hok
          exact ⟨Or.inr (by simp), fun h => absurd rfl h⟩
      · simp only [Except.ok.injEq] at hok
        subst hok
        exact ⟨Or.inr (by simp), fun h => absurd rfl h⟩
  · simp only [h3, if_false] at hok
    exact absurd hok (by simp)

theorem ParseRestartPolicy_invariant_witness :
    ParseRestartPolicy "on-failure:5".toList = .ok ⟨"on-failure".toList, 5⟩ ∧
    (((("on-failure:5".toList = [] ∧ (⟨"on-failure".toList, 5⟩ : RestartPolicy) = ⟨[], 0⟩) ∨
      (⟨"on-failure".toList, 5⟩ : RestartPolicy).Name ∈
        ["no".toList, "always".toList, "on-failure".toList, "unless-stopped".toList])) ∧
    ((⟨"on-failure".toList, 5⟩ : RestartPolicy).Name ≠ "on-failure".toList →
      (⟨"on-failure".toList, 5⟩ : RestartPolicy).MaximumRetryCount = 0)) :=
  ⟨by decide, ParseRestartPolicy_invariant _ _ (by decide)⟩

theorem goMapGet_goMapSet {V : Type} (m : GoMap V) (k k1 : GoString) (v : V) :
    goMapGet (goMapSet m k v) k1 = if k = k1 then some v else goMapGet m k1 := by
  unfold goMapGet goMapSet
  by_cases h : k = k1
  · simp [h]
  · have hb : (k == k1) = false := beq_eq_false_iff_ne.mpr h
    simp only [List.find?_cons, hb, h, if_false, List.find?_filter]
    congr 2
    funext e
    by_cases he : e.1 = k1
    · have : ¬ k1 = k := fun e2 => h e2.symm
      simp [he, this]
    · simp [he]

theorem kv_of_not_mem (e : GoString) (h : '=' ∉ e) :
    stringsSplitN '=' 2 e = [e] ∧ kvKey e = e ∧ kvValue e = [] := by
  have hall : ∀ x ∈ e, (x != '=') = true := by
    intro x hx
    have : x ≠ '=' := fun e2 => h (e2 ▸ hx)
    simpa using this
  refine ⟨stringsSplitN_of_not_mem _ _ _ h, ?_, ?_⟩
  · exact List.takeWhile_eq_self_iff.mpr hall
  · have : List.dropWhile (fun c => c != '=') e = [] := by
      rw [List.dropWhile_eq_nil_iff]
      exact hall
    simp [kvValue, this]

theorem kv_of_append (a b : GoString) (h : '=' ∉ a) :
    stringsSplitN '=' 2 (a ++ '=' :: b) = [a, b] ∧ kvKey (a ++ '=' :: b) = a ∧
      kvValue (a ++ '=' :: b) = b := by
  obtain ⟨ht, hd⟩ := takeWhile_ne_append '=' a b h
  refine ⟨?_, ht, ?_⟩
  · rw [stringsSplitN_append _ _ _ _ h]
    simp [stringsSplitN]
  · simp [kvValue, hd]

theorem convertKVEntry_eq (m : GoMap GoString) (e : GoString) :
    convertKVEntry m e = goMapSet m (kvKey e) (kvValue e) := by
  rcases exists_first_sep '=' e with h | ⟨a, b, rfl, ha⟩
  · obtain ⟨h1, h2, h3⟩ := kv_of_not_mem e h
    simp [convertKVEntry, h1, h2, h3]
  · obtain ⟨h1, h2, h3⟩ := kv_of_append a b ha
    simp [convertKVEntry, h1, h2, h3]

theorem goMapGet_foldl_convert (values : List GoString) (k : GoString) :
    ∀ m : GoMap GoString,
      goMapGet (values.foldl convertKVEntry m) k = (kvLast values k).or (goMapGet m k) := by
  induction values with
  | nil => intro m; simp [kvLast]
  | cons e rest ih =>
    intro m
    rw [List.foldl_cons, ih, convertKVEntry_eq, goMapGet_goMapSet]
    simp only [kvLast, List.reverse_cons, List.find?_append, List.find?_cons, List.find?_nil]
    cases hf : List.find? (fun e => kvKey e == k) rest.reverse with
    | some x => simp
    | none =>
      by_cases hk : kvKey e = k
      · simp [hk]
      · have hb : (kvKey e == k) = false := beq_eq_false_iff_ne.mpr hk
        simp [hk, hb]

theorem goMapGet_convert (values : List GoString) (k : GoString) :
    goMapGet (ConvertKVStringsToMap values) k = kvLast values k := by
  unfold ConvertKVStringsToMap
  rw [goMapGet_foldl_convert]
  simp [goMapGet]

theorem foldl_convert_pairs (pairs : List (GoString × GoString)) :
    ∀ m : GoMap GoString, (∀ p ∈ pairs, '=' ∉ p.1) → (pairs.map Prod.fst).Nodup →
      (∀ p ∈ pairs, ∀ e ∈ m, e.1 ≠ p.1) →
      (pairs.map kvRender).foldl convertKVEntry m = pairs.reverse ++ m := by
  induction pairs with
  | nil => intro m _ _ _; simp
  | cons p rest ih =>
    intro m hkeys hnd hdisj
    have hp : '=' ∉ p.1 := hkeys p (by simp)
    obtain ⟨_, hk, hv⟩ := kv_of_append p.1 p.2 hp
    have hstep : convertKVEntry m (kvRender p) = p :: m := by
      rw [convertKVEntry_eq]
      unfold kvRender
      rw [hk, hv]
      unfold goMapSet
      have hf : m.filter (fun e => e.1 != p.1) = m := by
        rw [List.filter_eq_self]
        intro e he
        simpa using hdisj p (by simp) e he
      rw [hf]
    simp only [List.map_cons, List.foldl_cons, hstep]
    simp only [List.map_cons, List.nodup_cons] at hnd
    rw [ih (p :: m) (fun q hq => hkeys q (by simp [hq])) hnd.2]
    · simp
    · intro q hq e he
      rcases List.mem_cons.mp he with h | h
      · subst h
        intro heq
        apply hnd.1
        rw [heq]
        exact List.mem_map_of_mem Prod.fst hq
      · exact hdisj q (by simp [hq]) e h

theorem goMapGet_of_nodup (l : GoMap GoString) (hnd : (l.map Prod.fst).Nodup)
    (k v : GoString) : goMapGet l k = some v ↔ (k, v) ∈ l := by
  induction l with
  | nil => simp [goMapGet]
  | cons e rest ih =>
    simp only [List.map_cons, List.nodup_cons] at hnd
    have ih' := ih hnd.2
    unfold goMapGet at ih' ⊢
    by_cases he : e.1 = k
    · have hb : (e.1 == k) = true := by simp [he]
      simp only [List.find?_cons, hb, Option.map_some', Option.some.injEq, List.mem_cons]
      constructor
      · intro h
        left
        rw [← he, ← h]
      · rintro (h | h)
        · rw [← h]
        · exfalso
          apply hnd.1
          rw [he]
          exact List.mem_map_of_mem Prod.fst h
    · have hb : (e.1 == k) = false := beq_eq_false_iff_ne.mpr he
      simp only [List.find?_cons, hb, List.mem_cons]
      rw [ih']
      constructor
      · intro h; exact Or.inr h
      · rintro (h | h)
        · exfalso; apply he; rw [← h]
        · exact h

/-- C15: for pairs whose keys contain no `=` and are pairwise distinct, ConvertKVStringsToMap
applied to the entries `key=value` gives a map in which `k` maps to `v` exactly for the pairs
`(k, v)` given, and rendering each entry of the map as `key=value` and splitting it again at
its first `=` gives back the pairs. -/
theorem ConvertKVStringsToMap_roundtrip (pairs : List (GoString × GoString))
    (hkeys : ∀ p ∈ pairs, '=' ∉ p.1) (hnd : (pairs.map Prod.fst).Nodup) :
    (∀ k v, goMapGet (ConvertKVStringsToMap (pairs.map kvRender)) k = some v ↔
      (k, v) ∈ pairs) ∧
    ((ConvertKVStringsToMap (pairs.map kvRender)).map
      (fun e => (kvKey (kvRender e), kvValue (kvRender e)))).Perm pairs := by
  have hm : ConvertKVStringsToMap (pairs.map kvRender) = pairs.reverse := by
    unfold ConvertKVStringsToMap
    rw [foldl_convert_pairs pairs [] hkeys hnd (by simp)]
    simp
  rw [hm]
  constructor
  · intro k v
    rw [goMapGet_of_nodup pairs.reverse (by
      rw [List.map_reverse]
      exact List.nodup_reverse.mpr hnd)]
    simp
  · have hid : pairs.reverse.map (fun e => (kvKey (kvRender e), kvValue (kvRender e))) =
        pairs.reverse := by
      conv_rhs => rw [← List.map_id pairs.reverse]
      apply List.map_congr_left
      intro e he
      have hp : '=' ∉ e.1 := hkeys e (by simpa using he)
      obtain ⟨_, hk, hv⟩ := kv_of_append e.1 e.2 hp
      unfold kvRender
      rw [hk, hv]
      rfl
    rw [hid]
    exact List.reverse_perm pairs

theorem ConvertKVStringsToMap_roundtrip_witness :
    ((∀ p ∈ [("a".toList, "1=2".toList), ("b".toList, "".toList)], '=' ∉ p.1) ∧
      ([("a".toList, "1=2".toList), ("b".toList, "".toList)].map Prod.fst).Nodup) ∧
    ((∀ k v, goMapGet (ConvertKVStringsToMap
        ([("a".toList, "1=2".toList), ("b".toList, "".toList)].map kvRender)) k = some v ↔
      (k, v) ∈ [("a".toList, "1=2".toList), ("b".toList, "".toList)]) ∧
    ((ConvertKVStringsToMap
        ([("a".toList, "1=2".toList), ("b".toList, "".toList)].map kvRender)).map
      (fun e => (kvKey (kvRender e), kvValue (kvRender e)))).Perm
        [("a".toList, "1=2".toList), ("b".toList, "".toList)]) :=
  ⟨⟨by decide, by decide⟩,
    ConvertKVStringsToMap_roundtrip [("a".toList, "1=2".toList), ("b".toList, "".toList)]
      (by decide) (by decide)⟩

theorem readKVStringsFiles_eq (c : Collaborators) (contents : GoString → List GoString)
    (files : List GoString) :
    ∀ acc, (∀ f ∈ files, c.ParseEnvFile f = .ok (contents f)) →
      readKVStringsFiles c files acc = .ok (acc ++ (files.map contents).flatten) := by
  induction files with
  | nil => intro acc _; simp [readKVStringsFiles]
  | cons f rest ih =>
    intro acc h
    simp only [readKVStringsFiles, h f (by simp)]
    rw [ih _ (fun g hg => h g (by simp [hg]))]
    simp

theorem readKVStringsFiles_ok (c : Collaborators) (files : List GoString) :
    ∀ acc l, readKVStringsFiles c files acc = .ok l → ∃ pre, l = acc ++ pre := by
  induction files with
  | nil =>
    intro acc l h
    simp only [readKVStringsFiles, Except.ok.injEq] at h
    exact ⟨[], by simp [h]⟩
  | cons f rest ih =>
    intro acc l h
    simp only [readKVStringsFiles] at h
    cases hf : c.ParseEnvFile f with
    | error e => simp [hf] at h
    | ok parsed =>
      simp only [hf] at h
      obtain ⟨pre, hpre⟩ := ih _ _ h
      exact ⟨parsed ++ pre, by simp [hpre]⟩

theorem readKVStrings_ok (c : Collaborators) (files override l : List GoString)
    (h : readKVStrings c files override = .ok l) : ∃ pre, l = pre ++ override := by
  unfold readKVStrings at h
  cases hf : readKVStringsFiles c files [] with
  | error e => simp [hf] at h
  | ok env =>
    simp only [hf, Except.ok.injEq] at h
    exact ⟨env, h.symm⟩

theorem kvLast_append (pre inline : List GoString) (k : GoString) :
    kvLast (pre ++ inline) k = (kvLast inline k).or (kvLast pre k) := by
  unfold kvLast
  rw [List.reverse_append, List.find?_append]
  cases List.find? (fun e => kvKey e == k) inline.reverse <;> simp

/-- C16: when every file is read successfully, readKVStrings returns the entries of the
files, in the order of the files, followed by the inline entries; ConvertKVStringsToMap maps
each key to the value of the last entry carrying it; hence in a successful Parse a label key
carried by an inline entry has the value of the last inline entry carrying it. -/
theorem readKVStrings_inline_override (c : Collaborators) :
    (∀ (files inline : List GoString) (contents : GoString → List GoString),
      (∀ f ∈ files, c.ParseEnvFile f = .ok (contents f)) →
      readKVStrings c files inline = .ok ((files.map contents).flatten ++ inline)) ∧
    (∀ (values : List GoString) (k : GoString),
      goMapGet (ConvertKVStringsToMap values) k = kvLast values k) ∧
    (∀ (flags : FlagSet) (copts : ContainerOptions) (r : ParseResult),
      Parse c flags copts = .ok r →
      ∀ k v, kvLast copts.flLabels.GetAll k = some v →
        goMapGet r.config.Labels k = some v) := by
  refine ⟨?_, goMapGet_convert, ?_⟩
  · intro files inline contents h
    unfold readKVStrings
    rw [readKVStringsFiles_eq c contents files [] h]
    simp
  · intro flags copts r hok k v hk
    obtain ⟨vals, hs, rfl⟩ := (Parse_ok_iff c flags copts r).mp hok
    obtain ⟨pre, hpre⟩ := readKVStrings_ok c _ _ _ hs.labels
    have hL : (parseAssemble c flags copts vals).config.Labels =
        ConvertKVStringsToMap vals.labels := rfl
    rw [hL, goMapGet_convert, hpre, kvLast_append, hk]
    rfl

theorem readKVStrings_inline_override_witness :
    Parse exampleFileCollaborators exampleFlags exampleLabelOptions =
      .ok (parseAssemble exampleFileCollaborators exampleFlags exampleLabelOptions
        (exampleValues
          ["a=0".toList, "c=3".toList, "a=1".toList, "b".toList, "a=2".toList] none)) ∧
    kvLast exampleLabelOptions.flLabels.GetAll "a".toList = some "2".toList ∧
    goMapGet (parseAssemble exampleFileCollaborators exampleFlags exampleLabelOptions
        (exampleValues
          ["a=0".toList, "c=3".toList, "a=1".toList, "b".toList, "a=2".toList] none)
      ).config.Labels "a".toList = some "2".toList :=
  ⟨by decide, by decide,
    (readKVStrings_inline_override exampleFileCollaborators).2.2 exampleFlags
      exampleLabelOptions
      (parseAssemble exampleFileCollaborators exampleFlags exampleLabelOptions
        (exampleValues
          ["a=0".toList, "c=3".toList, "a=1".toList, "b".toList, "a=2".toList] none))
      (by decide) "a".toList "2".toList (by decide)⟩

theorem parseStorageOptsLoop_step (option : GoString) (m : GoMap GoString) (h : '=' ∈ option) :
    goMapSet m ((stringsSplitN '=' 2 option).getD 0 []) ((stringsSplitN '=' 2 option).getD 1 []) =
      convertKVEntry m option := by
  rcases exists_first_sep '=' option with hn | ⟨a, b, rfl, ha⟩
  · exact absurd h hn
  · obtain ⟨h1, _, _⟩ := kv_of_append a b ha
    simp [convertKVEntry, h1]

theorem parseStorageOptsLoop_ok (opts : List GoString) :
    ∀ m : GoMap GoString, (∀ e ∈ opts, '=' ∈ e) →
      parseStorageOptsLoop opts m = .ok (opts.foldl convertKVEntry m) := by
  induction opts with
  | nil => intro m _; simp [parseStorageOptsLoop]
  | cons option rest ih =>
    intro m h
    have ho : '=' ∈ option := h option (by simp)
    simp only [parseStorageOptsLoop, stringsContains, ho, decide_True, if_true,
      parseStorageOptsLoop_step option m ho, List.foldl_cons]
    exact ih _ (fun e he => h e (by simp [he]))

theorem parseStorageOptsLoop_error (opts : List GoString) :
    ∀ m : GoMap GoString, (∃ e ∈ opts, '=' ∉ e) →
      parseStorageOptsLoop opts m = .error (.errorf "Invalid storage option." []) := by
  induction opts with
  | nil => intro m h; simp at h
  | cons option rest ih =>
    intro m h
    by_cases ho : '=' ∈ option
    · simp only [parseStorageOptsLoop, stringsContains, ho, decide_True, if_true]
      apply ih
      obtain ⟨e, he, hne⟩ := h
      rcases List.mem_cons.mp he with h1 | h1
      · subst h1; exact absurd ho hne
      · exact ⟨e, h1, hne⟩
    · simp [parseStorageOptsLoop, stringsContains, ho]

/-- C17: parseStorageOpts fails exactly when some entry contains no `=`; when it succeeds,
the map returned gives to each key (the text of an entry before its first `=`) the text
after the first `=` of the last entry carrying that key. -/
theorem parseStorageOpts_spec (storageOpts : List GoString) :
    ((parseStorageOpts storageOpts).isOk = false ↔ ∃ e ∈ storageOpts, '=' ∉ e) ∧
    (∀ m, parseStorageOpts storageOpts = .ok m →
      ∀ k, goMapGet m k = kvLast storageOpts k) := by
  unfold parseStorageOpts
  by_cases h : ∃ e ∈ storageOpts, '=' ∉ e
  · rw [parseStorageOptsLoop_error storageOpts [] h]
    simp only [Except.isOk, Except.toBool, true_iff]
    exact ⟨h, fun m hm => by simp at hm⟩
  · have hall : ∀ e ∈ storageOpts, '=' ∈ e := by
      intro e he
      by_contra hne
      exact h ⟨e, he, hne⟩
    rw [parseStorageOptsLoop_ok storageOpts [] hall]
    refine ⟨by simp [Except.isOk, Except.toBool, h], ?_⟩
    intro m hm k
    simp only [Except.ok.injEq] at hm
    rw [← hm]
    exact goMapGet_convert storageOpts k

theorem parseStorageOpts_spec_witness :
    parseStorageOpts ["size=1G".toList, "a=b=c".toList, "size=2G".toList] =
      .ok [("size".toList, "2G".toList), ("a".toList, "b=c".toList)] ∧
    (∀ k, goMapGet [("size".toList, "2G".toList), ("a".toList, "b=c".toList)] k =
      kvLast ["size=1G".toList, "a=b=c".toList, "size=2G".toList] k) :=
  ⟨by decide,
    (parseStorageOpts_spec ["size=1G".toList, "a=b=c".toList, "size=2G".toList]).2 _
      (by decide)⟩

/-- C18 (amended): when some logging option contains no `=`, parseLoggingOpts returns an
error exactly when the logging driver is `none`; with any other driver it succeeds and
returns ConvertKVStringsToMap of the options. -/
theorem parseLoggingOpts_no_separator (loggingDriver : GoString) (loggingOpts : List GoString)
    (h : ∃ e ∈ loggingOpts, '=' ∉ e) :
    ((parseLoggingOpts loggingDriver loggingOpts).isOk = false ↔
      loggingDriver = "none".toList) ∧
    (loggingDriver ≠ "none".toList →
      parseLoggingOpts loggingDriver loggingOpts = .ok (ConvertKVStringsToMap loggingOpts)) := by
  have hlen : loggingOpts.length > 0 := by
    obtain ⟨e, he, _⟩ := h
    exact List.length_pos_of_mem he
  have hok : loggingDriver ≠ "none".toList →
      parseLoggingOpts loggingDriver loggingOpts = .ok (ConvertKVStringsToMap loggingOpts) := by
    intro hd
    unfold parseLoggingOpts
    rw [if_neg (fun hc => hd hc.1)]
  refine ⟨?_, hok⟩
  by_cases hd : loggingDriver = "none".toList
  · unfold parseLoggingOpts
    rw [if_pos ⟨hd, hlen⟩]
    simp [hd, Except.isOk, Except.toBool]
  · rw [hok hd]
    simp only [Except.isOk, Except.toBool]
    exact ⟨fun hc => absurd hc (by simp), fun hc => absurd hc hd⟩

theorem parseLoggingOpts_no_separator_witness :
    (∃ e ∈ ["max-size".toList], '=' ∉ e) ∧
    parseLoggingOpts "json-file".toList ["max-size".toList] =
      .ok (ConvertKVStringsToMap ["max-size".toList]) :=
  ⟨⟨"max-size".toList, by decide, by decide⟩,
    (parseLoggingOpts_no_separator "json-file".toList ["max-size".toList]
      ⟨"max-size".toList, by decide, by decide⟩).2 (by decide)⟩

theorem parseLoggingOpts_no_separator_counterexample :
    (∃ e ∈ ["max-size".toList], '=' ∉ e) ∧
    parseLoggingOpts "json-file".toList ["max-size".toList] =
      .ok [("max-size".toList, [])] := by
  refine ⟨⟨"max-size".toList, by decide, by decide⟩, by decide⟩

theorem parseSecurityOpt_eq (c : Collaborators) (opt : GoString)
    (hno : ∀ kv, securityOptResolve opt = some kv →
      ¬ (kv.1 = "seccomp".toList ∧ kv.2 ≠ "unconfined".toList)) :
    parseSecurityOpt c opt =
      if '=' ∉ opt ∧ opt ≠ "no-new-privileges".toList ∧ ':' ∉ opt then
        .error (.errorf "Invalid --security-opt: %q" [opt])
      else .ok opt := by
  rcases exists_first_sep '=' opt with he | ⟨a, b, rfl, ha⟩
  · obtain ⟨h1, _, _⟩ := kv_of_not_mem opt he
    by_cases hn : opt = "no-new-privileges".toList
    · have hcond : ¬ ('=' ∉ opt ∧ opt ≠ "no-new-privileges".toList ∧ ':' ∉ opt) :=
        fun h => h.2.1 hn
      have hsec : ¬ ([opt].getD 0 [] = "seccomp".toList ∧
          [opt].getD 1 [] ≠ "unconfined".toList) := by
        rw [hn]
        decide
      have hlen : ¬ ([opt].length = 1 ∧ [opt].getD 0 [] ≠ "no-new-privileges".toList) :=
        fun h => h.2 hn
      simp only [parseSecurityOpt, h1]
      rw [if_neg hlen, if_neg hcond]
      simp only []
      rw [if_neg hsec]
    · have hlen : [opt].length = 1 ∧ [opt].getD 0 [] ≠ "no-new-privileges".toList :=
        ⟨rfl, hn⟩
      rcases exists_first_sep ':' opt with hc | ⟨a, b, rfl, ha⟩
      · have hcond : '=' ∉ opt ∧ opt ≠ "no-new-privileges".toList ∧ ':' ∉ opt := ⟨he, hn, hc⟩
        have hcont : ¬ stringsContains ':' opt = true := by simp [stringsContains, hc]
        simp only [parseSecurityOpt, h1]
        rw [if_pos hlen, if_neg hcont, if_pos hcond]
      · have hmem : ':' ∈ a ++ ':' :: b := by simp
        have hcond : ¬ ('=' ∉ a ++ ':' :: b ∧ a ++ ':' :: b ≠ "no-new-privileges".toList ∧
            ':' ∉ a ++ ':' :: b) := fun h => h.2.2 hmem
        have hcont : stringsContains ':' (a ++ ':' :: b) = true := by
          simp [stringsContains]
        have hsplit : stringsSplitN ':' 2 (a ++ ':' :: b) = [a, b] := by
          rw [stringsSplitN_append _ _ _ _ ha]
          simp [stringsSplitN]
        obtain ⟨ht, hd⟩ := takeWhile_ne_append ':' a b ha
        have hres : securityOptResolve (a ++ ':' :: b) = some (a, b) := by
          unfold securityOptResolve
          rw [if_neg he, if_neg hn, if_pos hmem, ht, hd]
          rfl
        have hsec : ¬ ([a, b].getD 0 [] = "seccomp".toList ∧
            [a, b].getD 1 [] ≠ "unconfined".toList) := hno (a, b) hres
        simp only [parseSecurityOpt, h1]
        rw [if_pos hlen, if_pos hcont, hsplit, if_neg hcond]
        simp only []
        rw [if_neg hsec]
  · have hmem : '=' ∈ a ++ '=' :: b := by simp
    obtain ⟨h1, h2, h3⟩ := kv_of_append a b ha
    have hres : securityOptResolve (a ++ '=' :: b) = some (a, b) := by
      unfold securityOptResolve
      rw [if_pos hmem, h2, h3]
    have hsec : ¬ ([a, b].getD 0 [] = "seccomp".toList ∧
        [a, b].getD 1 [] ≠ "unconfined".toList) := hno (a, b) hres
    have hlen : ¬ ([a, b].length = 1 ∧ [a, b].getD 0 [] ≠ "no-new-privileges".toList) :=
      fun h => absurd h.1 (by simp)
    have hcond : ¬ ('=' ∉ a ++ '=' :: b ∧ a ++ '=' :: b ≠ "no-new-privileges".toList ∧
        ':' ∉ a ++ '=' :: b) := fun h => h.1 hmem
    simp only [parseSecurityOpt, h1]
    rw [if_neg hlen, if_neg hcond]
    simp only []
    rw [if_neg hsec]

theorem parseSecurityOpts_eq (c : Collaborators) (opts : List GoString)
    (hno : ∀ opt ∈ opts, ∀ kv, securityOptResolve opt = some kv →
      ¬ (kv.1 = "seccomp".toList ∧ kv.2 ≠ "unconfined".toList)) :
    ((∃ opt ∈ opts, '=' ∉ opt ∧ opt ≠ "no-new-privileges".toList ∧ ':' ∉ opt) ∧
      ∃ err, parseSecurityOpts c opts = .error err) ∨
    ((¬ ∃ opt ∈ opts, '=' ∉ opt ∧ opt ≠ "no-new-privileges".toList ∧ ':' ∉ opt) ∧
      parseSecurityOpts c opts = .ok opts) := by
  induction opts with
  | nil => right; simp [parseSecurityOpts]
  | cons opt rest ih =>
    have h1 := parseSecurityOpt_eq c opt (hno opt (by simp))
    by_cases hbad : '=' ∉ opt ∧ opt ≠ "no-new-privileges".toList ∧ ':' ∉ opt
    · left
      rw [if_pos hbad] at h1
      refine ⟨⟨opt, by simp, hbad⟩, .errorf "Invalid --security-opt: %q" [opt], ?_⟩
      simp only [parseSecurityOpts, h1]
    · rw [if_neg hbad] at h1
      rcases ih (fun o ho => hno o (by simp [ho])) with ⟨⟨o, ho, hob⟩, err, herr⟩ | ⟨hnone, hok⟩
      · left
        refine ⟨⟨o, by simp [ho], hob⟩, err, ?_⟩
        simp only [parseSecurityOpts, h1, herr]
      · right
        refine ⟨?_, by simp only [parseSecurityOpts, h1, hok]⟩
        rintro ⟨o, ho, hob⟩
        rcases List.mem_cons.mp ho with h | h
        · subst h; exact hbad hob
        · exact hnone ⟨o, h, hob⟩

/-- C19: for a list of security options none of which resolves to the key `seccomp` with a
value other than `unconfined`, parseSecurityOpts fails exactly when some entry contains no
`=`, is not the literal `no-new-privileges` and contains no `:`; when it succeeds it returns
the list unchanged. -/
theorem parseSecurityOpts_spec (c : Collaborators) (securityOpts : List GoString)
    (hno : ∀ opt ∈ securityOpts, ∀ kv, securityOptResolve opt = some kv →
      ¬ (kv.1 = "seccomp".toList ∧ kv.2 ≠ "unconfined".toList)) :
    ((parseSecurityOpts c securityOpts).isOk = false ↔
      ∃ opt ∈ securityOpts, '=' ∉ opt ∧ opt ≠ "no-new-privileges".toList ∧ ':' ∉ opt) ∧
    (∀ r, parseSecurityOpts c securityOpts = .ok r → r = securityOpts) := by
  rcases parseSecurityOpts_eq c securityOpts hno with ⟨hbad, err, herr⟩ | ⟨hnone, hok⟩
  · rw [herr]
    exact ⟨⟨fun _ => hbad, fun _ => rfl⟩, fun r hr => by simp at hr⟩
  · rw [hok]
    refine ⟨by simp only [Except.isOk, Except.toBool]; exact ⟨fun h => absurd h (by simp),
      fun h => absurd h hnone⟩, fun r hr => ?_⟩
    simp only [Except.ok.injEq] at hr
    exact hr.symm

theorem parseSecurityOpts_spec_witness :
    (∀ opt ∈ ["label=type:svirt".toList, "no-new-privileges".toList,
        "seccomp:unconfined".toList],
      ∀ kv, securityOptResolve opt = some kv →
        ¬ (kv.1 = "seccomp".toList ∧ kv.2 ≠ "unconfined".toList)) ∧
    ((parseSecurityOpts exampleCollaborators ["label=type:svirt".toList,
        "no-new-privileges".toList, "seccomp:unconfined".toList]).isOk = false ↔
      ∃ opt ∈ ["label=type:svirt".toList, "no-new-privileges".toList,
          "seccomp:unconfined".toList],
        '=' ∉ opt ∧ opt ≠ "no-new-privileges".toList ∧ ':' ∉ opt) :=
  ⟨by decide,
    (parseSecurityOpts_spec exampleCollaborators ["label=type:svirt".toList,
      "no-new-privileges".toList, "seccomp:unconfined".toList] (by decide)).1⟩

theorem Parse_error_or_ok (c : Collaborators) (flags : FlagSet) (copts : ContainerOptions) :
    (∃ err, Parse c flags copts = .error err) ∨ ∃ r, Parse c flags copts = .ok r := by
  cases h : Parse c flags copts with
  | error e => exact Or.inl ⟨e, rfl⟩
  | ok r => exact Or.inr ⟨r, rfl⟩

/-- C20: when no-healthcheck is set together with a non-empty health-cmd, a non-zero
health-interval, a non-zero health-timeout or a non-zero health-retries, Parse returns an
error. -/
theorem Parse_healthcheck_conflict (c : Collaborators) (flags : FlagSet)
    (copts : ContainerOptions) (hno : copts.flNoHealthcheck = true)
    (hset : copts.flHealthCmd ≠ [] ∨ copts.flHealthInterval ≠ 0 ∨
      copts.flHealthTimeout ≠ 0 ∨ copts.flHealthRetries ≠ 0) :
    ∃ err, Parse c flags copts = .error err := by
  rcases Parse_error_or_ok c flags copts with h | ⟨r, hr⟩
  · exact h
  · exfalso
    obtain ⟨v, hs, _⟩ := (Parse_ok_iff c flags copts r).mp hr
    have hh := hs.healthcheck
    have hhave : (decide (copts.flHealthCmd ≠ []) || decide (copts.flHealthInterval ≠ 0) ||
        decide (copts.flHealthTimeout ≠ 0) || decide (copts.flHealthRetries ≠ 0)) = true := by
      rcases hset with h | h | h | h <;> simp [h]
    unfold parseHealthcheck at hh
    simp only [hno, if_true, hhave] at hh
    exact absurd hh (by simp)

theorem Parse_healthcheck_conflict_witness :
    (exampleHealthConflictOptions.flNoHealthcheck = true ∧
      exampleHealthConflictOptions.flHealthCmd ≠ []) ∧
    ∃ err, Parse exampleCollaborators exampleFlags exampleHealthConflictOptions = .error err :=
  ⟨by decide,
    Parse_healthcheck_conflict exampleCollaborators exampleFlags exampleHealthConflictOptions
      (by decide) (Or.inl (by decide))⟩

/-- C21: in every successful Parse, Config.Healthcheck is the disabling probe (Test
`["NONE"]`, zero interval, timeout and retries) when no-healthcheck is set; it is absent
when no-healthcheck is unset and none of health-cmd, health-interval, health-timeout and
health-retries is set; otherwise it is a probe with the given interval, timeout and
retries, whose Test is `["CMD-SHELL", health-cmd]` for a non-empty health-cmd and empty
otherwise, and whose interval and timeout are not negative. -/
theorem Parse_healthcheck_result (c : Collaborators) (flags : FlagSet)
    (copts : ContainerOptions) (r : ParseResult) (hok : Parse c flags copts = .ok r) :
    (copts.flNoHealthcheck = true →
      r.config.Healthcheck =
        some { Test := ["NONE".toList], Interval := 0, Timeout := 0, Retries := 0 }) ∧
    (copts.flNoHealthcheck = false → copts.flHealthCmd = [] → copts.flHealthInterval = 0 →
      copts.flHealthTimeout = 0 → copts.flHealthRetries = 0 →
      r.config.Healthcheck = none) ∧
    (copts.flNoHealthcheck = false →
      (copts.flHealthCmd ≠ [] ∨ copts.flHealthInterval ≠ 0 ∨ copts.flHealthTimeout ≠ 0 ∨
        copts.flHealthRetries ≠ 0) →
      r.config.Healthcheck =
        some { Test := if copts.flHealthCmd ≠ [] then ["CMD-SHELL".toList, copts.flHealthCmd]
                       else [],
               Interval := copts.flHealthInterval,
               Timeout := copts.flHealthTimeout,
               Retries := copts.flHealthRetries } ∧
      0 ≤ copts.flHealthInterval ∧ 0 ≤ copts.flHealthTimeout) := by
  obtain ⟨v, hs, rfl⟩ := (Parse_ok_iff c flags copts r).mp hok
  have hH : (parseAssemble c flags copts v).config.Healthcheck = v.healthConfig := rfl
  have hh := hs.healthcheck
  rw [hH]
  unfold parseHealthcheck at hh
  refine ⟨?_, ?_, ?_⟩
  · intro hno
    simp only [hno, if_true] at hh
    split at hh
    · exact absurd hh (by simp)
    · simp only [Except.ok.injEq] at hh
      exact hh.symm
  · intro hno h1 h2 h3 h4
    simp [hno, h1, h2, h3, h4] at hh
    exact hh.symm
  · intro hno hset
    have hhave : (decide (copts.flHealthCmd ≠ []) || decide (copts.flHealthInterval ≠ 0) ||
        decide (copts.flHealthTimeout ≠ 0) || decide (copts.flHealthRetries ≠ 0)) = true := by
      rcases hset with h | h | h | h <;> simp [h]
    simp only [hno, Bool.false_eq_true, if_false, hhave, if_true] at hh
    split at hh
    · exact absurd hh (by simp)
    · split at hh
      · exact absurd hh (by simp)
      · simp only [Except.ok.injEq] at hh
        refine ⟨hh.symm, by omega, by omega⟩

theorem Parse_healthcheck_result_witness :
    Parse exampleCollaborators exampleFlags
        { exampleOptions [] with flHealthCmd := "true".toList, flHealthInterval := 5 } =
      .ok (parseAssemble exampleCollaborators exampleFlags
        { exampleOptions [] with flHealthCmd := "true".toList, flHealthInterval := 5 }
        (exampleValues []
          (some { Test := ["CMD-SHELL".toList, "true".toList], Interval := 5, Timeout := 0,
                  Retries := 0 }))) ∧
    (parseAssemble exampleCollaborators exampleFlags
        { exampleOptions [] with flHealthCmd := "true".toList, flHealthInterval := 5 }
        (exampleValues []
          (some { Test := ["CMD-SHELL".toList, "true".toList], Interval := 5, Timeout := 0,
                  Retries := 0 }))).config.Healthcheck =
      some { Test := ["CMD-SHELL".toList, "true".toList], Interval := 5, Timeout := 0,
             Retries := 0 } :=
  ⟨by decide,
    ((Parse_healthcheck_result exampleCollaborators exampleFlags
      { exampleOptions [] with flHealthCmd := "true".toList, flHealthInterval := 5 }
      _ (by decide)).2.2 (by decide) (Or.inl (by decide))).1⟩

/-- C25: in every successful Parse, with an empty attach list AttachStdout and AttachStderr
are true and AttachStdin is the interactive flag; with a non-empty attach list AttachStdout
and AttachStderr are true exactly when `stdout`, respectively `stderr`, is in the list; and
AttachStdin is true whenever the interactive flag is set. -/
theorem Parse_attach (c : Collaborators) (flags : FlagSet)
    (copts : ContainerOptions) (r : ParseResult) (hok : Parse c flags copts = .ok r) :
    (copts.flAttach.values = [] →
      r.config.AttachStdout = true ∧ r.config.AttachStderr = true ∧
        r.config.AttachStdin = copts.flStdin) ∧
    (copts.flAttach.values ≠ [] →
      (r.config.AttachStdout = true ↔ "stdout".toList ∈ copts.flAttach.values) ∧
      (r.config.AttachStderr = true ↔ "stderr".toList ∈ copts.flAttach.values)) ∧
    (copts.flStdin = true → r.config.AttachStdin = true) := by
  obtain ⟨v, _, rfl⟩ := (Parse_ok_iff c flags copts r).mp hok
  have hin : (parseAssemble c flags copts v).config.AttachStdin =
      if copts.flStdin then true else copts.flAttach.Get "stdin".toList := rfl
  have hout : (parseAssemble c flags copts v).config.AttachStdout =
      if copts.flAttach.Len = 0 then true else copts.flAttach.Get "stdout".toList := rfl
  have herr : (parseAssemble c flags copts v).config.AttachStderr =
      if copts.flAttach.Len = 0 then true else copts.flAttach.Get "stderr".toList := rfl
  rw [hin, hout, herr]
  refine ⟨?_, ?_, ?_⟩
  · intro h
    have hlen : copts.flAttach.Len = 0 := by simp [ListOpts.Len, h]
    have hget : copts.flAttach.Get "stdin".toList = false := by
      unfold ListOpts.Get
      rw [h]
      rfl
    rw [if_pos hlen, if_pos hlen, hget]
    refine ⟨rfl, rfl, ?_⟩
    cases copts.flStdin <;> rfl
  · intro h
    have hlen : ¬ copts.flAttach.Len = 0 := by
      simp only [ListOpts.Len]
      intro h0
      exact h (List.length_eq_zero.mp h0)
    rw [if_neg hlen, if_neg hlen]
    unfold ListOpts.Get
    exact ⟨decide_eq_true_iff, decide_eq_true_iff⟩
  · intro h
    rw [h]
    rfl

theorem Parse_attach_witness :
    Parse exampleCollaborators exampleFlags
        { exampleOptions [] with flAttach := ⟨["stdout".toList]⟩, flStdin := true } =
      .ok (parseAssemble exampleCollaborators exampleFlags
        { exampleOptions [] with flAttach := ⟨["stdout".toList]⟩, flStdin := true }
        (exampleValues [] none)) ∧
    (parseAssemble exampleCollaborators exampleFlags
        { exampleOptions [] with flAttach := ⟨["stdout".toList]⟩, flStdin := true }
        (exampleValues [] none)).config.AttachStdin = true :=
  ⟨by decide,
    (Parse_attach exampleCollaborators exampleFlags
      { exampleOptions [] with flAttach := ⟨["stdout".toList]⟩, flStdin := true }
      _ (by decide)).2.2 (by decide)⟩

/-- C26: Parse returns an error whenever the memory-swappiness value is neither -1 nor in
the range 0..100, and in every successful Parse Resources.MemorySwappiness is -1 or lies in
the range 0..100. -/
theorem Parse_swappiness (c : Collaborators) (flags : FlagSet) (copts : ContainerOptions) :
    ((copts.flSwappiness < -1 ∨ copts.flSwappiness > 100) →
      ∃ err, Parse c flags copts = .error err) ∧
    (∀ r, Parse c flags copts = .ok r →
      r.hostConfig.Resources.MemorySwappiness = -1 ∨
        (0 ≤ r.hostConfig.Resources.MemorySwappiness ∧
          r.hostConfig.Resources.MemorySwappiness ≤ 100)) := by
  have key : ∀ r, Parse c flags copts = .ok r →
      r.hostConfig.Resources.MemorySwappiness = copts.flSwappiness ∧
      (copts.flSwappiness = -1 ∨ (0 ≤ copts.flSwappiness ∧ copts.flSwappiness ≤ 100)) := by
    intro r hok
    obtain ⟨v, hs, rfl⟩ := (Parse_ok_iff c flags copts r).mp hok
    refine ⟨rfl, ?_⟩
    have h := hs.swappiness
    unfold parseSwappiness at h
    split at h
    · exact absurd h (by simp)
    · rename_i hcond
      omega
  constructor
  · intro hbad
    rcases Parse_error_or_ok c flags copts with h | ⟨r, hr⟩
    · exact h
    · exfalso
      have := (key r hr).2
      omega
  · intro r hok
    obtain ⟨h1, h2⟩ := key r hok
    rw [h1]
    exact h2

theorem Parse_swappiness_witness :
    (((101 : Int) < -1 ∨ (101 : Int) > 100) ∧
      ∃ err, Parse exampleCollaborators exampleFlags
        { exampleOptions [] with flSwappiness := 101 } = .error err) :=
  ⟨by decide,
    (Parse_swappiness exampleCollaborators exampleFlags
      { exampleOptions [] with flSwappiness := 101 }).1 (by decide)⟩

theorem parseEndpoints_eq (c : Collaborators) (copts : ContainerOptions)
    (hostConfig : HostConfig) :
    parseEndpoints c copts hostConfig =
      if (copts.flIPv4Address ≠ [] ∨ copts.flIPv6Address ≠ [] ∨ copts.flLinkLocalIPs.Len > 0) ∨
          (c.IsUserDefined hostConfig.NetworkMode = true ∧ hostConfig.Links.length > 0) ∨
          copts.flAliases.Len > 0 then
        [(hostConfig.NetworkMode,
          { IPAMConfig :=
              if copts.flIPv4Address ≠ [] ∨ copts.flIPv6Address ≠ [] ∨
                  copts.flLinkLocalIPs.Len > 0 then
                some { IPv4Address := copts.flIPv4Address,
                       IPv6Address := copts.flIPv6Address,
                       LinkLocalIPs :=
                         if copts.flLinkLocalIPs.Len > 0 then copts.flLinkLocalIPs.GetAll
                         else [] }
              else none,
            Links :=
              if c.IsUserDefined hostConfig.NetworkMode = true ∧ hostConfig.Links.length > 0
              then hostConfig.Links else [],
            Aliases := if copts.flAliases.Len > 0 then copts.flAliases.GetAll else [] })]
      else [] := by
  unfold parseEndpoints
  by_cases h1 : copts.flIPv4Address ≠ [] ∨ copts.flIPv6Address ≠ [] ∨
      copts.flLinkLocalIPs.Len > 0 <;>
  by_cases h2 : c.IsUserDefined hostConfig.NetworkMode = true ∧ hostConfig.Links.length > 0 <;>
  by_cases h3 : copts.flAliases.Len > 0 <;>
  simp only [h1, h2, h3, if_true, if_false, true_or, or_true, or_self] <;>
  simp [goMapSet, goMapGet]

/-- C23: in every successful Parse, NetworkingConfig.EndpointsConfig has at most one entry
and the key of an entry is the network-mode string; it has no entry when no IPv4 address,
IPv6 address, link-local address, network alias or link was supplied. -/
theorem Parse_endpoints_entry (c : Collaborators) (flags : FlagSet)
    (copts : ContainerOptions) (r : ParseResult) (hok : Parse c flags copts = .ok r) :
    r.networkingConfig.EndpointsConfig.length ≤ 1 ∧
    (∀ e ∈ r.networkingConfig.EndpointsConfig, e.1 = copts.flNetMode) ∧
    (copts.flIPv4Address = [] → copts.flIPv6Address = [] →
      copts.flLinkLocalIPs.values = [] → copts.flAliases.values = [] →
      copts.flLinks.values = [] → r.networkingConfig.EndpointsConfig = []) := by
  obtain ⟨v, _, rfl⟩ := (Parse_ok_iff c flags copts r).mp hok
  have hE : (parseAssemble c flags copts v).networkingConfig.EndpointsConfig =
      parseEndpoints c copts (parseAssemble c flags copts v).hostConfig := rfl
  have hN : (parseAssemble c flags copts v).hostConfig.NetworkMode = copts.flNetMode := rfl
  have hL : (parseAssemble c flags copts v).hostConfig.Links = copts.flLinks.values := rfl
  rw [hE, parseEndpoints_eq, hN, hL]
  refine ⟨?_, ?_, ?_⟩
  · split <;> simp
  · intro e he
    split at he
    · simp only [List.mem_singleton] at he
      rw [he]
    · simp at he
  · intro h4 h6 hll ha hl
    simp [h4, h6, hll, ha, hl, ListOpts.Len]

theorem Parse_endpoints_entry_witness :
    Parse exampleCollaborators exampleFlags
        { exampleOptions [] with flIPv4Address := "10.0.0.2".toList } =
      .ok (parseAssemble exampleCollaborators exampleFlags
        { exampleOptions [] with flIPv4Address := "10.0.0.2".toList }
        (exampleValues [] none)) ∧
    (parseAssemble exampleCollaborators exampleFlags
        { exampleOptions [] with flIPv4Address := "10.0.0.2".toList }
        (exampleValues [] none)).networkingConfig.EndpointsConfig.length ≤ 1 :=
  ⟨by decide,
    (Parse_endpoints_entry exampleCollaborators exampleFlags
      { exampleOptions [] with flIPv4Address := "10.0.0.2".toList } _ (by decide)).1⟩

/-- C22 (amended): in every successful Parse whose network mode is not user-defined, no
entry of NetworkingConfig.EndpointsConfig carries a non-empty Links list, and every entry
carries as Aliases the network aliases supplied; an entry with a non-empty Aliases list
exists exactly when a network alias was supplied. -/
theorem Parse_endpoints_not_user_defined (c : Collaborators) (flags : FlagSet)
    (copts : ContainerOptions) (r : ParseResult) (hok : Parse c flags copts = .ok r)
    (hmode : c.IsUserDefined copts.flNetMode = false) :
    (∀ e ∈ r.networkingConfig.EndpointsConfig,
      e.2.Links = [] ∧ e.2.Aliases = copts.flAliases.values) ∧
    ((∃ e ∈ r.networkingConfig.EndpointsConfig, e.2.Aliases ≠ []) ↔
      copts.flAliases.values ≠ []) := by
  obtain ⟨v, _, rfl⟩ := (Parse_ok_iff c flags copts r).mp hok
  have hE : (parseAssemble c flags copts v).networkingConfig.EndpointsConfig =
      parseEndpoints c copts (parseAssemble c flags copts v).hostConfig := rfl
  have hN : (parseAssemble c flags copts v).hostConfig.NetworkMode = copts.flNetMode := rfl
  have hL : (parseAssemble c flags copts v).hostConfig.Links = copts.flLinks.values := rfl
  rw [hE, parseEndpoints_eq, hN, hL]
  have hnl : ¬ (c.IsUserDefined copts.flNetMode = true ∧ copts.flLinks.values.length > 0) := by
    simp [hmode]
  have hal : (if copts.flAliases.Len > 0 then copts.flAliases.GetAll else []) =
      copts.flAliases.values := by
    unfold ListOpts.Len ListOpts.GetAll
    split
    · rfl
    · rename_i h
      have : copts.flAliases.values.length = 0 := by omega
      exact (List.length_eq_zero.mp this).symm
  simp only [hnl, if_false, hal, false_or]
  constructor
  · intro e he
    split at he
    · simp only [List.mem_singleton] at he
      rw [he]
      exact ⟨rfl, rfl⟩
    · simp at he
  · constructor
    · rintro ⟨e, he, hne⟩
      split at he
      · simp only [List.mem_singleton] at he
        rw [he] at hne
        exact hne
      · simp at he
    · intro hne
      have hlen : copts.flAliases.Len > 0 := by
        unfold ListOpts.Len
        exact List.length_pos.mpr hne
      rw [if_pos (Or.inr hlen)]
      exact ⟨_, List.mem_singleton_self _, hne⟩

theorem Parse_endpoints_not_user_defined_witness :
    Parse exampleCollaborators exampleFlags
        { exampleOptions [] with flAliases := ⟨["web".toList]⟩, flLinks := ⟨["db".toList]⟩ } =
      .ok (parseAssemble exampleCollaborators exampleFlags
        { exampleOptions [] with flAliases := ⟨["web".toList]⟩, flLinks := ⟨["db".toList]⟩ }
        (exampleValues [] none)) ∧
    exampleCollaborators.IsUserDefined "default".toList = false ∧
    ∀ e ∈ (parseAssemble exampleCollaborators exampleFlags
        { exampleOptions [] with flAliases := ⟨["web".toList]⟩, flLinks := ⟨["db".toList]⟩ }
        (exampleValues [] none)).networkingConfig.EndpointsConfig,
      e.2.Links = [] ∧ e.2.Aliases = ["web".toList] :=
  ⟨by decide, by decide,
    (Parse_endpoints_not_user_defined exampleCollaborators exampleFlags
      { exampleOptions [] with flAliases := ⟨["web".toList]⟩, flLinks := ⟨["db".toList]⟩ }
      _ (by decide) (by decide)).1⟩

theorem Parse_endpoints_not_user_defined_counterexample :
    exampleCollaborators.IsUserDefined
      ({ exampleOptions [] with flAliases := ⟨["web".toList]⟩ } : ContainerOptions).flNetMode =
        false ∧
    (Parse exampleCollaborators exampleFlags
        { exampleOptions [] with flAliases := ⟨["web".toList]⟩ }).map
      (fun r => r.networkingConfig.EndpointsConfig) =
      .ok [("default".toList,
        { IPAMConfig := none, Links := [], Aliases := ["web".toList] })] := by
  decide

/-- C27: for every string and every limit `n ≥ 1` or `n < 0`, volumeSplitN returns without
an index out of range; and when the loop ends with `left < len(raw)` and the limit reached,
which is when `array[n-1] += raw[left-1:]` is executed, `array` has exactly `n` elements and
`left ≥ 1`. -/
theorem volumeSplitN_index_safe (raw : GoString) (n : Int) (hn : 1 ≤ n ∨ n < 0) :
    (∃ fields, volumeSplitN raw n = some fields) ∧
    (raw ≠ [] →
      ∃ st, volumeSplitLoop raw n raw.length 1 ⟨[], 0, 0⟩ = some st ∧
        (st.left < raw.length → n ≥ 0 ∧ (st.numberOfParts : Int) ≥ n →
          (st.array.length : Int) = n ∧ 1 ≤ st.left)) := by
  constructor
  · by_cases hne : raw = []
    · exact ⟨[], by simp [volumeSplitN, hne]⟩
    by_cases hc : raw.head? = some ':'
    · have hlen0 : ¬ raw.length = 0 := fun h => hne (List.length_eq_zero.mp h)
      exact ⟨[], by simp [volumeSplitN, goIndex_zero_head, hc, hlen0]⟩
    obtain ⟨_, fields, _, hres, _⟩ := volumeSplitN_final raw n hne hc (by omega)
    exact ⟨fields, hres⟩
  · intro hne
    have hpos : 0 < raw.length := List.length_pos.mpr hne
    obtain ⟨st, hloop, hinv⟩ := volumeSplitLoop_inv raw n raw.length 1 ⟨[], 0, 0⟩
      (le_refl 1) (by simp) (by omega) (by omega) (splitInv_init raw n)
    refine ⟨st, hloop, fun _ hlim => ?_⟩
    have hbd := hinv.bound hlim.1
    have hpe := hinv.parts_eq
    have hlen : (st.array.length : Int) = n := by omega
    refine ⟨hlen, ?_⟩
    rcases Nat.eq_zero_or_pos st.left with h0 | h0
    · have hnil := hinv.nonempty.mpr h0
      rw [hnil] at hlen
      simp at hlen
      omega
    · exact h0

theorem volumeSplitN_index_safe_witness :
    ((1 : Int) ≤ 1 ∨ (1 : Int) < 0) ∧
    (∃ fields, volumeSplitN "/a:/b:/c".toList 1 = some fields) ∧
    ("/a:/b:/c".toList ≠ [] →
      ∃ st, volumeSplitLoop "/a:/b:/c".toList 1 "/a:/b:/c".toList.length 1 ⟨[], 0, 0⟩ =
          some st ∧
        (st.left < "/a:/b:/c".toList.length → (1 : Int) ≥ 0 ∧ (st.numberOfParts : Int) ≥ 1 →
          (st.array.length : Int) = 1 ∧ 1 ≤ st.left)) :=
  ⟨by decide, volumeSplitN_index_safe "/a:/b:/c".toList 1 (by decide)⟩

theorem isBindEntry_iff (e : GoString) :
    isBindEntry e = true ↔ ∃ arr, volumeSplitN e 2 = some arr ∧ arr.length > 1 := by
  obtain ⟨arr, harr, _⟩ := volumeSplitN_some_le e 2 (by decide)
  rw [isBindEntry_of_some e arr harr, harr]
  simp

/-- C28: in every successful Parse on a volume list without duplicate entries, each entry
is in exactly one of HostConfig.Binds and the keys of Config.Volumes, in Binds exactly when
volumeSplitN with limit 2 returns more than one field for it; Binds and Config.Volumes hold
nothing else, and together they are a rearrangement of the volume list. -/
theorem Parse_binds_volumes_partition (c : Collaborators) (flags : FlagSet)
    (copts : ContainerOptions) (r : ParseResult) (hok : Parse c flags copts = .ok r)
    (hnd : copts.flVolumes.values.Nodup) :
    (∀ e ∈ copts.flVolumes.values,
      (e ∈ r.hostConfig.Binds ↔ ∃ arr, volumeSplitN e 2 = some arr ∧ arr.length > 1) ∧
      (e ∈ r.hostConfig.Binds ↔ e ∉ r.config.Volumes)) ∧
    (∀ e, e ∈ r.hostConfig.Binds ∨ e ∈ r.config.Volumes → e ∈ copts.flVolumes.values) ∧
    (r.hostConfig.Binds ++ r.config.Volumes).Perm copts.flVolumes.values := by
  have hmem := Parse_binds_volumes c flags copts r hok
  refine ⟨?_, ?_, ?_⟩
  · intro e he
    obtain ⟨hB, hV⟩ := hmem e
    constructor
    · rw [hB, ← isBindEntry_iff]
      exact ⟨fun h => h.2, fun h => ⟨he, h⟩⟩
    · rw [hB, hV]
      have hc1 : copts.flVolumes.values.count e ≤ 1 := by
        rw [count_goString]
        exact List.nodup_iff_count_le_one.mp hnd e
      constructor
      · rintro ⟨_, h1⟩ ⟨_, h2 | h2⟩
        · rw [h1] at h2
          exact absurd h2 (by decide)
        · omega
      · intro h
        refine ⟨he, ?_⟩
        cases hb : isBindEntry e with
        | true => rfl
        | false => exact absurd ⟨he, Or.inl hb⟩ h
  · rintro e (h | h)
    · exact ((hmem e).1.mp h).1
    · exact ((hmem e).2.mp h).1
  · obtain ⟨v, hs, rfl⟩ := (Parse_ok_iff c flags copts r).mp hok
    have hb := hs.binds
    rw [parseBindsLoop_eq] at hb
    simp only [Except.ok.injEq, Prod.mk.injEq, List.nil_append] at hb
    obtain ⟨hb1, hb2⟩ := hb
    have hB : (parseAssemble c flags copts v).hostConfig.Binds = v.binds := rfl
    have hV : (parseAssemble c flags copts v).config.Volumes = v.flVolumes.GetMap := rfl
    have hvol : v.flVolumes.GetMap = copts.flVolumes.values.diff
        ((c.mapRange copts.flVolumes.GetMap).val.filter isBindEntry) := by
      rw [← hb2]
      unfold ListOpts.GetMap
      exact List.Nodup.dedup (hnd.sublist (List.diff_sublist _ _))
    rw [hB, hV, ← hb1, hvol, List.perm_iff_count]
    intro x
    rw [← count_goString, ← count_goString, List.count_append, count_diff_list]
    have h3 : ((c.mapRange copts.flVolumes.GetMap).val.filter isBindEntry).count x ≤
        copts.flVolumes.values.count x := by
      rw [count_bind_keys c copts.flVolumes x]
      split
      · rename_i hx
        have := List.count_pos_iff.mpr hx.1
        omega
      · omega
    omega

theorem Parse_binds_volumes_partition_witness :
    Parse exampleCollaborators exampleFlags
        (exampleOptions ["/tmp/q:/foo".toList, "/foo".toList]) =
      .ok (parseAssemble exampleCollaborators exampleFlags
        (exampleOptions ["/tmp/q:/foo".toList, "/foo".toList])
        { exampleValues [] none with
          binds := ["/tmp/q:/foo".toList], flVolumes := ⟨["/foo".toList]⟩ }) ∧
    ["/tmp/q:/foo".toList, "/foo".toList].Nodup ∧
    ((parseAssemble exampleCollaborators exampleFlags
        (exampleOptions ["/tmp/q:/foo".toList, "/foo".toList])
        { exampleValues [] none with
          binds := ["/tmp/q:/foo".toList], flVolumes := ⟨["/foo".toList]⟩ }).hostConfig.Binds ++
      (parseAssemble exampleCollaborators exampleFlags
        (exampleOptions ["/tmp/q:/foo".toList, "/foo".toList])
        { exampleValues [] none with
          binds := ["/tmp/q:/foo".toList], flVolumes := ⟨["/foo".toList]⟩ }).config.Volumes).Perm
      (exampleOptions ["/tmp/q:/foo".toList, "/foo".toList]).flVolumes.values :=
  ⟨by decide, by decide,
    (Parse_binds_volumes_partition exampleCollaborators exampleFlags
      (exampleOptions ["/tmp/q:/foo".toList, "/foo".toList]) _ (by decide) (by decide)).2.2⟩

theorem parseBindsLoop_rest (c : Collaborators) (copts : ContainerOptions)
    (binds : List GoString) (flVolumes : ListOpts)
    (hone : ∀ e ∈ copts.flVolumes.values, isBindEntry e = true →
      copts.flVolumes.values.count e = 1)
    (h : parseBindsLoop (c.mapRange copts.flVolumes.GetMap).val ([], copts.flVolumes) =
      .ok (binds, flVolumes)) :
    parseBindsLoop (c.mapRange flVolumes.GetMap).val ([], flVolumes) = .ok ([], flVolumes) := by
  rw [parseBindsLoop_eq] at h
  simp only [Except.ok.injEq, Prod.mk.injEq, List.nil_append] at h
  obtain ⟨_, h2⟩ := h
  have hnb : ∀ x ∈ flVolumes.values, isBindEntry x = false := by
    intro x hx
    rw [← h2] at hx
    obtain ⟨hxv, hxp⟩ := (mem_remaining_volumes c copts.flVolumes x).mp hx
    rcases hxp with hxp | hxp
    · exact hxp
    · cases hb : isBindEntry x with
      | false => rfl
      | true =>
        have := hone x hxv hb
        omega
  rw [parseBindsLoop_eq]
  have hk : ((c.mapRange flVolumes.GetMap).val).filter isBindEntry = [] := by
    rw [List.filter_eq_nil_iff]
    intro x hx
    have hxv : x ∈ flVolumes.values := by
      have := (c.mapRange flVolumes.GetMap).property.mem_iff.mp hx
      unfold ListOpts.GetMap at this
      exact List.mem_dedup.mp this
    simp [hnb x hxv]
  rw [hk]
  rfl

/-- C24 (amended): for every ContainerOptions value on which Parse succeeds, none of whose
security options resolves to the key `seccomp` with a value other than `unconfined` and whose
volume list holds no bind entry (an entry for which volumeSplitN with limit 2 returns more than
one field) more than once, running Parse a second time on the same ContainerOptions, as left
by the first run, succeeds and yields a Config and a NetworkingConfig equal to those of the
first run, and a HostConfig equal to that of the first run except that its Binds list is
empty; the HostConfig is equal too exactly when the first run produced no binds. -/
theorem Parse_second_run (c : Collaborators) (flags : FlagSet) (copts : ContainerOptions)
    (r : ParseResult) (hok : Parse c flags copts = .ok r)
    (hno : ∀ opt ∈ copts.flSecurityOpt.GetAll, ∀ kv, securityOptResolve opt = some kv →
      ¬ (kv.1 = "seccomp".toList ∧ kv.2 ≠ "unconfined".toList))
    (hone : ∀ e ∈ copts.flVolumes.values,
      (∃ arr, volumeSplitN e 2 = some arr ∧ arr.length > 1) →
        copts.flVolumes.values.count e = 1) :
    ∃ r2, Parse c flags r.copts = .ok r2 ∧ r2.config = r.config ∧
      r2.networkingConfig = r.networkingConfig ∧
      r2.hostConfig = { r.hostConfig with Binds := [] } ∧
      (r2.hostConfig = r.hostConfig ↔ r.hostConfig.Binds = []) := by
  obtain ⟨v, hs, rfl⟩ := (Parse_ok_iff c flags copts r).mp hok
  have hsec : parseSecurityOpts c v.securityOpts = .ok v.securityOpts := by
    have h1 := hs.securityOpts
    rcases parseSecurityOpts_eq c copts.flSecurityOpt.GetAll hno with ⟨_, err, herr⟩ | ⟨_, h2⟩
    · rw [herr] at h1
      exact absurd h1 (by simp)
    · rw [h2] at h1
      simp only [Except.ok.injEq] at h1
      rw [← h1]
      exact h2
  have hs2 : ParseSteps c (parseAssemble c flags copts v).copts { v with binds := [] } :=
    { macAddress := hs.macAddress
      memory := hs.memory
      memoryReservation := hs.memoryReservation
      memorySwap := hs.memorySwap
      kernelMemory := hs.kernelMemory
      swappiness := hs.swappiness
      shmSize := hs.shmSize
      maxIOBandwidth := hs.maxIOBandwidth
      binds := parseBindsLoop_rest c copts v.binds v.flVolumes
        (fun e he hb => hone e he ((isBindEntry_iff e).mp hb)) hs.binds
      tmpfs := hs.tmpfs
      ports := hs.ports
      devices := hs.devices
      env := hs.env
      labels := hs.labels
      ipcMode := hs.ipcMode
      pidMode := hs.pidMode
      utsMode := hs.utsMode
      usernsMode := hs.usernsMode
      restartPolicy := hs.restartPolicy
      loggingOpts := hs.loggingOpts
      securityOpts := hsec
      storageOpts := hs.storageOpts
      healthcheck := hs.healthcheck }
  refine ⟨parseAssemble c flags (parseAssemble c flags copts v).copts { v with binds := [] },
    (Parse_ok_iff c flags _ _).mpr ⟨_, hs2, rfl⟩, rfl, rfl, rfl, ?_⟩
  have hh : (parseAssemble c flags (parseAssemble c flags copts v).copts
      { v with binds := [] }).hostConfig =
      { (parseAssemble c flags copts v).hostConfig with Binds := [] } := rfl
  rw [hh]
  constructor
  · intro h
    have := congrArg HostConfig.Binds h
    exact this.symm
  · intro h
    generalize (parseAssemble c flags copts v).hostConfig = hc at h
    cases hc
    simp only at h
    simp only [h]

theorem Parse_second_run_witness :
    Parse exampleCollaborators exampleFlags (exampleOptions ["/tmp/q:/foo".toList]) =
      .ok (parseAssemble exampleCollaborators exampleFlags
        (exampleOptions ["/tmp/q:/foo".toList])
        { exampleValues [] none with binds := ["/tmp/q:/foo".toList] }) ∧
    (∀ opt ∈ (exampleOptions ["/tmp/q:/foo".toList]).flSecurityOpt.GetAll,
      ∀ kv, securityOptResolve opt = some kv →
        ¬ (kv.1 = "seccomp".toList ∧ kv.2 ≠ "unconfined".toList)) ∧
    (∀ e ∈ (exampleOptions ["/tmp/q:/foo".toList]).flVolumes.values,
      (∃ arr, volumeSplitN e 2 = some arr ∧ arr.length > 1) →
        (exampleOptions ["/tmp/q:/foo".toList]).flVolumes.values.count e = 1) ∧
    ∃ r2, Parse exampleCollaborators exampleFlags
        (parseAssemble exampleCollaborators exampleFlags
          (exampleOptions ["/tmp/q:/foo".toList])
          { exampleValues [] none with binds := ["/tmp/q:/foo".toList] }).copts = .ok r2 ∧
      r2.config = (parseAssemble exampleCollaborators exampleFlags
          (exampleOptions ["/tmp/q:/foo".toList])
          { exampleValues [] none with binds := ["/tmp/q:/foo".toList] }).config ∧
      r2.networkingConfig = (parseAssemble exampleCollaborators exampleFlags
          (exampleOptions ["/tmp/q:/foo".toList])
          { exampleValues [] none with binds := ["/tmp/q:/foo".toList] }).networkingConfig ∧
      r2.hostConfig = { (parseAssemble exampleCollaborators exampleFlags
          (exampleOptions ["/tmp/q:/foo".toList])
          { exampleValues [] none with binds := ["/tmp/q:/foo".toList] }).hostConfig with
        Binds := [] } ∧
      (r2.hostConfig = (parseAssemble exampleCollaborators exampleFlags
          (exampleOptions ["/tmp/q:/foo".toList])
          { exampleValues [] none with binds := ["/tmp/q:/foo".toList] }).hostConfig ↔
        (parseAssemble exampleCollaborators exampleFlags
          (exampleOptions ["/tmp/q:/foo".toList])
          { exampleValues [] none with binds := ["/tmp/q:/foo".toList] }).hostConfig.Binds =
          []) :=
  ⟨by decide, by decide, by simp [exampleOptions],
    Parse_second_run exampleCollaborators exampleFlags
      (exampleOptions ["/tmp/q:/foo".toList]) _ (by decide) (by decide)
      (by simp [exampleOptions])⟩

theorem Parse_second_run_counterexample :
    (Parse exampleCollaborators exampleFlags (exampleOptions ["/tmp/q:/foo".toList])).bind
        (fun r => (Parse exampleCollaborators exampleFlags r.copts).map
          (fun r2 => (r.hostConfig.Binds, r2.hostConfig.Binds))) =
      .ok (["/tmp/q:/foo".toList], []) ∧
    ((Parse exampleSeccompCollaborators exampleFlags
        { exampleOptions [] with flSecurityOpt := ⟨["seccomp=p.json".toList]⟩ }).map
        (fun r => (r.hostConfig.SecurityOpt,
          (Parse exampleSeccompCollaborators exampleFlags r.copts).isOk))) =
      .ok (["seccomp={}".toList], false) := by
  decide
